import Mathlib

/-!
# Project-Camp backend: auth, project, membership, task and note controllers

A shallow embedding of the controllers of `src/controllers` over an explicit
document store. Every collection is a list of documents in insertion order; a
controller is a function from the store and the request fields it reads to an
`Outcome`: the store it leaves behind together with either the response it
sent or the exception it threw.

Conventions.
* An `ObjectId` is a natural number. A request parameter that is meant to be
  an id arrives as text, so it is a `RawId`: either text that casts to an
  `ObjectId` or text that does not.
* A field of the request body that may be `undefined` is an `Option`.
* The `ObjectId` that the driver generates for an inserted document is an
  explicit argument (`newId`, ...) of the controller that inserts.
* The paths `username` and `email` of the user schema are trimmed and
  lower-cased, both when a value is stored and when a query compares with it;
  the two string methods are parameters (`StringLib`).
* `deleteProject` runs on a `Db`, which records every model call when it is
  issued; the other controllers act on the store directly.
-/

namespace ProjectCamp

/-! ## Identifiers, errors and responses -/

abbrev ObjectId := Nat

/-- The text of an id taken from the URL or the body: `hex id` casts to the
`ObjectId` `id`, `malformed` does not cast. -/
inductive RawId where
  | hex (id : ObjectId)
  | malformed
  deriving DecidableEq, Repr

/-- `mongoose.isValidObjectId`: whether the text casts to an `ObjectId`. -/
def isValidObjectId : RawId → Bool
  | .hex _ => true
  | .malformed => false

/-- The value a caller passes as `message` to `new ApiError`: a text, or the
empty object literal. -/
inductive ErrorMessage where
  | text (t : String)
  | emptyObject
  deriving DecidableEq, Repr

instance : Coe String ErrorMessage := ⟨ErrorMessage.text⟩

/-- The value a caller passes as `errors` to `new ApiError`: a list of
`{ path: message }` entries, or a text. -/
inductive ErrorList where
  | entries (es : List (String × String))
  | text (t : String)
  deriving DecidableEq, Repr

/-- `utils/api-error.js`: `statusCode`, `message` and `errors` are constructor
arguments (with the defaults of the constructor), `success` is always false and
`data` always null. -/
structure ApiError where
  statusCode : Nat
  message : ErrorMessage := .text "Something went wrong"
  errors : ErrorList := .entries []
  deriving DecidableEq, Repr

def ApiError.success (_ : ApiError) : Bool := false

/-- What a controller throws: an `ApiError` of its own, the cast exception
that mongoose raises when a malformed id reaches a query or
`new mongoose.Types.ObjectId`, or the `TypeError` of a method call on null. -/
inductive Failure where
  | api (e : ApiError)
  | cast
  | typeError
  deriving DecidableEq, Repr

/-- The status code a failure carries; a cast exception or a `TypeError` is not
an `ApiError` and carries none. -/
def Failure.status : Failure → Option Nat
  | .api e => some e.statusCode
  | .cast => none
  | .typeError => none

/-- `new ApiResponse(statusCode, data, message)`. -/
structure ApiResponse (δ : Type) where
  statusCode : Nat
  data : δ
  message : String
  deriving DecidableEq, Repr

/-- `res.status(status).json(body)`. -/
structure Response (δ : Type) where
  status : Nat
  body : ApiResponse δ
  deriving DecidableEq, Repr

/-! ## Documents

Modelled from the spec: the schema files `models/project.models.js`,
`projectmember.models.js`, `task.models.js`, `subtask.models.js` and
`note.models.js` are absent; the fields are those of the spec's data model,
under the names the controllers write. Documents are stored as given. -/

/-- Modelled from the spec: `utils/constants.js` is absent; a role is the text
held in a membership record. -/
abbrev Role := String

/-- Modelled from the spec: `UserRolesEnum.ADMIN` of the absent
`utils/constants.js`, the text the note controllers compare against. -/
def UserRolesEnum.ADMIN : Role := "admin"

/-- A user document (`models/user.model.js`), without the avatar. The project
controllers read `_id` and `email` only. A field without a value is `none`;
the two expiry dates are milliseconds since the epoch. The stored `username`
and `email` are what the setters of the schema made of the assigned values. -/
structure User where
  _id : ObjectId
  email : String
  username : String := ""
  fullName : Option String := none
  password : String := ""
  isEmailVerified : Bool := false
  refreshToken : Option String := none
  forgotPasswordToken : Option String := none
  forgotPasswordExpiry : Option Nat := none
  emailVerificationToken : Option String := none
  emailVerificationExpiry : Option Nat := none
  deriving DecidableEq, Repr

/-- `String.prototype.trim` and `String.prototype.toLowerCase` of the JavaScript
runtime, taken as given. -/
structure StringLib where
  trim : String → String
  toLowerCase : String → String

/-- The setter that the schema option `trim: true` puts on a path: a text that
is not empty is trimmed. -/
def trimSetter (lib : StringLib) (v : String) : String :=
  if v != "" then lib.trim v else v

/-- The setter that the schema option `lowercase: true` puts on a path: a text
that is not empty is lower-cased. -/
def lowercaseSetter (lib : StringLib) (v : String) : String :=
  if v != "" then lib.toLowerCase v else v

/-- The paths `username` and `email` of `userSchema` are declared with
`lowercase: true, trim: true`. mongoose runs the setters of a path on a value
that is assigned to the path and on a value that a query filter compares with
the path, the setter declared last first: the value is trimmed, then
lower-cased. -/
def lowercaseTrim (lib : StringLib) (v : String) : String :=
  lowercaseSetter lib (trimSetter lib v)

structure Project where
  _id : ObjectId
  name : Option String
  description : Option String
  createdBy : ObjectId
  deriving DecidableEq, Repr

structure ProjectMember where
  _id : ObjectId
  user : ObjectId
  project : ObjectId
  role : Role
  deriving DecidableEq, Repr

structure Attachment where
  url : String
  mimetype : String
  size : Nat
  deriving DecidableEq, Repr

structure Task where
  _id : ObjectId
  title : Option String
  description : Option String
  project : ObjectId
  assignedTo : Option ObjectId
  status : Option String
  assignedBy : ObjectId
  attachments : List Attachment
  deriving DecidableEq, Repr

structure Subtask where
  _id : ObjectId
  title : Option String
  description : Option String
  task : ObjectId
  isCompleted : Option Bool
  createdBy : ObjectId
  deriving DecidableEq, Repr

structure ProjectNote where
  _id : ObjectId
  project : ObjectId
  createdBy : ObjectId
  content : Option String
  deriving DecidableEq, Repr

/-- The database: one list of documents per collection. -/
structure Store where
  users : List User
  projects : List Project
  members : List ProjectMember
  tasks : List Task
  subtasks : List Subtask
  notes : List ProjectNote
  deriving DecidableEq, Repr

/-- The store a controller leaves and what it answered or threw. -/
structure Outcome (δ : Type) where
  store : Store
  result : Except Failure (Response δ)

/-- The status code of an outcome: of the response, or of the `ApiError`. -/
def Outcome.status {δ : Type} (o : Outcome δ) : Option Nat :=
  match o.result with
  | .ok r => some r.status
  | .error f => f.status

/-- Whether the controller answered (threw nothing). -/
def Outcome.succeeded {δ : Type} (o : Outcome δ) : Bool :=
  match o.result with
  | .ok _ => true
  | .error _ => false

/-- `throw new ApiError(statusCode, message)` from store `s`. -/
def throwApi {δ : Type} (s : Store) (statusCode : Nat) (message : String) : Outcome δ :=
  { store := s, result := .error (.api { statusCode := statusCode, message := message }) }

/-- A cast exception raised from store `s`. -/
def throwCast {δ : Type} (s : Store) : Outcome δ :=
  { store := s, result := .error .cast }

/-- `return res.status(status).json(new ApiResponse(status, data, message))`. -/
def respond {δ : Type} (s : Store) (status : Nat) (data : δ) (message : String) : Outcome δ :=
  { store := s,
    result := .ok { status := status,
                    body := { statusCode := status, data := data, message := message } } }

/-! ## Collection primitives -/

/-- `Model.deleteMany(filter)`: every matching document is removed. -/
def deleteMany {α : Type} (filter : α → Bool) (docs : List α) : List α :=
  docs.filter (fun d => !filter d)

/-- `Model.find(filter)`. -/
def find {α : Type} (filter : α → Bool) (docs : List α) : List α :=
  docs.filter filter

/-- `Model.findOne(filter)`: the first matching document. -/
def findOne {α : Type} (filter : α → Bool) (docs : List α) : Option α :=
  docs.find? filter

/-- Removal of the first matching document (`findByIdAndDelete`, `deleteOne`). -/
def deleteFirst {α : Type} (filter : α → Bool) : List α → List α
  | [] => []
  | d :: ds => if filter d then ds else d :: deleteFirst filter ds

/-- Update of the first matching document (`findByIdAndUpdate`,
`findOneAndUpdate`, `save`). -/
def updateFirst {α : Type} (filter : α → Bool) (f : α → α) : List α → List α
  | [] => []
  | d :: ds => if filter d then f d :: ds else d :: updateFirst filter f ds

/-- `findByIdAndUpdate` and `findOneAndUpdate` with `new: true`: the updated
document (or null) and the collection afterwards. -/
def findOneAndUpdate {α : Type} (filter : α → Bool) (f : α → α) (docs : List α) :
    Option α × List α :=
  match findOne filter docs with
  | none => (none, docs)
  | some d => (some (f d), updateFirst filter f docs)

/-- `findByIdAndDelete`: the deleted document (or null) and the collection
afterwards. -/
def findOneAndDelete {α : Type} (filter : α → Bool) (docs : List α) :
    Option α × List α :=
  match findOne filter docs with
  | none => (none, docs)
  | some d => (some d, deleteFirst filter docs)

/-- `findOneAndUpdate(filter, update, { upsert: true })`: the first match is
updated; without a match the document `inserted` is added. -/
def findOneAndUpsert {α : Type} (filter : α → Bool) (f : α → α) (inserted : α)
    (docs : List α) : List α :=
  match findOne filter docs with
  | some _ => updateFirst filter f docs
  | none => docs ++ [inserted]

/-- JavaScript truthiness of a text field of the body: present and not empty. -/
def truthy : Option String → Bool
  | none => false
  | some t => t != ""

/-- The authenticated user of the request, `req.user`: its `_id`, and the
`role` that the permission middleware attaches. -/
structure ReqUser where
  _id : ObjectId
  role : Option Role
  deriving DecidableEq, Repr

/-- Modelled from the spec: `UserRolesEnum.PROJECT_ADMIN` of the absent
`utils/constants.js`. -/
def UserRolesEnum.PROJECT_ADMIN : Role := "project-admin"

/-- Modelled from the spec: `UserRolesEnum.MEMBER` of the absent
`utils/constants.js`. -/
def UserRolesEnum.MEMBER : Role := "member"

/-- Modelled from the spec: `AvailableUserRole` of the absent
`utils/constants.js`, the closed enumeration of roles. -/
def AvailableUserRole : List Role :=
  [UserRolesEnum.ADMIN, UserRolesEnum.PROJECT_ADMIN, UserRolesEnum.MEMBER]

/-! ## Database calls, recorded as they are issued

`deleteProject` awaits one model call after the other. To speak about the
order of these calls, the controller runs on a `Db`: the store together with the
list of the calls issued so far. A call can only be made through `Db.issue`,
which records it and applies it. -/

/-- A model call that `deleteProject` makes, with its filter. -/
inductive StoreOp where
  | projectFindByIdAndDelete (id : ObjectId)
  | projectMemberDeleteMany (project : ObjectId)
  | taskFind (project : ObjectId)
  | subtaskDeleteMany (taskIn : List ObjectId)
  | taskDeleteMany (idIn : List ObjectId)
  | projectNoteDeleteMany (project : ObjectId)
  deriving DecidableEq, Repr

/-- The effect of one call on the store (a fetch has none). -/
def StoreOp.apply : StoreOp → Store → Store
  | .projectFindByIdAndDelete id, s =>
    { s with projects := (findOneAndDelete (fun p => p._id == id) s.projects).2 }
  | .projectMemberDeleteMany project, s =>
    { s with members := deleteMany (fun m => m.project == project) s.members }
  | .taskFind _, s => s
  | .subtaskDeleteMany taskIn, s =>
    { s with subtasks := deleteMany (fun st => taskIn.contains st.task) s.subtasks }
  | .taskDeleteMany idIn, s =>
    { s with tasks := deleteMany (fun t => idIn.contains t._id) s.tasks }
  | .projectNoteDeleteMany project, s =>
    { s with notes := deleteMany (fun n => n.project == project) s.notes }

/-- The database during a request: the calls issued so far, oldest first, and
the store they have left. -/
structure Db where
  ops : List StoreOp
  store : Store

/-- A call is issued: it is recorded after the earlier ones and takes effect on
the store. -/
def Db.issue (db : Db) (op : StoreOp) : Db :=
  { ops := db.ops ++ [op], store := op.apply db.store }

/-- `await Project.findByIdAndDelete(id)`: the deleted document, or null. -/
def Db.projectFindByIdAndDelete (db : Db) (id : ObjectId) : Option Project × Db :=
  ((findOneAndDelete (fun p => p._id == id) db.store.projects).1,
   db.issue (.projectFindByIdAndDelete id))

/-- `await ProjectMember.deleteMany({ project })`. -/
def Db.projectMemberDeleteMany (db : Db) (project : ObjectId) : Db :=
  db.issue (.projectMemberDeleteMany project)

/-- `await Task.find({ project })`: the fetched tasks. -/
def Db.taskFind (db : Db) (project : ObjectId) : List Task × Db :=
  (find (fun t => t.project == project) db.store.tasks, db.issue (.taskFind project))

/-- `await Subtask.deleteMany({ task: { $in: taskIn } })`. -/
def Db.subtaskDeleteMany (db : Db) (taskIn : List ObjectId) : Db :=
  db.issue (.subtaskDeleteMany taskIn)

/-- `await Task.deleteMany({ _id: { $in: idIn } })`. -/
def Db.taskDeleteMany (db : Db) (idIn : List ObjectId) : Db :=
  db.issue (.taskDeleteMany idIn)

/-- `await ProjectNote.deleteMany({ project })`. -/
def Db.projectNoteDeleteMany (db : Db) (project : ObjectId) : Db :=
  db.issue (.projectNoteDeleteMany project)

/-- An outcome together with the calls that were issued, in the order of
issue. -/
structure Traced (δ : Type) extends Outcome δ where
  ops : List StoreOp

/-- `throw new ApiError(statusCode, message)` after the calls of `db`. -/
def Db.throwApi {δ : Type} (db : Db) (statusCode : Nat) (message : String) : Traced δ :=
  { toOutcome := ProjectCamp.throwApi db.store statusCode message, ops := db.ops }

/-- A cast exception after the calls of `db`. -/
def Db.throwCast {δ : Type} (db : Db) : Traced δ :=
  { toOutcome := ProjectCamp.throwCast db.store, ops := db.ops }

/-- `return res.status(status).json(...)` after the calls of `db`. -/
def Db.respond {δ : Type} (db : Db) (status : Nat) (data : δ) (message : String) :
    Traced δ :=
  { toOutcome := ProjectCamp.respond db.store status data message, ops := db.ops }

/-! ## project.controllers.js -/

/-- `createProject`: the project record, then the creator's membership. -/
def createProject (s : Store) (newProjectId newMemberId : ObjectId) (user : ReqUser)
    (name description : Option String) : Outcome Project :=
  let project : Project :=
    { _id := newProjectId, name := name, description := description, createdBy := user._id }
  let s1 := { s with projects := s.projects ++ [project] }
  let s2 := { s1 with members := s1.members ++
    [{ _id := newMemberId, user := user._id, project := project._id,
       role := UserRolesEnum.ADMIN }] }
  respond s2 201 project "Project created Successfully"

/-- `deleteProject`: guard on the id; `Project.findByIdAndDelete`, and 404 when
it finds nothing; then `ProjectMember.deleteMany`, `Task.find`, the ids of the
fetched tasks, `Subtask.deleteMany`, `Task.deleteMany` and
`ProjectNote.deleteMany`, each awaited before the next is issued. Every call
goes through `Db`, so the outcome carries the calls in the order of issue. -/
def deleteProject (s : Store) (projectId : RawId) : Traced Project :=
  let db : Db := { ops := [], store := s }
  if !isValidObjectId projectId then db.throwApi 400 "Project Id is not valid"
  else
    match projectId with
    | .malformed => db.throwCast
    | .hex pid =>
      match db.projectFindByIdAndDelete pid with
      | (none, db1) => db1.throwApi 404 "Project not found"
      | (some project, db1) =>
        let db2 := db1.projectMemberDeleteMany pid
        match db2.taskFind pid with
        | (tasks, db3) =>
          let taskIds := tasks.map (fun task => task._id)
          let db4 := db3.subtaskDeleteMany taskIds
          let db5 := db4.taskDeleteMany taskIds
          let db6 := db5.projectNoteDeleteMany pid
          db6.respond 200 project
            "Project and all related tasks, subtasks, notes, and members deleted successfully"

/-- `addMembersToProject`: resolve the user from the email of the body by
`User.findOne({ email })`, whose filter value goes through the setters of the
path, then upsert the membership of (user, project) with the role of the
body. -/
def addMembersToProject (lib : StringLib) (s : Store) (newId : ObjectId) (email : String)
    (role : Role) (projectId : RawId) : Outcome Unit :=
  match findOne (fun u => u.email == lowercaseTrim lib email) s.users with
  | none => throwApi s 404 "User does not exists"
  | some user =>
    match projectId with
    | .malformed => throwCast s
    | .hex pid =>
      let members := findOneAndUpsert
        (fun m => m.user == user._id && m.project == pid)
        (fun m => { m with user := user._id, project := pid, role := role })
        { _id := newId, user := user._id, project := pid, role := role }
        s.members
      respond { s with members := members } 201 () "Project member added successfully"

/-- `updateMemberRole`: the role must be in `AvailableUserRole`; the membership
of (project, user) is looked up and its role replaced. -/
def updateMemberRole (s : Store) (projectId userId : RawId) (newRole : Option Role) :
    Outcome ProjectMember :=
  match newRole with
  | none => throwApi s 400 "Invalid Role"
  | some r =>
    if !AvailableUserRole.contains r then throwApi s 400 "Invalid Role"
    else
      match projectId, userId with
      | .hex pid, .hex uid =>
        match findOne (fun m => m.project == pid && m.user == uid) s.members with
        | none => throwApi s 400 "Project member not found"
        | some projectMember =>
          match findOneAndUpdate (fun m => m._id == projectMember._id)
              (fun m => { m with role := r }) s.members with
          | (none, members) => throwApi { s with members := members } 400 "Project member not found"
          | (some updated, members) =>
            respond { s with members := members } 200 updated
              "Project member role updated successfully"
      | _, _ => throwCast s

/-- `deleteMember`: the membership of (project, user) is looked up and deleted
by its id. -/
def deleteMember (s : Store) (projectId userId : RawId) : Outcome ProjectMember :=
  match projectId, userId with
  | .hex pid, .hex uid =>
    match findOne (fun m => m.project == pid && m.user == uid) s.members with
    | none => throwApi s 400 "Project member not found"
    | some projectMember =>
      match findOneAndDelete (fun m => m._id == projectMember._id) s.members with
      | (none, members) => throwApi { s with members := members } 400 "Project member not found"
      | (some deleted, members) =>
        respond { s with members := members } 200 deleted "Project member deleted successfully"
  | _, _ => throwCast s

/-! ## note.controllers.js -/

/-- `createProjectNote`: only a request whose `req.user.role` is the text
"admin" passes; the project must exist; the note is inserted. -/
def createProjectNote (s : Store) (newId : ObjectId) (user : ReqUser) (projectId : RawId)
    (content : Option String) : Outcome ProjectNote :=
  if user.role != some "admin" then throwApi s 403 "Only admins can create notes"
  else
    match projectId with
    | .malformed => throwCast s
    | .hex pid =>
      match findOne (fun p => p._id == pid) s.projects with
      | none => throwApi s 404 "Project not found"
      | some _ =>
        let note : ProjectNote :=
          { _id := newId, project := pid, createdBy := user._id, content := content }
        respond { s with notes := s.notes ++ [note] } 200 note "Note created successfully"

/-- `updateProjectNote`: `note.content = content || note.content`, then
`note.save()`. -/
def updateProjectNote (s : Store) (user : ReqUser) (noteId : RawId)
    (content : Option String) : Outcome ProjectNote :=
  if user.role != some "admin" then throwApi s 403 "Only admins can update notes"
  else
    match noteId with
    | .malformed => throwCast s
    | .hex nid =>
      match findOne (fun n => n._id == nid) s.notes with
      | none => throwApi s 404 "Note not found"
      | some note =>
        let saved : ProjectNote :=
          { note with content := if truthy content then content else note.content }
        respond
          { s with notes := updateFirst (fun n => n._id == note._id) (fun _ => saved) s.notes }
          200 saved "Note updated successfully"

/-- `deleteProjetNote`: guard on the id, guard on the role, then
`findByIdAndDelete`. -/
def deleteProjetNote (s : Store) (user : ReqUser) (noteId : RawId) : Outcome ProjectNote :=
  if !isValidObjectId noteId then throwApi s 400 "Invalid note Id"
  else if user.role != some "admin" then throwApi s 400 "Only Admins can delete notes"
  else
    match noteId with
    | .malformed => throwCast s
    | .hex nid =>
      match findOneAndDelete (fun n => n._id == nid) s.notes with
      | (none, _) => throwApi s 404 "Note not found"
      | (some note, notes) =>
        respond { s with notes := notes } 200 note "Note deleted successfully"

/-! ## task.controllers.js -/

/-- An uploaded file of `req.files`, as the task controller reads it. -/
structure UploadedFile where
  originalname : String
  mimetype : String
  size : Nat
  deriving DecidableEq, Repr

/-- The two environment variables of the attachment url. -/
structure Env where
  SERVER_URL : String
  IMAGES_PATH : String
  deriving DecidableEq, Repr

/-- The attachment record built from an uploaded file. -/
def toAttachment (env : Env) (file : UploadedFile) : Attachment :=
  { url := env.SERVER_URL ++ "/" ++ env.IMAGES_PATH ++ "/" ++ file.originalname,
    mimetype := file.mimetype, size := file.size }

/-- `createTask`: the project must exist (a malformed id makes `findById`
throw); `assignedTo`, when truthy (`some`), is cast to an `ObjectId`;
`files` is `req.files || []`. -/
def createTask (env : Env) (s : Store) (newId : ObjectId) (user : ReqUser) (projectId : RawId)
    (title description : Option String) (assignedTo : Option RawId) (status : Option String)
    (files : List UploadedFile) : Outcome Task :=
  match projectId with
  | .malformed => throwCast s
  | .hex pid =>
    match findOne (fun p => p._id == pid) s.projects with
    | none => throwApi s 404 "Project not found"
    | some _ =>
      let attachments := files.map (toAttachment env)
      let create (assignee : Option ObjectId) : Outcome Task :=
        let task : Task :=
          { _id := newId, title := title, description := description, project := pid,
            assignedTo := assignee, status := status, assignedBy := user._id,
            attachments := attachments }
        respond { s with tasks := s.tasks ++ [task] } 201 task "Task created successfully"
      match assignedTo with
      | none => create none
      | some (.hex a) => create (some a)
      | some .malformed => throwCast s

/-- `deleteTask`: guard on the id, look the task up, delete its subtasks, then
the task itself. -/
def deleteTask (s : Store) (taskId : RawId) : Outcome Unit :=
  if !isValidObjectId taskId then throwApi s 400 "Task Id is not valid.."
  else
    match taskId with
    | .malformed => throwCast s
    | .hex tid =>
      match findOne (fun t => t._id == tid) s.tasks with
      | none => throwApi s 400 "Task is not found via taskId"
      | some task =>
        let s1 := { s with subtasks := deleteMany (fun st => st.task == task._id) s.subtasks }
        let s2 := { s1 with tasks := deleteFirst (fun t => t._id == task._id) s1.tasks }
        respond s2 200 () "Task deleted successfully"

/-- `createSubTask`: guard on the id, guard on the title, the task must exist;
the subtask is inserted under `task._id`. -/
def createSubTask (s : Store) (newId : ObjectId) (user : ReqUser) (taskId : RawId)
    (title description : Option String) (isCompleted : Option Bool) : Outcome Subtask :=
  if !isValidObjectId taskId then throwApi s 400 "Task ID is not valid"
  else if !truthy title then throwApi s 400 "Title is not provided.."
  else
    match taskId with
    | .malformed => throwCast s
    | .hex tid =>
      match findOne (fun t => t._id == tid) s.tasks with
      | none => throwApi s 404 "Task not found"
      | some task =>
        let subtask : Subtask :=
          { _id := newId, title := title, description := description, task := task._id,
            isCompleted := isCompleted, createdBy := user._id }
        respond { s with subtasks := s.subtasks ++ [subtask] } 201 subtask
          "Subtask created successfully"

/-- `updateTask`: guard on the id, the task must exist; each of `title`,
`description`, `status` and `assignedTo` is assigned when truthy; `attachments`
is built from `req.files || []` and assigned under `if (attachments)`, a test
that an array always passes; then `task.save()`. -/
def updateTask (env : Env) (s : Store) (taskId : RawId) (title description : Option String)
    (assignedTo : Option RawId) (status : Option String) (files : List UploadedFile) :
    Outcome Task :=
  if !isValidObjectId taskId then throwApi s 400 "Inavlid task ID"
  else
    match taskId with
    | .malformed => throwCast s
    | .hex tid =>
      match findOne (fun t => t._id == tid) s.tasks with
      | none => throwApi s 404 "Task not found"
      | some task =>
        let task1 := if truthy title then { task with title := title } else task
        let task2 := if truthy description then { task1 with description := description }
          else task1
        let task3 := if truthy status then { task2 with status := status } else task2
        let save (task4 : Task) : Outcome Task :=
          let attachments := files.map (toAttachment env)
          let task5 := { task4 with attachments := attachments }
          respond { s with tasks := updateFirst (fun t => t._id == task5._id) (fun _ => task5)
                                      s.tasks }
            200 task5 "Task updated successfully"
        match assignedTo with
        | none => save task3
        | some (.hex a) => save { task3 with assignedTo := some a }
        | some .malformed => throwCast s

/-- `updateSubTask`: the subtask must exist; the update holds `title` and
`description` when truthy and `isCompleted` when it is true
(`...(isCompleted && { isCompleted })`); `findByIdAndUpdate` applies it. -/
def updateSubTask (s : Store) (subTaskId : RawId) (title description : Option String)
    (isCompleted : Option Bool) : Outcome Subtask :=
  match subTaskId with
  | .malformed => throwCast s
  | .hex sid =>
    match findOne (fun st => st._id == sid) s.subtasks with
    | none => throwApi s 404 "Subtask not found"
    | some _ =>
      let update (st : Subtask) : Subtask :=
        let st1 := if truthy title then { st with title := title } else st
        let st2 := if truthy description then { st1 with description := description } else st1
        if isCompleted == some true then { st2 with isCompleted := isCompleted } else st2
      match findOneAndUpdate (fun st => st._id == sid) update s.subtasks with
      | (none, subtasks) =>
        throwApi { s with subtasks := subtasks } 400 "Subtask not updation failed"
      | (some updated, subtasks) =>
        respond { s with subtasks := subtasks } 200 updated "Subtask updated successfully"

/-- `deleteSubTask`: guard on the id, the subtask must exist, `deleteOne()`. -/
def deleteSubTask (s : Store) (subTaskId : RawId) : Outcome Unit :=
  if !isValidObjectId subTaskId then throwApi s 400 "Invalid subtask ID"
  else
    match subTaskId with
    | .malformed => throwCast s
    | .hex sid =>
      match findOne (fun st => st._id == sid) s.subtasks with
      | none => throwApi s 404 "Subtask not found"
      | some delSubtask =>
        respond
          { s with subtasks := deleteFirst (fun st => st._id == delSubtask._id) s.subtasks }
          200 () "Subtask deleted successfully"

/-! ## routes/note.routes.js and routes/task.routes.js

A route is the list of handlers that express runs in order once
`router.use(verifyJWT)` has authenticated the request and set `req.user`. -/

/-- The validator chains of `validators/index.js` that the two routers mount. -/
inductive Validator where
  | validateContentNote
  | createTheTasks
  | UpdateTheTask
  | createTheSubTask
  | updateTheSubTask
  deriving DecidableEq, Repr

/-- The controllers that the two routers mount. -/
inductive Controller where
  | getProjectNotes
  | createProjectNote
  | getProjectNoteById
  | updateProjectNote
  | deleteProjetNote
  | getTasks
  | createTask
  | getTaskById
  | updateTask
  | deleteTask
  | createSubTask
  | updateSubTask
  | deleteSubTask
  deriving DecidableEq, Repr

/-- One handler of a route. -/
inductive Handler where
  | validateProjectPermission (roles : List Role)
  | uploadArray (field : String)
  | validateTaskStatus
  | validator (v : Validator)
  | validate
  | controller (c : Controller)
  deriving DecidableEq, Repr

inductive Method where
  | get
  | post
  | put
  | delete
  deriving DecidableEq, Repr

structure Route where
  path : String
  method : Method
  handlers : List Handler
  deriving DecidableEq, Repr

/-- The routes of `routes/note.routes.js`. -/
def noteRouter : List Route :=
  [ { path := "/:projectId", method := .get,
      handlers := [.validateProjectPermission AvailableUserRole,
                   .controller .getProjectNotes] },
    { path := "/:projectId", method := .post,
      handlers := [.validateProjectPermission [UserRolesEnum.ADMIN],
                   .validator .validateContentNote, .validate,
                   .controller .createProjectNote] },
    { path := "/:projectId/n/:noteId", method := .get,
      handlers := [.validateProjectPermission AvailableUserRole,
                   .controller .getProjectNoteById] },
    { path := "/:projectId/n/:noteId", method := .put,
      handlers := [.validateProjectPermission [UserRolesEnum.ADMIN],
                   .validator .validateContentNote, .validate,
                   .controller .updateProjectNote] },
    { path := "/:projectId/n/:noteId", method := .delete,
      handlers := [.validateProjectPermission [UserRolesEnum.ADMIN],
                   .controller .deleteProjetNote] } ]

/-- The routes of `routes/task.routes.js`. -/
def taskRouter : List Route :=
  [ { path := "/:projectId", method := .get,
      handlers := [.validateProjectPermission AvailableUserRole, .controller .getTasks] },
    { path := "/:projectId", method := .post,
      handlers := [.validateProjectPermission
                     [UserRolesEnum.ADMIN, UserRolesEnum.PROJECT_ADMIN],
                   .uploadArray "attachments", .validator .createTheTasks, .validate,
                   .controller .createTask] },
    { path := "/:projectId/t/:taskId", method := .get,
      handlers := [.validateProjectPermission AvailableUserRole, .controller .getTaskById] },
    { path := "/:projectId/t/:taskId", method := .put,
      handlers := [.validateProjectPermission
                     [UserRolesEnum.ADMIN, UserRolesEnum.PROJECT_ADMIN],
                   .uploadArray "attachments", .validateTaskStatus,
                   .validator .UpdateTheTask, .validate, .controller .updateTask] },
    { path := "/:projectId/t/:taskId", method := .delete,
      handlers := [.validateProjectPermission
                     [UserRolesEnum.ADMIN, UserRolesEnum.PROJECT_ADMIN],
                   .controller .deleteTask] },
    { path := "/:projectId/t/:taskId/subtasks", method := .post,
      handlers := [.validateProjectPermission
                     [UserRolesEnum.ADMIN, UserRolesEnum.PROJECT_ADMIN],
                   .validator .createTheSubTask, .validate, .controller .createSubTask] },
    { path := "/:projectId/st/:subTaskId", method := .put,
      handlers := [.validateProjectPermission AvailableUserRole,
                   .validator .updateTheSubTask, .validate, .controller .updateSubTask] },
    { path := "/:projectId/st/:subTaskId", method := .delete,
      handlers := [.validateProjectPermission
                     [UserRolesEnum.ADMIN, UserRolesEnum.PROJECT_ADMIN],
                   .controller .deleteSubTask] } ]

/-- The request as a handler sees it: the database, `req.user`,
`req.params.projectId`, and the remainder of the request. -/
structure Ctx (ρ : Type) where
  store : Store
  user : ReqUser
  projectId : RawId
  rest : ρ

/-- What a handler does: pass the (possibly changed) request on with `next()`,
or end the request with a response or an exception. -/
inductive Step (ρ δ : Type) where
  | next (ctx : Ctx ρ)
  | finish (store : Store) (result : Except Failure (Response δ))

/-- Modelled from the spec: `validateProjectPermission` of the absent
`middlewares/auth.middleware.js` (spec 4.1). The membership record of (user,
project) is looked up; the request fails with Forbidden (403) if the record is
absent or its role is not in the allowed set; otherwise it is permitted and the
resolved role is attached to `req.user`. -/
def validateProjectPermission {ρ δ : Type} (roles : List Role) (ctx : Ctx ρ) : Step ρ δ :=
  match findOne (fun m => m.user == ctx.user._id && RawId.hex m.project == ctx.projectId)
      ctx.store.members with
  | none => .finish ctx.store (.error (.api { statusCode := 403, message := "Forbidden" }))
  | some membership =>
    if roles.contains membership.role then
      .next { ctx with user := { ctx.user with role := some membership.role } }
    else .finish ctx.store (.error (.api { statusCode := 403, message := "Forbidden" }))

/-- The run of a route: the handlers that were entered, in order, the store
left behind, and the answer (none when every handler called `next()`). -/
structure Run (δ : Type) where
  entered : List Handler
  store : Store
  result : Option (Except Failure (Response δ))

/-- The status code of a run. -/
def Run.status {δ : Type} (r : Run δ) : Option Nat :=
  match r.result with
  | some (.ok resp) => some resp.status
  | some (.error f) => f.status
  | none => none

/-- The behaviour of one handler: the permission check is the one above, every
other handler behaves as `ext` says. -/
def dispatch {ρ δ : Type} (ext : Handler → Ctx ρ → Step ρ δ) : Handler → Ctx ρ → Step ρ δ
  | .validateProjectPermission roles, ctx => validateProjectPermission roles ctx
  | h, ctx => ext h ctx

/-- Express runs the handlers of a route in order; each one is entered only if
the one before it called `next()`. -/
def runChain {ρ δ : Type} (ext : Handler → Ctx ρ → Step ρ δ) : List Handler → Ctx ρ → Run δ
  | [], ctx => { entered := [], store := ctx.store, result := none }
  | h :: hs, ctx =>
    match dispatch ext h ctx with
    | .next ctx1 =>
      let r := runChain ext hs ctx1
      { r with entered := h :: r.entered }
    | .finish st res => { entered := [h], store := st, result := some res }

/-- Whether a handler is a controller. -/
def Handler.isController : Handler → Bool
  | .controller _ => true
  | _ => false

/-- Whether the first handler of a chain is the permission check. -/
def startsWithPermission : List Handler → Bool
  | .validateProjectPermission _ :: _ => true
  | _ => false

/-! ## A routed request: the permission check, then the controller -/

/-- A route whose handlers between the permission check and the controller all
call `next()`: the permission check of the route's `projectId` runs on the
store; if it permits, the controller runs with the `req.user` it leaves. -/
def routed {δ : Type} (roles : List Role) (s : Store) (user : ReqUser) (projectId : RawId)
    (controller : Store → ReqUser → Outcome δ) : Outcome δ :=
  match validateProjectPermission (δ := δ)
      roles { store := s, user := user, projectId := projectId, rest := () } with
  | .next ctx => controller ctx.store ctx.user
  | .finish store result => { store := store, result := result }

/-! ## Reading the hexadecimal text of a token back -/

/-- The value of a lower-case hexadecimal digit. -/
def hexValue (c : Char) : Nat :=
  if c.toNat ≥ 48 ∧ c.toNat ≤ 57 then c.toNat - 48 else c.toNat - 87

/-- The bytes that a hexadecimal text encodes, two digits for each byte. -/
def fromHex : List Char → List Nat
  | hi :: lo :: rest => (hexValue hi * 16 + hexValue lo) :: fromHex rest
  | _ => []

/-! ## models/user.model.js

The password hasher, the digest and the token signer are external; they are
the fields of `Primitives`. The clock (`Date.now()`, in milliseconds) and the
bytes that `crypto.randomBytes` draws are explicit arguments. -/

/-- The external primitives: the string methods of the runtime,
`bcrypt.hash(password, 10)` with the salt it draws held fixed,
`bcrypt.compare(password, stored)`, the SHA-256 hex digest, `jwt.sign` of the
access and of the refresh payload at a time, and `jwt.verify` of a refresh
token at a time: `none` when it throws, otherwise the `_id` of the payload, if
the payload has one. -/
structure Primitives extends StringLib where
  bcryptHash : String → String
  bcryptCompare : String → String → Bool
  sha256Hex : String → String
  signAccessToken : ObjectId → String → String → Nat → String
  signRefreshToken : ObjectId → Nat → String
  verifyRefreshToken : String → Nat → Option (Option RawId)

/-- `userSchema.pre("save")`: the password is replaced by its hash exactly when
`isModified("password")`. The flag `passwordModified` tells whether the caller
assigned `password` since the document was loaded or last saved. -/
def preSave (prim : Primitives) (passwordModified : Bool) (user : User) : User :=
  if !passwordModified then user
  else { user with password := prim.bcryptHash user.password }

/-- `user.save(...)`: the hook, then the document is written back under its
`_id`. -/
def save (prim : Primitives) (passwordModified : Bool) (user : User) (users : List User) :
    List User :=
  updateFirst (fun u => u._id == user._id) (fun _ => preSave prim passwordModified user) users

/-- The setters of `userSchema` on the paths of a document: `username` and
`email` are trimmed and lower-cased, `fullName` is trimmed. -/
def applySetters (lib : StringLib) (doc : User) : User :=
  { doc with username := lowercaseTrim lib doc.username,
             email := lowercaseTrim lib doc.email,
             fullName := doc.fullName.map (trimSetter lib) }

/-- `User.create(doc)`: the setters run on the assigned values; a new document
has every path modified, so the hook runs; the document is inserted. -/
def create (prim : Primitives) (doc : User) (users : List User) : User × List User :=
  (preSave prim true (applySetters prim.toStringLib doc),
   users ++ [preSave prim true (applySetters prim.toStringLib doc)])

/-- `userSchema.methods.isPasswordCorrect`. -/
def isPasswordCorrect (prim : Primitives) (user : User) (password : String) : Bool :=
  prim.bcryptCompare password user.password

/-- `userSchema.methods.generateAccessToken`. -/
def generateAccessToken (prim : Primitives) (user : User) (now : Nat) : String :=
  prim.signAccessToken user._id user.email user.username now

/-- `userSchema.methods.generateRefreshToken`. -/
def generateRefreshToken (prim : Primitives) (user : User) (now : Nat) : String :=
  prim.signRefreshToken user._id now

/-- The 20 bytes of `crypto.randomBytes(20)`. -/
structure Bytes20 where
  bytes : List (Fin 256)
  size : bytes.length = 20

/-- One lower-case hexadecimal digit. -/
def hexDigit (n : Nat) : Char :=
  if n < 10 then Char.ofNat (48 + n) else Char.ofNat (87 + n)

/-- `buffer.toString("hex")`: two digits for each byte. -/
def toHex (bytes : List (Fin 256)) : String :=
  String.mk (bytes.flatMap (fun b => [hexDigit (b.val / 16), hexDigit (b.val % 16)]))

/-- What `generateTemporaryToken` returns. -/
structure TemporaryToken where
  unHashedToken : String
  hashedToken : String
  tokenExpiry : Nat
  deriving DecidableEq, Repr

/-- `userSchema.methods.generateTemporaryToken`, with the random bytes drawn and
the time of the call. -/
def generateTemporaryToken (prim : Primitives) (random : Bytes20) (now : Nat) :
    TemporaryToken :=
  let unHashedToken := toHex random.bytes
  let hashedToken := prim.sha256Hex unHashedToken
  let tokenExpiry := now + 20 * 60 * 1000
  { unHashedToken := unHashedToken, hashedToken := hashedToken, tokenExpiry := tokenExpiry }

/-! ## auth.controllers.js -/

/-- A mail handed to `sendEmail`: the recipient, the subject, and the user
name and link of the mailgen content. -/
structure Mail where
  email : String
  subject : String
  username : String
  link : String
  deriving DecidableEq, Repr

/-- A user document after
`select("-password -refreshToken -emailVerificationToken -emailVerificationExpiry")`. -/
structure UserView where
  _id : ObjectId
  email : String
  username : String
  fullName : Option String
  isEmailVerified : Bool
  forgotPasswordToken : Option String
  forgotPasswordExpiry : Option Nat
  deriving DecidableEq, Repr

/-- The projection of `select`. -/
def User.select (u : User) : UserView :=
  { _id := u._id, email := u.email, username := u.username, fullName := u.fullName,
    isEmailVerified := u.isEmailVerified, forgotPasswordToken := u.forgotPasswordToken,
    forgotPasswordExpiry := u.forgotPasswordExpiry }

/-- `{ accessToken, refreshToken }`. -/
structure TokenPair where
  accessToken : String
  refreshToken : String
  deriving DecidableEq, Repr

/-- The data of the login response. -/
structure LoginData where
  user : Option UserView
  accessToken : String
  refreshToken : String
  deriving DecidableEq, Repr

/-- What an auth controller leaves: the store, the mails it sent, the cookies
it set and those it cleared, and what it answered or threw. -/
structure AuthOutcome (δ : Type) where
  store : Store
  mails : List Mail := []
  cookies : List (String × String) := []
  clearedCookies : List String := []
  result : Except Failure (Response δ)

/-- The status code of an auth outcome. -/
def AuthOutcome.status {δ : Type} (o : AuthOutcome δ) : Option Nat :=
  match o.result with
  | .ok r => some r.status
  | .error f => f.status

/-- `throw new ApiError(statusCode, message)` from store `s`, nothing sent. -/
def authThrow {δ : Type} (s : Store) (statusCode : Nat) (message : String) : AuthOutcome δ :=
  { store := s, result := .error (.api { statusCode := statusCode, message := message }) }

/-- `generateAccessAndRefreshTokens`: the user is loaded, both tokens are
signed, the refresh token is stored; any exception inside (the user is null)
becomes the `ApiError` 500. -/
def generateAccessAndRefreshTokens (prim : Primitives) (s : Store) (userId : ObjectId)
    (now : Nat) : Store × Except Failure TokenPair :=
  match findOne (fun u => u._id == userId) s.users with
  | none =>
    (s, .error (.api { statusCode := 500,
                       message := "Something went wrong while generating access token" }))
  | some user =>
    let accessToken := generateAccessToken prim user now
    let refreshToken := generateRefreshToken prim user now
    let users := save prim false { user with refreshToken := some refreshToken } s.users
    let s1 := { s with users := users }
    (s1, .ok { accessToken := accessToken, refreshToken := refreshToken })

/-- `registerUser`: the query `User.findOne({ $or: [{ username }, { email }] })`
compares the stored paths with the values of the body after the setters of
the paths; without a match the user is created, a temporary token is stored
and mailed, and the created user is read back. -/
def registerUser (prim : Primitives) (s : Store) (newId : ObjectId) (random : Bytes20)
    (now : Nat) (protocol host : String) (email username password : String)
    (fullName : Option String) : AuthOutcome UserView :=
  match findOne (fun u => u.username == lowercaseTrim prim.toStringLib username ||
      u.email == lowercaseTrim prim.toStringLib email) s.users with
  | some _ =>
    { store := s,
      result := .error (.api { statusCode := 409,
                               message := "User with email or username already exists",
                               errors := .entries [] }) }
  | none =>
    let created := create prim
      { _id := newId, email := email, password := password, fullName := fullName,
        username := username, isEmailVerified := false } s.users
    let token := generateTemporaryToken prim random now
    let user : User :=
      { created.1 with emailVerificationToken := some token.hashedToken,
                       emailVerificationExpiry := some token.tokenExpiry }
    let users := save prim false user created.2
    let s1 := { s with users := users }
    let mail : Mail :=
      { email := user.email, subject := "Please verify your email", username := user.username,
        link := protocol ++ "://" ++ host ++ "/api/v1/users/verify-email/" ++
          token.unHashedToken }
    match findOne (fun u => u._id == user._id) s1.users with
    | none =>
      { store := s1, mails := [mail],
        result := .error (.api { statusCode := 500,
                                 message := "Something went wrong while registering a user" }) }
    | some createdUser =>
      { store := s1, mails := [mail],
        result := .ok
          { status := 201,
            body := { statusCode := 200, data := createdUser.select,
                      message := "User registered successfully and verification email has been sent on your email" } } }

/-- `login`: both fields must be truthy, the email must resolve by
`User.findOne({ email })`, whose filter value goes through the setters of the
path, the password must match; then the tokens are issued and the refresh
token is stored. -/
def login (prim : Primitives) (s : Store) (now : Nat) (email password : Option String) :
    AuthOutcome LoginData :=
  if !truthy email || !truthy password then authThrow s 400 " Email & Password is required"
  else
    match findOne (fun u => u.email == lowercaseTrim prim.toStringLib (email.getD ""))
        s.users with
    | none => authThrow s 400 "User does not exists"
    | some user =>
      if !isPasswordCorrect prim user (password.getD "") then
        authThrow s 400 "Invalid credentials"
      else
        match generateAccessAndRefreshTokens prim s user._id now with
        | (s1, .error f) => { store := s1, result := .error f }
        | (s1, .ok tokens) =>
          let loggedInUser := (findOne (fun u => u._id == user._id) s1.users).map User.select
          { store := s1,
            cookies := [("accessToken", tokens.accessToken),
                        ("refreshToken", tokens.refreshToken)],
            result := .ok
              { status := 200,
                body := { statusCode := 200,
                          data := { user := loggedInUser, accessToken := tokens.accessToken,
                                    refreshToken := tokens.refreshToken },
                          message := "User logged in successfully" } } }

/-- `logoutUser`: the stored refresh token of `req.user._id` is set to the empty
text and both cookies are cleared. -/
def logoutUser (s : Store) (userId : ObjectId) : AuthOutcome Unit :=
  let users := (findOneAndUpdate (fun u => u._id == userId)
    (fun u => { u with refreshToken := some "" }) s.users).2
  { store := { s with users := users },
    clearedCookies := ["accessToken", "refreshToken"],
    result := .ok { status := 200,
                    body := { statusCode := 200, data := (), message := "User logged out" } } }

/-- Whether a stored expiry date is later than `now` (`{ $gt: Date.now() }`). -/
def laterThan (expiry : Option Nat) (now : Nat) : Bool :=
  match expiry with
  | none => false
  | some e => decide (e > now)

/-- `verifyEmail`: the token of the link is hashed; the user that holds this
hash with an expiry later than now is marked verified and both fields are
cleared. -/
def verifyEmail (prim : Primitives) (s : Store) (now : Nat) (verificationToken : String) :
    AuthOutcome Bool :=
  if verificationToken == "" then authThrow s 400 "Email verification token is missing"
  else
    let hashedToken := prim.sha256Hex verificationToken
    match findOne (fun u => u.emailVerificationToken == some hashedToken &&
        laterThan u.emailVerificationExpiry now) s.users with
    | none => authThrow s 400 "Token is invalid or expired"
    | some user =>
      let users := save prim false
        { user with emailVerificationToken := none, emailVerificationExpiry := none,
                    isEmailVerified := true } s.users
      { store := { s with users := users },
        result := .ok { status := 200,
                        body := { statusCode := 200, data := true,
                                  message := "Email is verified" } } }

/-- `resendEmailVerification`: a new temporary token for the user of the
request, unless the email is verified already. -/
def resendEmailVerification (prim : Primitives) (s : Store) (random : Bytes20) (now : Nat)
    (protocol host : String) (userId : ObjectId) : AuthOutcome Unit :=
  match findOne (fun u => u._id == userId) s.users with
  | none => authThrow s 404 "User does not exist"
  | some user =>
    if user.isEmailVerified then authThrow s 409 "Email is already verified"
    else
      let token := generateTemporaryToken prim random now
      let users := save prim false
        { user with emailVerificationToken := some token.hashedToken,
                    emailVerificationExpiry := some token.tokenExpiry } s.users
      { store := { s with users := users },
        mails := [{ email := user.email, subject := "Please verify your email",
                    username := user.username,
                    link := protocol ++ "://" ++ host ++ "/api/v1/users/verify-email/" ++
                      token.unHashedToken }],
        result := .ok { status := 200,
                        body := { statusCode := 200, data := (),
                                  message := "Mail has been sent to your email ID" } } }

/-- What the `catch` of `refreshAccessToken` throws, whatever was caught:
`new ApiError(401, {}, "Invalid refresh token")`. -/
def invalidRefreshToken : Failure :=
  .api { statusCode := 401, message := .emptyObject, errors := .text "Invalid refresh token" }

/-- `refreshAccessToken`: the token of the cookie, else of the body; inside the
`try` it is verified, the user is loaded, the token is compared with the
stored one, new tokens are issued and the new refresh token is stored. -/
def refreshAccessToken (prim : Primitives) (s : Store) (now : Nat)
    (cookieToken bodyToken : Option String) : AuthOutcome TokenPair :=
  let incomingRefreshToken := if truthy cookieToken then cookieToken else bodyToken
  if !truthy incomingRefreshToken then authThrow s 401 "Unauthorized access"
  else
    match prim.verifyRefreshToken (incomingRefreshToken.getD "") now with
    | none => { store := s, result := .error invalidRefreshToken }
    | some none => { store := s, result := .error invalidRefreshToken }
    | some (some .malformed) => { store := s, result := .error invalidRefreshToken }
    | some (some (.hex id)) =>
      match findOne (fun u => u._id == id) s.users with
      | none => { store := s, result := .error invalidRefreshToken }
      | some user =>
        if incomingRefreshToken != user.refreshToken then
          { store := s, result := .error invalidRefreshToken }
        else
          match generateAccessAndRefreshTokens prim s user._id now with
          | (s1, .error _) => { store := s1, result := .error invalidRefreshToken }
          | (s1, .ok tokens) =>
            let users := save prim false { user with refreshToken := some tokens.refreshToken }
              s1.users
            { store := { s1 with users := users },
              cookies := [("accessToken", tokens.accessToken),
                          ("refreshToken", tokens.refreshToken)],
              result := .ok
                { status := 200,
                  body := { statusCode := 200,
                            data := { accessToken := tokens.accessToken,
                                      refreshToken := tokens.refreshToken },
                            message := "Access token refreshed" } } }

/-- `forgotPasswordRequest`: a temporary token for the user that
`User.findOne({ email })` finds, the filter value going through the setters of
the path. -/
def forgotPasswordRequest (prim : Primitives) (s : Store) (random : Bytes20) (now : Nat)
    (redirectUrl : String) (email : String) : AuthOutcome Unit :=
  match findOne (fun u => u.email == lowercaseTrim prim.toStringLib email) s.users with
  | none =>
    { store := s,
      result := .error (.api { statusCode := 404, message := "User does not exists",
                               errors := .entries [] }) }
  | some user =>
    let token := generateTemporaryToken prim random now
    let users := save prim false
      { user with forgotPasswordToken := some token.hashedToken,
                  forgotPasswordExpiry := some token.tokenExpiry } s.users
    { store := { s with users := users },
      mails := [{ email := user.email, subject := "Password reset request",
                  username := user.username,
                  link := redirectUrl ++ "/" ++ token.unHashedToken }],
      result := .ok { status := 200,
                      body := { statusCode := 200, data := (),
                                message := "Password reset mail has been sent on your mail id" } } }

/-- `resetForgotPassword`: the user that holds the hash of the token with an
expiry later than now gets the new password; both fields are cleared. -/
def resetForgotPassword (prim : Primitives) (s : Store) (now : Nat)
    (resetToken newPassword : String) : AuthOutcome Unit :=
  let hashedToken := prim.sha256Hex resetToken
  match findOne (fun u => u.forgotPasswordToken == some hashedToken &&
      laterThan u.forgotPasswordExpiry now) s.users with
  | none => authThrow s 489 "Token is invalid or expired"
  | some user =>
    let users := save prim true
      { user with forgotPasswordExpiry := none, forgotPasswordToken := none,
                  password := newPassword } s.users
    { store := { s with users := users },
      result := .ok { status := 200,
                      body := { statusCode := 200, data := (),
                                message := "Password reset successfully" } } }

/-- `changeCurrentPassword`: the old password must match; the new one is
assigned and saved. A missing user makes the method call throw. -/
def changeCurrentPassword (prim : Primitives) (s : Store) (userId : ObjectId)
    (oldPassword newPassword : String) : AuthOutcome Unit :=
  match findOne (fun u => u._id == userId) s.users with
  | none => { store := s, result := .error .typeError }
  | some user =>
    if !isPasswordCorrect prim user oldPassword then authThrow s 400 "Invalid old Password"
    else
      let users := save prim true { user with password := newPassword } s.users
      { store := { s with users := users },
        result := .ok { status := 200,
                        body := { statusCode := 200, data := (),
                                  message := "Password changed successfully" } } }

/-! ## validators/index.js and middlewares/validator.middleware.js

A validator chain of express-validator runs its sanitizers and tests in order
on the text of a body field; every failing test records one error with the
text of the `withMessage` that follows it. `validationResult(req).array()` is
the list of these errors, chain after chain. -/

/-- One entry of `validationResult(req).array()`, as `validate` reads it. -/
structure ValidationError where
  path : String
  msg : String
  deriving DecidableEq, Repr

/-- The text express-validator tests: a field that is missing is the empty
text. -/
def fieldText : Option String → String
  | none => ""
  | some t => t

/-- One test of a chain followed by `withMessage(msg)`. -/
def check (path : String) (passes : Bool) (msg : String) : List ValidationError :=
  if passes then [] else [{ path := path, msg := msg }]

/-- The string functions of validator.js that are taken as given. -/
structure ValidatorLib where
  trim : String → String
  isEmail : String → Bool

/-- A hexadecimal digit, in either case. -/
def isHexDigit (c : Char) : Bool :=
  c.isDigit || (c.toNat ≥ 97 && c.toNat ≤ 102) || (c.toNat ≥ 65 && c.toNat ≤ 70)

/-- `isHexadecimal` of validator.js: an optional `0x` or `0h` prefix (either
case) followed by at least one hexadecimal digit. -/
def isHexadecimal (t : String) : Bool :=
  match t.toList with
  | '0' :: 'x' :: rest => !rest.isEmpty && rest.all isHexDigit
  | '0' :: 'X' :: rest => !rest.isEmpty && rest.all isHexDigit
  | '0' :: 'h' :: rest => !rest.isEmpty && rest.all isHexDigit
  | '0' :: 'H' :: rest => !rest.isEmpty && rest.all isHexDigit
  | cs => !cs.isEmpty && cs.all isHexDigit

/-- `isMongoId` of validator.js: hexadecimal and 24 characters long. -/
def isMongoId (t : String) : Bool :=
  isHexadecimal t && t.length == 24

/-- Modelled from the spec: `AvailableTaskStatues` of the absent
`utils/constants.js`, the closed enumeration of task statuses. -/
def AvailableTaskStatues : List String := ["todo", "in-progress", "done"]

/-- `addMembertoProjectValidator`: the errors of the `email` chain, then those
of the `role` chain. -/
def addMembertoProjectValidator (lib : ValidatorLib) (email role : Option String) :
    List ValidationError :=
  check "email" (lib.trim (fieldText email) != "") "Email is required" ++
  check "email" (lib.isEmail (lib.trim (fieldText email))) "Email is invalid" ++
  check "role" (fieldText role != "") "Role is required" ++
  check "role" (AvailableUserRole.contains (fieldText role)) "Role is invalid"

/-- `createTheTasks`: the chains of `title`, `description`, `assignedTo` and
`status`; none of them is optional. -/
def createTheTasks (title description assignedTo status : Option String) :
    List ValidationError :=
  check "title" (fieldText title != "") "Title is required" ++
  check "description" (fieldText description != "") "Description is required" ++
  check "assignedTo" (isMongoId (fieldText assignedTo)) "AssignedTo must be a valid user ID" ++
  check "status" (AvailableTaskStatues.contains (fieldText status)) "Invalid status"

/-- `validate`: with an empty validation result it calls `next()` (`ok`);
otherwise it throws the `ApiError` 422 that carries one `{ path: msg }` entry
for each error. -/
def validate (errors : List ValidationError) : Except ApiError Unit :=
  if errors.isEmpty then .ok ()
  else
    let extractedErrors := errors.map (fun err => (err.path, err.msg))
    .error { statusCode := 422, message := "Recieved data is not valid",
             errors := .entries extractedErrors }

/-! ## Sample data -/

/-- A store with one project, its admin and a plain member, one task with one
subtask, and one note. -/
def sampleStore : Store :=
  { users := [{ _id := 1, email := "ann@camp.io" }, { _id := 2, email := "bob@camp.io" },
              { _id := 3, email := "eve@camp.io" }],
    projects := [{ _id := 10, name := some "Alpha", description := none, createdBy := 1 }],
    members := [{ _id := 30, user := 1, project := 10, role := "admin" },
                { _id := 31, user := 2, project := 10, role := "member" }],
    tasks := [{ _id := 20, title := some "Plan", description := some "First plan",
                project := 10, assignedTo := some 2, status := some "todo", assignedBy := 1,
                attachments := [] }],
    subtasks := [{ _id := 40, title := some "Draft", description := none, task := 20,
                   isCompleted := some false, createdBy := 1 }],
    notes := [{ _id := 50, project := 10, createdBy := 1, content := some "hello" }] }

/-- The project of `sampleStore`. -/
def sampleProject : Project :=
  { _id := 10, name := some "Alpha", description := none, createdBy := 1 }

/-- The task of `sampleStore`. -/
def sampleTask : Task :=
  { _id := 20, title := some "Plan", description := some "First plan", project := 10,
    assignedTo := some 2, status := some "todo", assignedBy := 1, attachments := [] }

/-- The plain member of the sample project, with the role the permission check
resolved for him. -/
def sampleMember : ReqUser := { _id := 2, role := some "member" }

/-- The admin of the sample project. -/
def sampleAdmin : ReqUser := { _id := 1, role := some "admin" }

/-- A store with users and nothing else. -/
def usersOnlyStore : Store :=
  { users := [{ _id := 1, email := "ann@camp.io" }], projects := [], members := [],
    tasks := [], subtasks := [], notes := [] }

/-- A request of the user 3, who has no membership, addressed to project 10. -/
def outsiderCtx : Ctx Unit :=
  { store := sampleStore, user := { _id := 3, role := none }, projectId := .hex 10, rest := () }

/-- Handlers that all call `next()`. -/
def passAll : Handler → Ctx Unit → Step Unit Unit :=
  fun _ ctx => .next ctx

/-- The route `POST /:projectId` of the note router. -/
def postNoteRoute : Route :=
  { path := "/:projectId", method := .post,
    handlers := [.validateProjectPermission [UserRolesEnum.ADMIN],
                 .validator .validateContentNote, .validate,
                 .controller .createProjectNote] }

/-- A validator library whose `trim` changes nothing and whose `isEmail` looks
for an `@`. -/
def sampleLib : ValidatorLib :=
  { trim := fun t => t, isEmail := fun t => t.toList.contains '@' }

/-- White space of the ASCII range. -/
def isSpace (c : Char) : Bool :=
  c == ' ' || c == '\t' || c == '\n' || c == '\r'

/-- The two string methods on texts of the ASCII range, where they agree with
the ones of the runtime. -/
def sampleStrings : StringLib :=
  { trim := fun t =>
      String.mk ((t.toList.dropWhile isSpace).reverse.dropWhile isSpace).reverse,
    toLowerCase := fun t => String.mk (t.toList.map Char.toLower) }

/-- Stand-ins for the external primitives: the string methods are those of
`sampleStrings`, the hash and the digest prefix their input, every refresh
token is the same text, and only that text verifies, as a token of user 1. -/
def samplePrimitives : Primitives :=
  { toStringLib := sampleStrings,
    bcryptHash := fun p => "bcrypt:" ++ p,
    bcryptCompare := fun p stored => stored == "bcrypt:" ++ p,
    sha256Hex := fun t => "sha256:" ++ t,
    signAccessToken := fun _ _ _ _ => "access-token",
    signRefreshToken := fun _ _ => "refresh-token",
    verifyRefreshToken := fun t _ =>
      if t == "refresh-token" then some (some (.hex 1)) else none }

/-- The user ann: logged in, not yet verified, with an email-verification
token and a password-reset token that both expire at time 5000. -/
def sampleAnn : User :=
  { _id := 1, email := "ann@camp.io", username := "ann", password := "bcrypt:secret",
    refreshToken := some "refresh-token",
    forgotPasswordToken := some "sha256:reset", forgotPasswordExpiry := some 5000,
    emailVerificationToken := some "sha256:verify", emailVerificationExpiry := some 5000 }

/-- A store whose only user is `sampleAnn`. -/
def authStore : Store :=
  { users := [sampleAnn], projects := [], members := [], tasks := [], subtasks := [],
    notes := [] }

/-- The store whose only user is ann with no refresh token stored. -/
def signedOutStore : Store :=
  { users := [{ sampleAnn with refreshToken := none }], projects := [], members := [],
    tasks := [], subtasks := [], notes := [] }

/-- Twenty bytes, all equal to 171. -/
def sampleBytes : Bytes20 :=
  { bytes := List.replicate 20 171, size := rfl }

/-- Two projects with one admin each: ann administers project 10 (task 20,
subtask 40, note 50) and bob administers project 11 (task 21 with one
attachment, subtask 41, note 51). Both subtasks are completed. -/
def twoProjectStore : Store :=
  { users := [{ _id := 1, email := "ann@camp.io" }, { _id := 2, email := "bob@camp.io" }],
    projects := [{ _id := 10, name := some "Alpha", description := none, createdBy := 1 },
                 { _id := 11, name := some "Beta", description := none, createdBy := 2 }],
    members := [{ _id := 30, user := 1, project := 10, role := "admin" },
                { _id := 31, user := 2, project := 11, role := "admin" }],
    tasks := [{ _id := 20, title := some "Plan", description := some "First plan",
                project := 10, assignedTo := none, status := some "todo", assignedBy := 1,
                attachments := [] },
              { _id := 21, title := some "Budget", description := some "Beta budget",
                project := 11, assignedTo := some 2, status := some "todo", assignedBy := 2,
                attachments := [{ url := "http://camp.io/images/budget.pdf",
                                  mimetype := "application/pdf", size := 1024 }] }],
    subtasks := [{ _id := 40, title := some "Draft", description := none, task := 20,
                   isCompleted := some true, createdBy := 1 },
                 { _id := 41, title := some "Figures", description := none, task := 21,
                   isCompleted := some true, createdBy := 2 }],
    notes := [{ _id := 50, project := 10, createdBy := 1, content := some "alpha note" },
              { _id := 51, project := 11, createdBy := 2, content := some "beta note" }] }

/-- Ann as `verifyJWT` leaves her on the request, before any permission check. -/
def annRequest : ReqUser := { _id := 1, role := none }

/-- The environment of the sample server. -/
def sampleEnv : Env := { SERVER_URL := "http://camp.io", IMAGES_PATH := "images" }

/-! ## Well-formed stores -/

/-- The `_id` index of MongoDB on the project collection: no two projects share
an `_id`. -/
def Store.uniqueProjectIds (s : Store) : Prop :=
  (s.projects.map (fun p => p._id)).Nodup

/-- The `_id` index of MongoDB on the task collection. -/
def Store.uniqueTaskIds (s : Store) : Prop :=
  (s.tasks.map (fun t => t._id)).Nodup

/-- At most one membership record for each (user, project) pair. -/
def Store.uniqueMembership (s : Store) : Prop :=
  (s.members.map (fun m => (m.user, m.project))).Nodup

/-- The id the driver generates for a new project is new: no project has it
and no membership refers to it. -/
def Store.freshProjectId (s : Store) (id : ObjectId) : Prop :=
  (∀ p ∈ s.projects, p._id ≠ id) ∧ (∀ m ∈ s.members, m.project ≠ id)

/-- The `_id` index of MongoDB on the user collection. -/
def Store.uniqueUserIds (s : Store) : Prop :=
  (s.users.map (fun u => u._id)).Nodup

/-- Every stored membership role is in the role enumeration. -/
def Store.rolesInEnumeration (s : Store) : Prop :=
  ∀ m ∈ s.members, m.role ∈ AvailableUserRole

instance (s : Store) : Decidable s.uniqueUserIds := by
  unfold Store.uniqueUserIds; infer_instance

instance (s : Store) : Decidable s.rolesInEnumeration := by
  unfold Store.rolesInEnumeration; infer_instance

/-- The stored password of every user, by `_id`, in the order of the
collection. -/
def Store.passwords (s : Store) : List (ObjectId × String) :=
  s.users.map (fun u => (u._id, u.password))

instance (s : Store) : Decidable s.uniqueProjectIds := by
  unfold Store.uniqueProjectIds; infer_instance

instance (s : Store) : Decidable s.uniqueTaskIds := by
  unfold Store.uniqueTaskIds; infer_instance

instance (s : Store) : Decidable s.uniqueMembership := by
  unfold Store.uniqueMembership; infer_instance

instance (s : Store) (id : ObjectId) : Decidable (s.freshProjectId id) := by
  unfold Store.freshProjectId; infer_instance

/-! ## Lemmas on the collection primitives -/

theorem mem_deleteMany {α : Type} (filter : α → Bool) (docs : List α) (d : α) :
    d ∈ deleteMany filter docs ↔ d ∈ docs ∧ filter d = false := by
  simp [deleteMany]

theorem findOne_some_mem {α : Type} {filter : α → Bool} {docs : List α} {d : α}
    (h : findOne filter docs = some d) : d ∈ docs ∧ filter d = true := by
  unfold findOne at h
  exact ⟨List.mem_of_find?_eq_some h, List.find?_some h⟩

theorem mem_deleteFirst_of_mem {α : Type} (filter : α → Bool) (docs : List α) (d : α)
    (h : d ∈ deleteFirst filter docs) : d ∈ docs := by
  induction docs with
  | nil => simp [deleteFirst] at h
  | cons x xs ih =>
    simp only [deleteFirst] at h
    split at h
    · exact List.mem_cons_of_mem _ h
    · rcases List.mem_cons.mp h with h | h
      · exact h ▸ List.mem_cons_self _ _
      · exact List.mem_cons_of_mem _ (ih h)

/-- With unique keys, deleting the first document of a key leaves no document
of that key. -/
theorem not_mem_deleteFirst_key {α : Type} (key : α → ObjectId) (k : ObjectId)
    (docs : List α) (hnd : (docs.map key).Nodup) (d : α)
    (h : d ∈ deleteFirst (fun x => key x == k) docs) : key d ≠ k := by
  induction docs with
  | nil => simp [deleteFirst] at h
  | cons x xs ih =>
    simp only [List.map_cons, List.nodup_cons] at hnd
    simp only [deleteFirst] at h
    split at h
    · rename_i hx
      have hxk : key x = k := by simpa using hx
      intro hd
      exact hnd.1 (List.mem_map.mpr ⟨d, h, by rw [hd, hxk]⟩)
    · rename_i hx
      rcases List.mem_cons.mp h with h | h
      · subst h; simpa using hx
      · exact ih hnd.2 h

/-- With unique keys, deleting the first document of a key is deleting every
document of that key. -/
theorem deleteFirst_eq_filter {α : Type} (key : α → ObjectId) (k : ObjectId)
    (docs : List α) (hnd : (docs.map key).Nodup) :
    deleteFirst (fun x => key x == k) docs = docs.filter (fun x => !(key x == k)) := by
  induction docs with
  | nil => rfl
  | cons x xs ih =>
    simp only [List.map_cons, List.nodup_cons] at hnd
    by_cases hx : key x = k
    · have hall : ∀ y ∈ xs, (!(key y == k)) = true := by
        intro y hy
        have : key y ≠ k := fun hyk => hnd.1 (List.mem_map.mpr ⟨y, hy, by rw [hyk, hx]⟩)
        simpa using this
      simp [deleteFirst, hx, List.filter_eq_self.mpr hall]
    · simp [deleteFirst, hx, ih hnd.2]

theorem findOne_isSome_of_mem {α : Type} (filter : α → Bool) (docs : List α) (d : α)
    (hd : d ∈ docs) (hf : filter d = true) : ∃ e, findOne filter docs = some e := by
  unfold findOne
  cases h : docs.find? filter with
  | some e => exact ⟨e, rfl⟩
  | none =>
    rw [List.find?_eq_none] at h
    exact absurd hf (h d hd)

theorem findOne_eq_none_of_forall {α : Type} (filter : α → Bool) (docs : List α)
    (h : ∀ d ∈ docs, filter d = false) : findOne filter docs = none := by
  unfold findOne
  rw [List.find?_eq_none]
  intro d hd
  simp [h d hd]

theorem findOne_eq_head?_filter {α : Type} (filter : α → Bool) (docs : List α) :
    findOne filter docs = (docs.filter filter).head? := by
  induction docs with
  | nil => rfl
  | cons x xs ih =>
    by_cases hx : filter x = true
    · simp [findOne, List.find?, List.filter, hx]
    · simp only [Bool.not_eq_true] at hx
      simp [findOne, List.find?, List.filter, hx]

theorem filter_updateFirst {α : Type} (filter : α → Bool) (f : α → α) (docs : List α)
    (hf : ∀ d, filter d = true → filter (f d) = true) :
    (updateFirst filter f docs).filter filter =
      match docs.filter filter with
      | [] => []
      | d :: ds => f d :: ds := by
  induction docs with
  | nil => rfl
  | cons x xs ih =>
    by_cases hx : filter x = true
    · simp [updateFirst, List.filter, hx, hf x hx]
    · simp only [Bool.not_eq_true] at hx
      simpa [updateFirst, List.filter, hx] using ih

theorem filter_findOneAndUpsert {α : Type} (filter : α → Bool) (f : α → α) (inserted : α)
    (docs : List α) (hf : ∀ d, filter d = true → filter (f d) = true)
    (hins : filter inserted = true) :
    (findOneAndUpsert filter f inserted docs).filter filter =
      match docs.filter filter with
      | [] => [inserted]
      | d :: ds => f d :: ds := by
  unfold findOneAndUpsert
  rw [findOne_eq_head?_filter]
  cases h : docs.filter filter with
  | nil => simp [h, hins]
  | cons d ds =>
    simp only [List.head?_cons]
    rw [filter_updateFirst filter f docs hf, h]

/-- The outcome of `deleteProject` without the record of the calls: the store
it leaves and what it answered or threw, written out on the store. -/
theorem deleteProject_outcome (s : Store) (projectId : RawId) :
    (deleteProject s projectId).toOutcome =
      (if !isValidObjectId projectId then throwApi s 400 "Project Id is not valid"
       else
        match projectId with
        | .malformed => throwCast s
        | .hex pid =>
          match findOneAndDelete (fun p => p._id == pid) s.projects with
          | (none, _) => throwApi s 404 "Project not found"
          | (some project, projects) =>
            respond
              { s with
                projects := projects,
                members := deleteMany (fun m => m.project == pid) s.members,
                subtasks := deleteMany
                  (fun st => ((find (fun t => t.project == pid) s.tasks).map
                    (fun task => task._id)).contains st.task) s.subtasks,
                tasks := deleteMany
                  (fun t => ((find (fun t => t.project == pid) s.tasks).map
                    (fun task => task._id)).contains t._id) s.tasks,
                notes := deleteMany (fun n => n.project == pid) s.notes }
              200 project
              "Project and all related tasks, subtasks, notes, and members deleted successfully") := by
  cases projectId with
  | malformed => rfl
  | hex pid =>
    cases hf : findOne (fun p => p._id == pid) s.projects with
    | none =>
      simp [deleteProject, isValidObjectId, Db.projectFindByIdAndDelete, Db.issue, Db.throwApi,
        StoreOp.apply, findOneAndDelete, hf]
    | some d =>
      simp [deleteProject, isValidObjectId, Db.projectFindByIdAndDelete, Db.issue, Db.respond,
        Db.projectMemberDeleteMany, Db.taskFind, Db.subtaskDeleteMany, Db.taskDeleteMany,
        Db.projectNoteDeleteMany, StoreOp.apply, findOneAndDelete, hf]

/-- What `addMembersToProject` does once the email resolves to a user and the
project id is well formed. -/
theorem addMembersToProject_resolved (lib : StringLib) (s : Store) (newId : ObjectId)
    (email : String) (role : Role) (p : ObjectId) (u : User)
    (hu : findOne (fun x => x.email == lowercaseTrim lib email) s.users = some u) :
    addMembersToProject lib s newId email role (.hex p) =
      respond
        { s with members := (findOneAndUpsert
            (fun m => m.user == u._id && m.project == p)
            (fun m => { m with user := u._id, project := p, role := role })
            { _id := newId, user := u._id, project := p, role := role } s.members) }
        201 () "Project member added successfully" := by
  simp [addMembersToProject, hu]

/-- Every route of the note router and of the task router starts with the
permission check. -/
theorem routes_start_with_permission :
    ∀ route ∈ noteRouter ++ taskRouter, startsWithPermission route.handlers = true := by
  decide

/-- A chain that starts with the permission check stops there for a user
without a membership of the project. -/
theorem runChain_denied {ρ δ : Type} (ext : Handler → Ctx ρ → Step ρ δ)
    (handlers : List Handler) (hstart : startsWithPermission handlers = true)
    (ctx : Ctx ρ) (P : ObjectId) (hP : ctx.projectId = .hex P)
    (hno : ∀ m ∈ ctx.store.members, ¬ (m.user = ctx.user._id ∧ m.project = P)) :
    ∃ roles, runChain ext handlers ctx =
      { entered := [.validateProjectPermission roles], store := ctx.store,
        result := some (.error (.api { statusCode := 403, message := "Forbidden" })) } := by
  match handlers, hstart with
  | .validateProjectPermission roles :: rest, _ =>
    refine ⟨roles, ?_⟩
    have hfind : findOne
        (fun m => m.user == ctx.user._id && RawId.hex m.project == ctx.projectId)
        ctx.store.members = none := by
      apply findOne_eq_none_of_forall
      intro m hm
      have := hno m hm
      rw [hP]
      by_cases hu : m.user = ctx.user._id
      · have hp : m.project ≠ P := fun hp => this ⟨hu, hp⟩
        simp [hp]
      · simp [hu]
    simp [runChain, dispatch, validateProjectPermission, hfind]

theorem deleteFirst_sublist {α : Type} (filter : α → Bool) (docs : List α) :
    (deleteFirst filter docs).Sublist docs := by
  induction docs with
  | nil => exact List.Sublist.refl _
  | cons x xs ih =>
    simp only [deleteFirst]
    split
    · exact List.sublist_cons_self x xs
    · exact ih.cons₂ x

theorem map_updateFirst_of_key_fixed {α κ : Type} (key : α → κ) (filter : α → Bool)
    (f : α → α) (docs : List α) (hf : ∀ d, filter d = true → key (f d) = key d) :
    (updateFirst filter f docs).map key = docs.map key := by
  induction docs with
  | nil => rfl
  | cons x xs ih =>
    simp only [updateFirst]
    split
    · rename_i hx
      simp [hf x hx]
    · simp [ih]

/-- The upsert keyed on (user, project) keeps the (user, project) pairs of the
membership collection free of duplicates. -/
theorem nodup_pairs_findOneAndUpsert (u p newId : ObjectId) (role : Role)
    (members : List ProjectMember)
    (hnd : (members.map (fun m => (m.user, m.project))).Nodup) :
    ((findOneAndUpsert (fun m => m.user == u && m.project == p)
        (fun m => { m with user := u, project := p, role := role })
        { _id := newId, user := u, project := p, role := role } members).map
      (fun m => (m.user, m.project))).Nodup := by
  unfold findOneAndUpsert
  cases h : findOne (fun m : ProjectMember => m.user == u && m.project == p) members with
  | some d =>
    simp only []
    rw [map_updateFirst_of_key_fixed]
    · exact hnd
    · intro m hm
      simp only [Bool.and_eq_true, beq_iff_eq] at hm
      simp [hm.1, hm.2]
  | none =>
    simp only [List.map_append, List.map_cons, List.map_nil]
    unfold findOne at h
    rw [List.find?_eq_none] at h
    refine List.Nodup.append hnd (List.nodup_singleton _) ?_
    rw [List.disjoint_singleton]
    intro hmem
    obtain ⟨m, hm, hkey⟩ := List.mem_map.mp hmem
    have := h m hm
    simp only [Prod.mk.injEq] at hkey
    simp [hkey.1, hkey.2] at this

theorem mem_updateFirst {α : Type} (filter : α → Bool) (f : α → α) (docs : List α) (d : α)
    (h : d ∈ updateFirst filter f docs) : d ∈ docs ∨ ∃ e ∈ docs, filter e = true ∧ d = f e := by
  induction docs with
  | nil => simp [updateFirst] at h
  | cons x xs ih =>
    simp only [updateFirst] at h
    split at h
    · rename_i hx
      rcases List.mem_cons.mp h with h | h
      · exact Or.inr ⟨x, List.mem_cons_self _ _, hx, h⟩
      · exact Or.inl (List.mem_cons_of_mem _ h)
    · rcases List.mem_cons.mp h with h | h
      · exact Or.inl (h ▸ List.mem_cons_self _ _)
      · rcases ih h with h | ⟨e, he, hfe, hd⟩
        · exact Or.inl (List.mem_cons_of_mem _ h)
        · exact Or.inr ⟨e, List.mem_cons_of_mem _ he, hfe, hd⟩

theorem updateFirst_idem {α : Type} (filter : α → Bool) (f : α → α) (docs : List α)
    (hf : ∀ d, filter d = true → filter (f d) = true) (hidem : ∀ d, f (f d) = f d) :
    updateFirst filter f (updateFirst filter f docs) = updateFirst filter f docs := by
  induction docs with
  | nil => rfl
  | cons x xs ih =>
    by_cases hx : filter x = true
    · simp [updateFirst, hx, hf x hx, hidem]
    · simp [updateFirst, hx, ih]

theorem findOne_updateFirst {α : Type} (filter : α → Bool) (f : α → α) (docs : List α)
    (hf : ∀ d, filter d = true → filter (f d) = true) :
    findOne filter (updateFirst filter f docs) = (findOne filter docs).map f := by
  induction docs with
  | nil => rfl
  | cons x xs ih =>
    by_cases hx : filter x = true
    · simp [updateFirst, findOne, List.find?, hx, hf x hx]
    · simp only [Bool.not_eq_true] at hx
      simpa [updateFirst, findOne, List.find?, hx] using ih

theorem findOne_append_of_none {α : Type} (filter : α → Bool) (docs : List α) (x : α)
    (hnone : findOne filter docs = none) (hx : filter x = true) :
    findOne filter (docs ++ [x]) = some x := by
  unfold findOne at hnone ⊢
  simp [List.find?_append, hnone, List.find?, hx]

theorem updateFirst_append_of_none {α : Type} (filter : α → Bool) (f : α → α)
    (docs : List α) (x : α) (hnone : findOne filter docs = none) (hx : filter x = true) :
    updateFirst filter f (docs ++ [x]) = docs ++ [f x] := by
  induction docs with
  | nil => simp [updateFirst, hx]
  | cons y ys ih =>
    have hy : filter y = false := by
      cases hfy : filter y with
      | false => rfl
      | true => simp [findOne, List.find?, hfy] at hnone
    have hys : findOne filter ys = none := by
      simpa [findOne, List.find?, hy] using hnone
    simp [updateFirst, hy, ih hys]

theorem filter_not_updateFirst {α : Type} (filter : α → Bool) (f : α → α) (docs : List α)
    (hf : ∀ d, filter d = true → filter (f d) = true) :
    (updateFirst filter f docs).filter (fun d => !filter d) =
      docs.filter (fun d => !filter d) := by
  induction docs with
  | nil => rfl
  | cons x xs ih =>
    by_cases hx : filter x = true
    · simp [updateFirst, List.filter, hx, hf x hx]
    · simp only [Bool.not_eq_true] at hx
      simp [updateFirst, List.filter, hx, ih]

/-- The upsert applied twice with the same update and the same inserted fields
gives what it gives applied once. -/
theorem findOneAndUpsert_idem {α : Type} (filter : α → Bool) (f : α → α) (ins1 ins2 : α)
    (docs : List α) (hf : ∀ d, filter d = true → filter (f d) = true)
    (hidem : ∀ d, f (f d) = f d) (hins : filter ins1 = true) (hfix : f ins1 = ins1) :
    findOneAndUpsert filter f ins2 (findOneAndUpsert filter f ins1 docs) =
      findOneAndUpsert filter f ins1 docs := by
  cases h : findOne filter docs with
  | some d =>
    have h1 : findOneAndUpsert filter f ins1 docs = updateFirst filter f docs := by
      simp [findOneAndUpsert, h]
    rw [h1]
    have h2 : findOne filter (updateFirst filter f docs) = some (f d) := by
      rw [findOne_updateFirst filter f docs hf, h]; rfl
    simp only [findOneAndUpsert, h2]
    exact updateFirst_idem filter f docs hf hidem
  | none =>
    have h1 : findOneAndUpsert filter f ins1 docs = docs ++ [ins1] := by
      simp [findOneAndUpsert, h]
    rw [h1]
    have h2 : findOne filter (docs ++ [ins1]) = some ins1 :=
      findOne_append_of_none filter docs ins1 h hins
    simp only [findOneAndUpsert, h2]
    rw [updateFirst_append_of_none filter f docs ins1 h hins, hfix]

/-- The upsert leaves the documents outside its filter as they are. -/
theorem filter_not_findOneAndUpsert {α : Type} (filter : α → Bool) (f : α → α) (ins : α)
    (docs : List α) (hf : ∀ d, filter d = true → filter (f d) = true)
    (hins : filter ins = true) :
    (findOneAndUpsert filter f ins docs).filter (fun d => !filter d) =
      docs.filter (fun d => !filter d) := by
  unfold findOneAndUpsert
  cases h : findOne filter docs with
  | some d => exact filter_not_updateFirst filter f docs hf
  | none => simp [List.filter_append, hins]

theorem filter_not_deleteFirst {α : Type} (filter : α → Bool) (docs : List α) :
    (deleteFirst filter docs).filter (fun d => !filter d) =
      docs.filter (fun d => !filter d) := by
  induction docs with
  | nil => rfl
  | cons x xs ih =>
    by_cases hx : filter x = true
    · simp [deleteFirst, List.filter, hx]
    · simp only [Bool.not_eq_true] at hx
      simp [deleteFirst, List.filter, hx, ih]

theorem filter_not_deleteMany {α : Type} (filter : α → Bool) (docs : List α) :
    (deleteMany filter docs).filter (fun d => !filter d) =
      docs.filter (fun d => !filter d) := by
  simp [deleteMany, List.filter_filter]

/-! ## Lemmas on the user documents -/

theorem preSave_id (prim : Primitives) (m : Bool) (user : User) :
    (preSave prim m user)._id = user._id := by
  unfold preSave
  split <;> rfl

theorem preSave_false (prim : Primitives) (user : User) : preSave prim false user = user := rfl

theorem preSave_true (prim : Primitives) (user : User) :
    preSave prim true user = { user with password := prim.bcryptHash user.password } := rfl

/-- After `save`, the first user of a given id is the saved document, if there
was a user of that id. -/
theorem findOne_save (prim : Primitives) (m : Bool) (user : User) (users : List User) :
    findOne (fun u => u._id == user._id) (save prim m user users) =
      (findOne (fun u => u._id == user._id) users).map (fun _ => preSave prim m user) := by
  unfold save
  exact findOne_updateFirst (fun u => u._id == user._id) (fun _ => preSave prim m user) users
    (fun d _ => by simp [preSave_id])

/-- The token issue when the user exists. -/
theorem generateAccessAndRefreshTokens_some (prim : Primitives) (s : Store) (userId : ObjectId)
    (now : Nat) (user : User) (h : findOne (fun u => u._id == userId) s.users = some user) :
    generateAccessAndRefreshTokens prim s userId now =
      ({ s with users := (save prim false
            ({ user with refreshToken := some (generateRefreshToken prim user now) }) s.users) },
       .ok { accessToken := generateAccessToken prim user now,
             refreshToken := generateRefreshToken prim user now }) := by
  simp [generateAccessAndRefreshTokens, h]

/-- The token issue when the user does not exist. -/
theorem generateAccessAndRefreshTokens_none (prim : Primitives) (s : Store) (userId : ObjectId)
    (now : Nat) (h : findOne (fun u => u._id == userId) s.users = none) :
    generateAccessAndRefreshTokens prim s userId now =
      (s, .error (.api { statusCode := 500,
                         message := "Something went wrong while generating access token" })) := by
  simp [generateAccessAndRefreshTokens, h]

/-- A truthy field is present and not empty. -/
theorem truthy_eq_true {t : Option String} (h : truthy t = true) :
    ∃ v, t = some v ∧ v ≠ "" := by
  cases t with
  | none => simp [truthy] at h
  | some v => exact ⟨v, rfl, by simpa [truthy] using h⟩

/-- An update of the first match that keeps the key of that match keeps the
keys of the collection. -/
theorem map_updateFirst_of_findOne {α κ : Type} (key : α → κ) (filter : α → Bool)
    (f : α → α) (docs : List α) (d0 : α) (h : findOne filter docs = some d0)
    (hk : key (f d0) = key d0) :
    (updateFirst filter f docs).map key = docs.map key := by
  induction docs with
  | nil => rfl
  | cons x xs ih =>
    by_cases hx : filter x = true
    · have hx0 : x = d0 := by
        simpa [findOne, List.find?, hx] using h
      subst hx0
      simp [updateFirst, hx, hk]
    · simp only [Bool.not_eq_true] at hx
      have hxs : findOne filter xs = some d0 := by
        simpa [findOne, List.find?, hx] using h
      simp [updateFirst, hx, ih hxs]

/-- With unique ids, the first user of the id of a stored user is that user. -/
theorem findOne_id_of_mem (users : List User) (hnd : (users.map (fun u => u._id)).Nodup)
    (user : User) (hu : user ∈ users) :
    findOne (fun u => u._id == user._id) users = some user := by
  obtain ⟨e, he⟩ := findOne_isSome_of_mem (fun u => u._id == user._id) users user hu (by simp)
  have hmem := findOne_some_mem he
  have hid : e._id = user._id := by simpa using hmem.2
  have : e = user := List.inj_on_of_nodup_map hnd hmem.1 hu hid
  rw [he, this]

/-- A `save` that does not touch the password of the stored user keeps every
stored password. -/
theorem passwords_save (prim : Primitives) (users : List User) (user saved : User)
    (hfind : findOne (fun u => u._id == user._id) users = some user)
    (hid : saved._id = user._id) (hpw : saved.password = user.password) :
    (save prim false saved users).map (fun u => (u._id, u.password)) =
      users.map (fun u => (u._id, u.password)) := by
  unfold save
  rw [hid]
  exact map_updateFirst_of_findOne _ _ _ users user hfind (by simp [preSave_false, hid, hpw])

/-- The token issue keeps every stored password. -/
theorem passwords_generateAccessAndRefreshTokens (prim : Primitives) (s : Store)
    (userId : ObjectId) (now : Nat) :
    (generateAccessAndRefreshTokens prim s userId now).1.passwords = s.passwords := by
  cases h : findOne (fun u => u._id == userId) s.users with
  | none => rw [generateAccessAndRefreshTokens_none prim s userId now h]
  | some user =>
    have hid : user._id = userId := by simpa using (findOne_some_mem h).2
    rw [generateAccessAndRefreshTokens_some prim s userId now user h]
    subst hid
    exact passwords_save prim s.users user _ h rfl rfl

/-! ## Lemmas on the temporary tokens -/

/-- `save` keeps the ids of the collection when the saved document has the id
of a stored user. -/
theorem map_id_save (prim : Primitives) (m : Bool) (users : List User) (U W : User)
    (hnd : (users.map (fun u => u._id)).Nodup) (hU : U ∈ users) (hW : W._id = U._id) :
    (save prim m W users).map (fun u => u._id) = users.map (fun u => u._id) := by
  unfold save
  rw [hW]
  exact map_updateFirst_of_findOne _ _ _ users U (findOne_id_of_mem users hnd U hU)
    (by simp [preSave_id, hW])

/-- With unique ids, after the save of a document in the place of the stored
user `U`, the first user of that id is the saved document. -/
theorem findOne_save_of_mem (prim : Primitives) (m : Bool) (users : List User) (U W : User)
    (hnd : (users.map (fun u => u._id)).Nodup) (hU : U ∈ users) (hW : W._id = U._id) :
    findOne (fun u => u._id == U._id) (save prim m W users) = some (preSave prim m W) := by
  have h := findOne_save prim m W users
  rw [hW] at h
  rw [h, findOne_id_of_mem users hnd U hU]
  rfl

/-- If `U` is the only user that satisfies `P`, and a document that does not
satisfy `P` is saved in its place, no user satisfies `P` afterwards. -/
theorem no_holder_after_save (prim : Primitives) (m : Bool) (users : List User)
    (U W : User) (P : User → Bool) (hnd : (users.map (fun u => u._id)).Nodup)
    (hU : U ∈ users) (hW : W._id = U._id) (hPW : P (preSave prim m W) = false)
    (hsole : ∀ v ∈ users, P v = true → v = U) :
    ∀ v ∈ save prim m W users, P v = false := by
  intro v hv
  cases hPv : P v with
  | false => rfl
  | true =>
    exfalso
    have hv' : v ∈ updateFirst (fun u => u._id == W._id) (fun _ => preSave prim m W) users :=
      hv
    rcases mem_updateFirst _ _ _ _ hv' with h | ⟨e, _, _, hve⟩
    · have hvU : v = U := hsole v h hPv
      subst hvU
      have hnd2 : ((save prim m W users).map (fun u => u._id)).Nodup := by
        rw [map_id_save prim m users v W hnd hU hW]; exact hnd
      have h1 := findOne_id_of_mem (save prim m W users) hnd2 v hv
      rw [findOne_save_of_mem prim m users v W hnd hU hW] at h1
      have : preSave prim m W = v := Option.some.inj h1
      rw [this] at hPW
      rw [hPW] at hPv
      cases hPv
    · rw [hve, hPW] at hPv
      cases hPv

/-- A verification token held by one user only, `U`: before its expiry
`verifyEmail` answers 200 and stores `U` verified with both fields cleared; from
its expiry on `verifyEmail` throws 400 and leaves the store as it is. -/
theorem verifyEmail_of_sole_holder (prim : Primitives) (s1 : Store) (U : User)
    (tok : String) (e t : Nat) (hnd : s1.uniqueUserIds) (hU : U ∈ s1.users)
    (htok : tok ≠ "") (hh : U.emailVerificationToken = some (prim.sha256Hex tok))
    (he : U.emailVerificationExpiry = some e)
    (hsole : ∀ v ∈ s1.users, v.emailVerificationToken = some (prim.sha256Hex tok) → v = U) :
    (t < e →
      (verifyEmail prim s1 t tok).status = some 200 ∧
      findOne (fun u => u._id == U._id) (verifyEmail prim s1 t tok).store.users =
        some { U with emailVerificationToken := none, emailVerificationExpiry := none,
                      isEmailVerified := true }) ∧
    (e ≤ t →
      (verifyEmail prim s1 t tok).result =
        .error (.api { statusCode := 400, message := "Token is invalid or expired" }) ∧
      (verifyEmail prim s1 t tok).store = s1) := by
  unfold Store.uniqueUserIds at hnd
  constructor
  · intro ht
    obtain ⟨w, hw⟩ := findOne_isSome_of_mem
      (fun u => u.emailVerificationToken == some (prim.sha256Hex tok) &&
        laterThan u.emailVerificationExpiry t) s1.users U hU
      (by simp [hh, he, laterThan, ht])
    have hwm := findOne_some_mem hw
    have hwU : w = U := hsole w hwm.1 (by
      have := hwm.2
      simp only [Bool.and_eq_true, beq_iff_eq] at this
      exact this.1)
    subst hwU
    simp only [verifyEmail, htok, hw, beq_iff_eq, ↓reduceIte]
    refine ⟨rfl, ?_⟩
    exact findOne_save_of_mem prim false s1.users w _ hnd hU rfl
  · intro ht
    have hnone : findOne (fun u => u.emailVerificationToken == some (prim.sha256Hex tok) &&
        laterThan u.emailVerificationExpiry t) s1.users = none := by
      apply findOne_eq_none_of_forall
      intro v hv
      by_cases hvh : v.emailVerificationToken = some (prim.sha256Hex tok)
      · have hvU := hsole v hv hvh
        subst hvU
        have hle : ¬ e > t := Nat.not_lt.mpr ht
        simp [he, laterThan, hle]
      · simp [hvh]
    simp [verifyEmail, htok, hnone, authThrow]

/-- What `registerUser` does when the id is new and no stored user has the
username or the email of the body, trimmed and lower-cased: it answers 201,
stores one new user under these values, with the hash of the password and the
hash and the expiry of the temporary token, and mails the token. -/
theorem registerUser_of_fresh (prim : Primitives) (s : Store) (newId : ObjectId)
    (random : Bytes20) (now : Nat) (protocol host email username password : String)
    (fullName : Option String) (hfresh : ∀ u ∈ s.users, u._id ≠ newId)
    (hno : ∀ u ∈ s.users, ¬ (u.username = lowercaseTrim prim.toStringLib username ∨
      u.email = lowercaseTrim prim.toStringLib email)) :
    (registerUser prim s newId random now protocol host email username password
      fullName).store =
      { s with users := s.users ++
          [{ _id := newId, email := lowercaseTrim prim.toStringLib email,
             username := lowercaseTrim prim.toStringLib username,
             fullName := fullName.map (trimSetter prim.toStringLib),
             password := prim.bcryptHash password, isEmailVerified := false,
             emailVerificationToken := some (generateTemporaryToken prim random now).hashedToken,
             emailVerificationExpiry :=
               some (generateTemporaryToken prim random now).tokenExpiry }] } ∧
    (registerUser prim s newId random now protocol host email username password
      fullName).mails =
      [{ email := lowercaseTrim prim.toStringLib email, subject := "Please verify your email",
         username := lowercaseTrim prim.toStringLib username,
         link := protocol ++ "://" ++ host ++ "/api/v1/users/verify-email/" ++
           (generateTemporaryToken prim random now).unHashedToken }] ∧
    (registerUser prim s newId random now protocol host email username password
      fullName).status = some 201 := by
  have hf : findOne (fun u => u.username == lowercaseTrim prim.toStringLib username ||
      u.email == lowercaseTrim prim.toStringLib email) s.users = none :=
    findOne_eq_none_of_forall _ _ (fun u hu => by simpa using hno u hu)
  have hnone : findOne (fun u => u._id == newId) s.users = none :=
    findOne_eq_none_of_forall _ _ (fun u hu => by simpa using hfresh u hu)
  simp only [registerUser, hf, create, applySetters, preSave_true]
  generalize lowercaseTrim prim.toStringLib email = E
  generalize lowercaseTrim prim.toStringLib username = N
  have husers : save prim false
      { _id := newId, email := E, username := N,
        fullName := fullName.map (trimSetter prim.toStringLib),
        password := prim.bcryptHash password, isEmailVerified := false,
        emailVerificationToken := some (generateTemporaryToken prim random now).hashedToken,
        emailVerificationExpiry := some (generateTemporaryToken prim random now).tokenExpiry }
      (s.users ++ [{ _id := newId, email := E, username := N,
                     fullName := fullName.map (trimSetter prim.toStringLib),
                     password := prim.bcryptHash password,
                     isEmailVerified := false }]) =
      s.users ++
        [{ _id := newId, email := E, username := N,
           fullName := fullName.map (trimSetter prim.toStringLib),
           password := prim.bcryptHash password, isEmailVerified := false,
           emailVerificationToken := some (generateTemporaryToken prim random now).hashedToken,
           emailVerificationExpiry :=
             some (generateTemporaryToken prim random now).tokenExpiry }] := by
    unfold save
    rw [updateFirst_append_of_none _ _ _ _ hnone (by simp)]
    rfl
  have hfound := findOne_append_of_none (fun u : User => u._id == newId) s.users
    { _id := newId, email := E, username := N,
      fullName := fullName.map (trimSetter prim.toStringLib),
      password := prim.bcryptHash password, isEmailVerified := false,
      emailVerificationToken := some (generateTemporaryToken prim random now).hashedToken,
      emailVerificationExpiry := some (generateTemporaryToken prim random now).tokenExpiry }
    hnone (by simp)
  simp only [husers, hfound]
  refine ⟨?_, ?_, ?_⟩ <;> first | rfl | trivial

/-! ## Lemmas on the hexadecimal text -/

theorem hexValue_hexDigit : ∀ n, n < 16 → hexValue (hexDigit n) = n := by
  decide

theorem hexDigit_mem : ∀ n, n < 16 → hexDigit n ∈ "0123456789abcdef".toList := by
  decide

theorem toHex_toList (bytes : List (Fin 256)) :
    (toHex bytes).toList =
      bytes.flatMap (fun b => [hexDigit (b.val / 16), hexDigit (b.val % 16)]) := rfl

theorem length_toHex (bytes : List (Fin 256)) : (toHex bytes).length = 2 * bytes.length := by
  unfold toHex
  rw [String.length_mk]
  induction bytes with
  | nil => rfl
  | cons b bs ih =>
    simp only [List.flatMap_cons, List.length_append, List.length_cons, List.length_nil, ih]
    omega

theorem fromHex_toHex (bytes : List (Fin 256)) :
    fromHex (toHex bytes).toList = bytes.map (fun b => b.val) := by
  rw [toHex_toList]
  induction bytes with
  | nil => rfl
  | cons b bs ih =>
    have hhi : b.val / 16 < 16 := by
      have := b.isLt
      omega
    have hlo : b.val % 16 < 16 := Nat.mod_lt _ (by decide)
    simp only [List.flatMap_cons, List.cons_append, List.nil_append, fromHex, List.map_cons,
      ih, hexValue_hexDigit _ hhi, hexValue_hexDigit _ hlo]
    congr 1
    omega

theorem toHex_ne_empty (random : Bytes20) : toHex random.bytes ≠ "" := by
  intro h
  have := length_toHex random.bytes
  rw [h, random.size] at this
  simp at this

/-! ## Claims -/

/-- C1: for every store with unique project ids and every project `P` in it,
`deleteProject` on the id of `P` answers 200 and leaves no project with the id
of `P`, no membership of `P`, no task of `P`, no subtask of a task that `P`
had, and no note of `P`. -/
theorem deleteProject_removes_dependents (s : Store) (P : Project)
    (hs : s.uniqueProjectIds) (hP : P ∈ s.projects) :
    (deleteProject s (.hex P._id)).status = some 200 ∧
    (∀ p ∈ (deleteProject s (.hex P._id)).store.projects, p._id ≠ P._id) ∧
    (∀ m ∈ (deleteProject s (.hex P._id)).store.members, m.project ≠ P._id) ∧
    (∀ t ∈ (deleteProject s (.hex P._id)).store.tasks, t.project ≠ P._id) ∧
    (∀ st ∈ (deleteProject s (.hex P._id)).store.subtasks,
      ∀ t ∈ s.tasks, t.project = P._id → st.task ≠ t._id) ∧
    (∀ n ∈ (deleteProject s (.hex P._id)).store.notes, n.project ≠ P._id) := by
  obtain ⟨d, hd⟩ := findOne_isSome_of_mem (fun p => p._id == P._id) s.projects P hP (by simp)
  simp only [deleteProject_outcome, isValidObjectId, findOneAndDelete, hd, respond, Outcome.status,
    Bool.not_true, Bool.false_eq_true, ↓reduceIte]
  refine ⟨trivial, ?_, ?_, ?_, ?_, ?_⟩
  · intro p hp
    exact not_mem_deleteFirst_key (fun p : Project => p._id) P._id s.projects hs p hp
  · intro m hm
    have := (mem_deleteMany _ _ _).mp hm
    simpa using this.2
  · intro t ht
    have := (mem_deleteMany _ _ _).mp ht
    intro hproj
    have hmem : t._id ∈ (find (fun t => t.project == P._id) s.tasks).map (fun task => task._id) :=
      List.mem_map.mpr ⟨t, by simp [find, this.1, hproj], rfl⟩
    simp [hmem] at this
  · intro st hst t ht hproj heq
    have := (mem_deleteMany _ _ _).mp hst
    have hmem : st.task ∈ (find (fun t => t.project == P._id) s.tasks).map (fun task => task._id) :=
      List.mem_map.mpr ⟨t, by simp [find, ht, hproj], heq.symm⟩
    simp [hmem] at this
  · intro n hn
    have := (mem_deleteMany _ _ _).mp hn
    simpa using this.2

/-- C2: let the email of the body resolve to the user u, that is, u is the user
that `User.findOne({ email })` finds: the first user whose stored email is the
email of the body, trimmed and lower-cased. Starting from a store with at most
one membership of (u, p), two calls of `addMembersToProject` for (u, p), first
with role r1 and then with role r2, both answer 201 and leave exactly one
membership record of (u, p), whose role is r2. -/
theorem addMembersToProject_twice_latest_role (lib : StringLib) (s : Store)
    (id1 id2 : ObjectId)
    (email : String) (u : User) (p : ObjectId) (r1 r2 : Role)
    (hu : findOne (fun x => x.email == lowercaseTrim lib email) s.users = some u)
    (hone : (find (fun m => m.user == u._id && m.project == p) s.members).length ≤ 1) :
    (addMembersToProject lib s id1 email r1 (.hex p)).status = some 201 ∧
    (addMembersToProject lib (addMembersToProject lib s id1 email r1 (.hex p)).store
      id2 email r2 (.hex p)).status = some 201 ∧
    ∃ m, find (fun m => m.user == u._id && m.project == p)
        (addMembersToProject lib (addMembersToProject lib s id1 email r1 (.hex p)).store
          id2 email r2 (.hex p)).store.members = [m] ∧
      m.role = r2 ∧ m.user = u._id ∧ m.project = p := by
  rw [addMembersToProject_resolved lib s id1 email r1 p u hu]
  simp only [respond]
  have h2 := fun ms =>
    addMembersToProject_resolved lib { s with members := ms } id2 email r2 p u hu
  simp only [h2]
  refine ⟨rfl, rfl, ?_⟩
  simp only [respond]
  unfold find at hone ⊢
  rw [filter_findOneAndUpsert _ _ _ _ (by simp) (by simp),
    filter_findOneAndUpsert _ _ _ _ (by simp) (by simp)]
  cases h : s.members.filter (fun m => m.user == u._id && m.project == p) with
  | nil => exact ⟨_, rfl, rfl, rfl, rfl⟩
  | cons d ds =>
    rw [h] at hone
    have hds : ds = [] := by
      cases ds with
      | nil => rfl
      | cons e es => simp at hone
    subst hds
    exact ⟨_, rfl, rfl, rfl, rfl⟩

/-- C1 at the sample store: the sample project is deleted with status 200. -/
theorem deleteProject_removes_dependents_witness :
    sampleStore.uniqueProjectIds ∧ sampleProject ∈ sampleStore.projects ∧
    (deleteProject sampleStore (.hex sampleProject._id)).status = some 200 ∧
    (∀ n ∈ (deleteProject sampleStore (.hex sampleProject._id)).store.notes,
      n.project ≠ sampleProject._id) :=
  have h := deleteProject_removes_dependents sampleStore sampleProject (by decide) (by decide)
  ⟨by decide, by decide, h.1, h.2.2.2.2.2⟩

/-- C2 at the sample store: bob, a plain member of project 10, is added again as
project admin and then as admin, under an email written with capitals and a
blank; one membership of (bob, 10) remains. -/
theorem addMembersToProject_twice_latest_role_witness :
    findOne (fun x => x.email == lowercaseTrim sampleStrings " Bob@Camp.io") sampleStore.users
      = some { _id := 2, email := "bob@camp.io" } ∧
    (find (fun m => m.user == 2 && m.project == 10) sampleStore.members).length ≤ 1 ∧
    ∃ m, find (fun m => m.user == 2 && m.project == 10)
        (addMembersToProject sampleStrings
          (addMembersToProject sampleStrings sampleStore 60 " Bob@Camp.io" "project-admin"
            (.hex 10)).store
          61 " Bob@Camp.io" "admin" (.hex 10)).store.members = [m] ∧
      m.role = "admin" ∧ m.user = 2 ∧ m.project = 10 :=
  ⟨by decide, by decide,
    (addMembersToProject_twice_latest_role sampleStrings sampleStore 60 61 " Bob@Camp.io"
      { _id := 2, email := "bob@camp.io" } 10 "project-admin" "admin"
      (by decide) (by decide)).2.2⟩

/-- C3: on every route of the note router and of the task router, whatever the
other handlers do, a request addressed to project `P` by a user without a
membership record of `P` ends in the permission check with status 403: that
check is the only handler entered, no controller is entered, and the store is
unchanged. -/
theorem routes_deny_user_without_membership {ρ δ : Type}
    (ext : Handler → Ctx ρ → Step ρ δ) (route : Route)
    (hroute : route ∈ noteRouter ++ taskRouter) (ctx : Ctx ρ) (P : ObjectId)
    (hP : ctx.projectId = .hex P)
    (hno : ∀ m ∈ ctx.store.members, ¬ (m.user = ctx.user._id ∧ m.project = P)) :
    (runChain ext route.handlers ctx).status = some 403 ∧
    (runChain ext route.handlers ctx).store = ctx.store ∧
    (∃ roles, (runChain ext route.handlers ctx).entered
      = [.validateProjectPermission roles]) ∧
    (∀ h ∈ (runChain ext route.handlers ctx).entered, h.isController = false) := by
  obtain ⟨roles, hrun⟩ := runChain_denied ext route.handlers
    (routes_start_with_permission route hroute) ctx P hP hno
  rw [hrun]
  refine ⟨rfl, rfl, ⟨roles, rfl⟩, ?_⟩
  intro h hh
  simp only [List.mem_singleton] at hh
  subst hh
  rfl

/-- C3 at the sample store: user 3 posts a note to project 10. -/
theorem routes_deny_user_without_membership_witness :
    postNoteRoute ∈ noteRouter ++ taskRouter ∧ outsiderCtx.projectId = .hex 10 ∧
    (∀ m ∈ outsiderCtx.store.members, ¬ (m.user = outsiderCtx.user._id ∧ m.project = 10)) ∧
    (runChain passAll postNoteRoute.handlers outsiderCtx).status = some 403 ∧
    (runChain passAll postNoteRoute.handlers outsiderCtx).store = outsiderCtx.store :=
  have h := routes_deny_user_without_membership passAll postNoteRoute (by decide)
    outsiderCtx 10 rfl (by decide)
  ⟨by decide, rfl, by decide, h.1, h.2.1⟩

/-- C4: at the sample store the plain member is refused by all three note
controllers and the notes are unchanged; `createProjectNote` and
`updateProjectNote` refuse with status 403, `deleteProjetNote` refuses with
status 400. -/
theorem deleteProjetNote_non_admin_status_400 :
    (createProjectNote sampleStore 60 sampleMember (.hex 10) (some "hello")).status = some 403 ∧
    (createProjectNote sampleStore 60 sampleMember (.hex 10) (some "hello")).store
      = sampleStore ∧
    (updateProjectNote sampleStore sampleMember (.hex 50) (some "changed")).status = some 403 ∧
    (updateProjectNote sampleStore sampleMember (.hex 50) (some "changed")).store
      = sampleStore ∧
    (deleteProjetNote sampleStore sampleMember (.hex 50)).result
      = .error (.api { statusCode := 400, message := "Only Admins can delete notes" }) ∧
    (deleteProjetNote sampleStore sampleMember (.hex 50)).status = some 400 ∧
    (deleteProjetNote sampleStore sampleMember (.hex 50)).store = sampleStore := by
  refine ⟨?_, ?_, ?_, ?_, ?_, ?_, ?_⟩ <;> rfl

/-- C5: for every project `P` of the store and every caller whose resolved role
is admin, `createProjectNote` with content `c` answers 200 and appends exactly
one note, of project `P`, created by the caller, with content `c`; the notes
that existed and every other collection are unchanged. -/
theorem createProjectNote_admin_adds_one_note (s : Store) (newId : ObjectId)
    (user : ReqUser) (P : Project) (c : String)
    (hP : P ∈ s.projects) (hrole : user.role = some "admin") :
    (createProjectNote s newId user (.hex P._id) (some c)).status = some 200 ∧
    (createProjectNote s newId user (.hex P._id) (some c)).store =
      { s with notes := s.notes ++
          [{ _id := newId, project := P._id, createdBy := user._id, content := some c }] } := by
  obtain ⟨d, hd⟩ := findOne_isSome_of_mem (fun p => p._id == P._id) s.projects P hP (by simp)
  simp [createProjectNote, hrole, hd, respond, Outcome.status]

/-- C5 at the sample store: the admin adds the note "hello" to project 10. -/
theorem createProjectNote_admin_adds_one_note_witness :
    sampleProject ∈ sampleStore.projects ∧ sampleAdmin.role = some "admin" ∧
    (createProjectNote sampleStore 60 sampleAdmin (.hex sampleProject._id)
      (some "hello")).status = some 200 ∧
    (createProjectNote sampleStore 60 sampleAdmin (.hex sampleProject._id)
      (some "hello")).store.notes =
      sampleStore.notes ++ [{ _id := 60, project := 10, createdBy := 1, content := some "hello" }] :=
  have h := createProjectNote_admin_adds_one_note sampleStore 60 sampleAdmin sampleProject
    "hello" (by decide) rfl
  ⟨by decide, rfl, h.1, by rw [h.2]; rfl⟩

/-- C6: for every user and every name and description, `createProject` answers
201 with the new project, whose creator is the user; it appends that one
project record and exactly one membership record, of (user, new project) with
the admin role, and changes nothing else. -/
theorem createProject_creator_is_admin_member (s : Store)
    (newProjectId newMemberId : ObjectId) (user : ReqUser)
    (name description : Option String) :
    (createProject s newProjectId newMemberId user name description).result =
      .ok { status := 201,
            body := { statusCode := 201,
                      data := { _id := newProjectId, name := name,
                                description := description, createdBy := user._id },
                      message := "Project created Successfully" } } ∧
    (createProject s newProjectId newMemberId user name description).store =
      { s with
        projects := s.projects ++
          [{ _id := newProjectId, name := name, description := description,
             createdBy := user._id }],
        members := s.members ++
          [{ _id := newMemberId, user := user._id, project := newProjectId,
             role := UserRolesEnum.ADMIN }] } ∧
    UserRolesEnum.ADMIN = "admin" :=
  ⟨rfl, rfl, rfl⟩

/-- C7, as stated, fails: at the sample store no project has id 11 and no task
has id 21, yet `createProjectNote` for project 11 by a plain member fails with
403, `createSubTask` for task 21 with an empty title fails with 400, and
`createTask` with a project id that does not cast throws the cast exception,
which carries no status. -/
theorem create_with_missing_parent_not_always_404 :
    (∀ p ∈ sampleStore.projects, p._id ≠ 11) ∧
    (createProjectNote sampleStore 60 sampleMember (.hex 11) (some "hello")).status
      = some 403 ∧
    (∀ t ∈ sampleStore.tasks, t._id ≠ 21) ∧
    (createSubTask sampleStore 60 sampleAdmin (.hex 21) (some "") none none).status
      = some 400 ∧
    (createTask { SERVER_URL := "http://camp.io", IMAGES_PATH := "images" } sampleStore 60
      sampleAdmin .malformed (some "Plan") (some "First plan") none (some "todo") []).result
      = .error .cast := by
  refine ⟨by decide, rfl, by decide, rfl, rfl⟩

/-- C7, amended: with a well-formed id that matches no project, `createTask`
fails with 404, and so does `createProjectNote` when the caller's resolved role
is admin; with a well-formed id that matches no task and a non-empty title,
`createSubTask` fails with 404. For every input, each of the three leaves the
store unchanged when it fails, and when it succeeds it appends exactly one
record whose parent (project, or task) is in the store it was called on. -/
theorem create_checks_parent_exists (env : Env) (s : Store) (newId : ObjectId)
    (admin anyUser : ReqUser) (pid tid : ObjectId) (projectId taskId : RawId)
    (title anyTitle description content : Option String) (assignedTo : Option RawId)
    (status : Option String) (files : List UploadedFile) (isCompleted : Option Bool)
    (hnp : ∀ p ∈ s.projects, p._id ≠ pid) (hnt : ∀ t ∈ s.tasks, t._id ≠ tid)
    (hadmin : admin.role = some "admin") (htitle : truthy title = true) :
    (createTask env s newId anyUser (.hex pid) anyTitle description assignedTo status
      files).status = some 404 ∧
    (createProjectNote s newId admin (.hex pid) content).status = some 404 ∧
    (createSubTask s newId anyUser (.hex tid) title description isCompleted).status
      = some 404 ∧
    ((createTask env s newId anyUser projectId anyTitle description assignedTo status
        files).succeeded = false →
      (createTask env s newId anyUser projectId anyTitle description assignedTo status
        files).store = s) ∧
    ((createProjectNote s newId anyUser projectId content).succeeded = false →
      (createProjectNote s newId anyUser projectId content).store = s) ∧
    ((createSubTask s newId anyUser taskId anyTitle description isCompleted).succeeded = false →
      (createSubTask s newId anyUser taskId anyTitle description isCompleted).store = s) ∧
    ((createTask env s newId anyUser projectId anyTitle description assignedTo status
        files).succeeded = true →
      ∃ t, (∃ p ∈ s.projects, t.project = p._id) ∧
        (createTask env s newId anyUser projectId anyTitle description assignedTo status
          files).store = { s with tasks := s.tasks ++ [t] }) ∧
    ((createProjectNote s newId anyUser projectId content).succeeded = true →
      ∃ n, (∃ p ∈ s.projects, n.project = p._id) ∧
        (createProjectNote s newId anyUser projectId content).store
          = { s with notes := s.notes ++ [n] }) ∧
    ((createSubTask s newId anyUser taskId anyTitle description isCompleted).succeeded = true →
      ∃ st, (∃ t ∈ s.tasks, st.task = t._id) ∧
        (createSubTask s newId anyUser taskId anyTitle description isCompleted).store
          = { s with subtasks := s.subtasks ++ [st] }) := by
  have hp : findOne (fun p => p._id == pid) s.projects = none :=
    findOne_eq_none_of_forall _ _ (fun p h => by simpa using hnp p h)
  have ht : findOne (fun t => t._id == tid) s.tasks = none :=
    findOne_eq_none_of_forall _ _ (fun t h => by simpa using hnt t h)
  refine ⟨?_, ?_, ?_, ?_, ?_, ?_, ?_, ?_, ?_⟩
  · simp [createTask, hp, throwApi, Outcome.status, Failure.status]
  · simp [createProjectNote, hadmin, hp, throwApi, Outcome.status, Failure.status]
  · simp [createSubTask, isValidObjectId, htitle, ht, throwApi, Outcome.status, Failure.status]
  · cases projectId with
    | malformed => intro _; rfl
    | hex i =>
      cases hf : findOne (fun p => p._id == i) s.projects with
      | none => intro _; simp [createTask, hf, throwApi]
      | some d =>
        cases assignedTo with
        | none => simp [createTask, hf, respond, Outcome.succeeded]
        | some a => cases a <;> simp [createTask, hf, respond, Outcome.succeeded, throwCast]
  · by_cases hr : anyUser.role = some "admin"
    · cases projectId with
      | malformed => intro _; simp [createProjectNote, hr, throwCast]
      | hex i =>
        cases hf : findOne (fun p => p._id == i) s.projects with
        | none => intro _; simp [createProjectNote, hr, hf, throwApi]
        | some d => simp [createProjectNote, hr, hf, respond, Outcome.succeeded]
    · intro _; simp [createProjectNote, hr, throwApi]
  · cases taskId with
    | malformed => intro _; simp [createSubTask, isValidObjectId, throwApi]
    | hex i =>
      by_cases htt : truthy anyTitle = true
      · cases hf : findOne (fun t => t._id == i) s.tasks with
        | none => intro _; simp [createSubTask, isValidObjectId, htt, hf, throwApi]
        | some d => simp [createSubTask, isValidObjectId, htt, hf, respond, Outcome.succeeded]
      · intro _; simp [createSubTask, isValidObjectId, htt, throwApi]
  · cases projectId with
    | malformed => simp [createTask, throwCast, Outcome.succeeded]
    | hex i =>
      cases hf : findOne (fun p => p._id == i) s.projects with
      | none => simp [createTask, hf, throwApi, Outcome.succeeded]
      | some d =>
        have hd := findOne_some_mem hf
        have hid : d._id = i := by simpa using hd.2
        cases assignedTo with
        | none =>
          intro _
          simp only [createTask, hf, respond]
          exact ⟨_, ⟨d, hd.1, hid.symm⟩, rfl⟩
        | some a =>
          cases a with
          | malformed => simp [createTask, hf, throwCast, Outcome.succeeded]
          | hex a =>
            intro _
            simp only [createTask, hf, respond]
            exact ⟨_, ⟨d, hd.1, hid.symm⟩, rfl⟩
  · by_cases hr : anyUser.role = some "admin"
    · cases projectId with
      | malformed => simp [createProjectNote, hr, throwCast, Outcome.succeeded]
      | hex i =>
        cases hf : findOne (fun p => p._id == i) s.projects with
        | none => simp [createProjectNote, hr, hf, throwApi, Outcome.succeeded]
        | some d =>
          have hd := findOne_some_mem hf
          have hid : d._id = i := by simpa using hd.2
          intro _
          simp only [createProjectNote, hr, hf, respond, bne_self_eq_false,
            Bool.false_eq_true, ↓reduceIte]
          exact ⟨_, ⟨d, hd.1, hid.symm⟩, rfl⟩
    · simp [createProjectNote, hr, throwApi, Outcome.succeeded]
  · cases taskId with
    | malformed => simp [createSubTask, isValidObjectId, throwApi, Outcome.succeeded]
    | hex i =>
      by_cases htt : truthy anyTitle = true
      · cases hf : findOne (fun t => t._id == i) s.tasks with
        | none => simp [createSubTask, isValidObjectId, htt, hf, throwApi, Outcome.succeeded]
        | some d =>
          have hd := findOne_some_mem hf
          intro _
          simp only [createSubTask, isValidObjectId, htt, hf, respond, Bool.not_true,
            Bool.false_eq_true, ↓reduceIte]
          exact ⟨_, ⟨d, hd.1, rfl⟩, rfl⟩
      · simp [createSubTask, isValidObjectId, htt, throwApi, Outcome.succeeded]

/-- C7, amended, at the sample store: project 11 and task 21 do not exist. -/
theorem create_checks_parent_exists_witness :
    (∀ p ∈ sampleStore.projects, p._id ≠ 11) ∧ (∀ t ∈ sampleStore.tasks, t._id ≠ 21) ∧
    sampleAdmin.role = some "admin" ∧ truthy (some "Draft") = true ∧
    (createTask { SERVER_URL := "http://camp.io", IMAGES_PATH := "images" } sampleStore 60
      sampleMember (.hex 11) none none none none []).status = some 404 ∧
    (createProjectNote sampleStore 60 sampleAdmin (.hex 11) (some "hello")).status = some 404 ∧
    (createSubTask sampleStore 60 sampleMember (.hex 21) (some "Draft") none none).status
      = some 404 :=
  have h := create_checks_parent_exists
    { SERVER_URL := "http://camp.io", IMAGES_PATH := "images" } sampleStore 60
    sampleAdmin sampleMember 11 21 (.hex 10) (.hex 20) (some "Draft") none none (some "hello")
    none none [] none (by decide) (by decide) rfl (by decide)
  ⟨by decide, by decide, rfl, by decide, h.1, h.2.1, h.2.2.1⟩

/-- C8: at a store with one user and no project, `addMembersToProject` for the
project id 99, which matches no project, answers 201 and creates a membership
record that refers to project 99. -/
theorem addMembersToProject_creates_membership_without_project :
    usersOnlyStore.projects = [] ∧
    (addMembersToProject sampleStrings usersOnlyStore 60 "ann@camp.io" "member" (.hex 99)).status
      = some 201 ∧
    (addMembersToProject sampleStrings usersOnlyStore 60 "ann@camp.io" "member" (.hex 99)).store.members
      = [{ _id := 60, user := 1, project := 99, role := "member" }] := by
  refine ⟨rfl, ?_, ?_⟩ <;> decide

/-- C9: for every store with unique task ids and every task `T` in it,
`deleteTask` on the id of `T` answers 200; afterwards the store holds no task
with the id of `T` and no subtask of `T`; every other task and every subtask of
another task is kept as it was (the two collections are the old ones without
`T` and without the subtasks of `T`), and the other collections are
unchanged. -/
theorem deleteTask_removes_task_and_its_subtasks (s : Store) (T : Task)
    (hs : s.uniqueTaskIds) (hT : T ∈ s.tasks) :
    (deleteTask s (.hex T._id)).status = some 200 ∧
    (∀ t ∈ (deleteTask s (.hex T._id)).store.tasks, t._id ≠ T._id) ∧
    (∀ st ∈ (deleteTask s (.hex T._id)).store.subtasks, st.task ≠ T._id) ∧
    (∀ t, t._id ≠ T._id → (t ∈ (deleteTask s (.hex T._id)).store.tasks ↔ t ∈ s.tasks)) ∧
    (∀ st, st.task ≠ T._id →
      (st ∈ (deleteTask s (.hex T._id)).store.subtasks ↔ st ∈ s.subtasks)) ∧
    (deleteTask s (.hex T._id)).store =
      { s with tasks := s.tasks.filter (fun t => !(t._id == T._id)),
               subtasks := s.subtasks.filter (fun st => !(st.task == T._id)) } := by
  obtain ⟨task, ht⟩ := findOne_isSome_of_mem (fun t => t._id == T._id) s.tasks T hT (by simp)
  have hid : task._id = T._id := by simpa using (findOne_some_mem ht).2
  have hstore : (deleteTask s (.hex T._id)).store =
      { s with tasks := s.tasks.filter (fun t => !(t._id == T._id)),
               subtasks := s.subtasks.filter (fun st => !(st.task == T._id)) } := by
    simp only [deleteTask, isValidObjectId, ht, respond, Bool.not_true, Bool.false_eq_true,
      ↓reduceIte, hid]
    rw [deleteFirst_eq_filter (fun t : Task => t._id) T._id s.tasks hs]
    rfl
  refine ⟨?_, ?_, ?_, ?_, ?_, hstore⟩
  · simp [deleteTask, isValidObjectId, ht, respond, Outcome.status]
  · rw [hstore]
    intro t ht'
    simpa using (List.mem_filter.mp ht').2
  · rw [hstore]
    intro st hst
    simpa using (List.mem_filter.mp hst).2
  · rw [hstore]
    intro t hne
    simp [List.mem_filter, hne]
  · rw [hstore]
    intro st hne
    simp [List.mem_filter, hne]

/-- C9 at the sample store: the sample task is deleted with its subtask. -/
theorem deleteTask_removes_task_and_its_subtasks_witness :
    sampleStore.uniqueTaskIds ∧ sampleTask ∈ sampleStore.tasks ∧
    (deleteTask sampleStore (.hex sampleTask._id)).status = some 200 ∧
    (∀ st ∈ (deleteTask sampleStore (.hex sampleTask._id)).store.subtasks,
      st.task ≠ sampleTask._id) :=
  have h := deleteTask_removes_task_and_its_subtasks sampleStore sampleTask
    (by decide) (by decide)
  ⟨by decide, by decide, h.1, h.2.2.1⟩

/-- C10: if the store holds at most one membership record for each (user,
project) pair, it still does after `addMembersToProject`, `updateMemberRole`,
`deleteMember` and `deleteProject`, whatever their arguments and whether they
succeed or fail, and after `createProject` when the id generated for the new
project is new to the store. -/
theorem membership_uniqueness_preserved (lib : StringLib) (s : Store) (hs : s.uniqueMembership)
    (newProjectId newMemberId newId : ObjectId) (user : ReqUser)
    (name description : Option String) (email : String) (role : Role)
    (projectId userId : RawId) (newRole : Option Role) :
    (s.freshProjectId newProjectId →
      (createProject s newProjectId newMemberId user name description).store.uniqueMembership) ∧
    (addMembersToProject lib s newId email role projectId).store.uniqueMembership ∧
    (updateMemberRole s projectId userId newRole).store.uniqueMembership ∧
    (deleteMember s projectId userId).store.uniqueMembership ∧
    (deleteProject s projectId).store.uniqueMembership := by
  unfold Store.uniqueMembership at hs ⊢
  refine ⟨?_, ?_, ?_, ?_, ?_⟩
  · intro hfresh
    simp only [createProject, respond, List.map_append, List.map_cons, List.map_nil]
    refine List.Nodup.append hs (List.nodup_singleton _) ?_
    rw [List.disjoint_singleton]
    intro hmem
    obtain ⟨m, hm, hkey⟩ := List.mem_map.mp hmem
    simp only [Prod.mk.injEq] at hkey
    exact hfresh.2 m hm hkey.2
  · cases hu : findOne (fun u => u.email == lowercaseTrim lib email) s.users with
    | none => simpa [addMembersToProject, hu, throwApi] using hs
    | some u =>
      cases projectId with
      | malformed => simpa [addMembersToProject, hu, throwCast] using hs
      | hex p =>
        rw [addMembersToProject_resolved lib s newId email role p u hu]
        exact nodup_pairs_findOneAndUpsert u._id p newId role s.members hs
  · cases newRole with
    | none => simpa [updateMemberRole, throwApi] using hs
    | some r =>
      by_cases hr : r ∈ AvailableUserRole
      · cases projectId with
        | malformed => simpa [updateMemberRole, hr, throwCast] using hs
        | hex pid =>
          cases userId with
          | malformed => simpa [updateMemberRole, hr, throwCast] using hs
          | hex uid =>
            cases hf : findOne (fun m => m.project == pid && m.user == uid) s.members with
            | none => simpa [updateMemberRole, hr, hf, throwApi] using hs
            | some pm =>
              have hkeep : ((updateFirst (fun m => m._id == pm._id)
                  (fun m => { m with role := r }) s.members).map
                  (fun m => (m.user, m.project))).Nodup := by
                rw [map_updateFirst_of_key_fixed]
                · exact hs
                · intro m _; rfl
              cases hg : findOne (fun m => m._id == pm._id) s.members with
              | none =>
                simpa [updateMemberRole, hr, hf, hg, findOneAndUpdate, throwApi] using hs
              | some d =>
                simpa [updateMemberRole, hr, hf, hg, findOneAndUpdate, respond] using hkeep
      · simpa [updateMemberRole, hr, throwApi] using hs
  · cases projectId with
    | malformed => simpa [deleteMember, throwCast] using hs
    | hex pid =>
      cases userId with
      | malformed => simpa [deleteMember, throwCast] using hs
      | hex uid =>
        cases hf : findOne (fun m => m.project == pid && m.user == uid) s.members with
        | none => simpa [deleteMember, hf, throwApi] using hs
        | some pm =>
          cases hg : findOne (fun m => m._id == pm._id) s.members with
          | none => simpa [deleteMember, hf, hg, findOneAndDelete, throwApi] using hs
          | some d =>
            have hkeep := hs.sublist
              ((deleteFirst_sublist (fun m => m._id == pm._id) s.members).map
                (fun m => (m.user, m.project)))
            simpa [deleteMember, hf, hg, findOneAndDelete, respond] using hkeep
  · cases projectId with
    | malformed => simpa [deleteProject_outcome, isValidObjectId, throwApi] using hs
    | hex pid =>
      cases hf : findOne (fun p => p._id == pid) s.projects with
      | none => simpa [deleteProject_outcome, isValidObjectId, hf, findOneAndDelete, throwApi] using hs
      | some d =>
        have hkeep := hs.sublist
          ((List.filter_sublist (p := fun m => !(m.project == pid)) s.members).map
            (fun m => (m.user, m.project)))
        simpa [deleteProject_outcome, isValidObjectId, hf, findOneAndDelete, respond, deleteMany]
          using hkeep

/-- C10 at the sample store, where 11 is a new project id. -/
theorem membership_uniqueness_preserved_witness :
    sampleStore.uniqueMembership ∧ sampleStore.freshProjectId 11 ∧
    (createProject sampleStore 11 60 sampleAdmin (some "Beta") none).store.uniqueMembership ∧
    (addMembersToProject sampleStrings sampleStore 61 "bob@camp.io" "admin"
      (.hex 10)).store.uniqueMembership ∧
    (updateMemberRole sampleStore (.hex 10) (.hex 2) (some "admin")).store.uniqueMembership ∧
    (deleteMember sampleStore (.hex 10) (.hex 2)).store.uniqueMembership ∧
    (deleteProject sampleStore (.hex 10)).store.uniqueMembership :=
  have h := membership_uniqueness_preserved sampleStrings sampleStore (by decide) 11 60 61 sampleAdmin
    (some "Beta") none "bob@camp.io" "admin" (.hex 10) (.hex 2) (some "admin")
  ⟨by decide, by decide, h.1 (by decide), h.2.1, h.2.2.1, h.2.2.2.1, h.2.2.2.2⟩

/-- C11: `updateMemberRole` with a new role outside `AvailableUserRole` (or
none) fails with status 400 and leaves the store as it was; the add-member
validator followed by `validate` throws 422 for every role outside
`AvailableUserRole`; `createProject` stores the admin role, which is in the
enumeration. Hence, if every stored role is in the enumeration, it still is
after `updateMemberRole` on any input, after `createProject`, and after
`addMembersToProject` with a role that passed the validator. -/
theorem roles_stay_in_enumeration (lib : ValidatorLib) (strings : StringLib) (s : Store)
    (projectId userId : RawId) (badRole newRole : Option Role)
    (newProjectId newMemberId newId : ObjectId) (user : ReqUser)
    (name description : Option String) (email : String) (bodyEmail bodyRole : Option String)
    (role : Role) :
    ((∀ r, badRole = some r → r ∉ AvailableUserRole) →
      (updateMemberRole s projectId userId badRole).status = some 400 ∧
      (updateMemberRole s projectId userId badRole).store = s) ∧
    (fieldText bodyRole ∉ AvailableUserRole →
      ∃ e, validate (addMembertoProjectValidator lib bodyEmail bodyRole) = .error e ∧
        e.statusCode = 422) ∧
    UserRolesEnum.ADMIN ∈ AvailableUserRole ∧
    (s.rolesInEnumeration →
      (updateMemberRole s projectId userId newRole).store.rolesInEnumeration) ∧
    (s.rolesInEnumeration →
      (createProject s newProjectId newMemberId user name
        description).store.rolesInEnumeration) ∧
    (s.rolesInEnumeration →
      validate (addMembertoProjectValidator lib (some email) (some role)) = .ok () →
      (addMembersToProject strings s newId email role projectId).store.rolesInEnumeration) := by
  have hadmin : UserRolesEnum.ADMIN ∈ AvailableUserRole := by decide
  refine ⟨fun hbad => ?_, fun hbody => ?_, hadmin, fun hs => ?_, fun hs => ?_,
    fun hs hvalid => ?_⟩
  · cases badRole with
    | none => exact ⟨rfl, rfl⟩
    | some r =>
      have hr : r ∉ AvailableUserRole := hbad r rfl
      simp [updateMemberRole, hr, throwApi, Outcome.status, Failure.status]
  · have herr : addMembertoProjectValidator lib bodyEmail bodyRole ≠ [] := by
      intro hnil
      simp only [addMembertoProjectValidator, List.append_eq_nil] at hnil
      have h4 := hnil.2
      simp [check, hbody] at h4
    cases hv : addMembertoProjectValidator lib bodyEmail bodyRole with
    | nil => exact absurd hv herr
    | cons x xs => exact ⟨_, rfl, rfl⟩
  · unfold Store.rolesInEnumeration at hs ⊢
    cases newRole with
    | none => simpa [updateMemberRole, throwApi] using hs
    | some r =>
      by_cases hr : r ∈ AvailableUserRole
      · cases projectId with
        | malformed => simpa [updateMemberRole, hr, throwCast] using hs
        | hex pid =>
          cases userId with
          | malformed => simpa [updateMemberRole, hr, throwCast] using hs
          | hex uid =>
            cases hf : findOne (fun m => m.project == pid && m.user == uid) s.members with
            | none => simpa [updateMemberRole, hr, hf, throwApi] using hs
            | some pm =>
              have hkeep : ∀ m ∈ updateFirst (fun m => m._id == pm._id)
                  (fun m => { m with role := r }) s.members, m.role ∈ AvailableUserRole := by
                intro m hm
                rcases mem_updateFirst _ _ _ _ hm with h | ⟨e, _, _, hme⟩
                · exact hs m h
                · rw [hme]; exact hr
              cases hg : findOne (fun m => m._id == pm._id) s.members with
              | none =>
                simpa [updateMemberRole, hr, hf, hg, findOneAndUpdate, throwApi] using hs
              | some d =>
                simpa [updateMemberRole, hr, hf, hg, findOneAndUpdate, respond] using hkeep
      · simpa [updateMemberRole, hr, throwApi] using hs
  · unfold Store.rolesInEnumeration at hs ⊢
    intro m hm
    simp only [createProject, respond, List.mem_append, List.mem_singleton] at hm
    rcases hm with hm | hm
    · exact hs m hm
    · rw [hm]; exact hadmin
  · have hrole : role ∈ AvailableUserRole := by
      by_contra hno
      have herr : addMembertoProjectValidator lib (some email) (some role) ≠ [] := by
        intro hnil
        simp only [addMembertoProjectValidator, List.append_eq_nil] at hnil
        have h4 := hnil.2
        simp [check, fieldText, hno] at h4
      cases hv : addMembertoProjectValidator lib (some email) (some role) with
      | nil => exact herr hv
      | cons x xs => simp [validate, hv] at hvalid
    unfold Store.rolesInEnumeration at hs ⊢
    cases hu : findOne (fun u => u.email == lowercaseTrim strings email) s.users with
    | none => simpa [addMembersToProject, hu, throwApi] using hs
    | some u =>
      cases projectId with
      | malformed => simpa [addMembersToProject, hu, throwCast] using hs
      | hex p =>
        rw [addMembersToProject_resolved strings s newId email role p u hu]
        intro m hm
        simp only [respond, findOneAndUpsert] at hm
        split at hm
        · rcases mem_updateFirst _ _ _ _ hm with h | ⟨e, _, _, hme⟩
          · exact hs m h
          · rw [hme]; exact hrole
        · simp only [List.mem_append, List.mem_singleton] at hm
          rcases hm with h | h
          · exact hs m h
          · rw [h]; exact hrole

/-- C11 at the sample store: the role "owner" is not in the enumeration. -/
theorem roles_stay_in_enumeration_witness :
    (∀ r, some "owner" = some r → r ∉ AvailableUserRole) ∧
    fieldText (some "owner") ∉ AvailableUserRole ∧
    sampleStore.rolesInEnumeration ∧
    validate (addMembertoProjectValidator sampleLib (some "eve@camp.io") (some "member"))
      = .ok () ∧
    (updateMemberRole sampleStore (.hex 10) (.hex 2) (some "owner")).status = some 400 ∧
    (addMembersToProject sampleStrings sampleStore 60 "eve@camp.io" "member"
      (.hex 10)).store.rolesInEnumeration :=
  have hbad : ∀ r, some "owner" = some r → r ∉ AvailableUserRole := by
    intro r hr
    cases hr
    decide
  have h := roles_stay_in_enumeration sampleLib sampleStrings sampleStore (.hex 10) (.hex 2) (some "owner")
    (some "admin") 11 60 60 sampleAdmin (some "Beta") none "eve@camp.io" (some "eve@camp.io")
    (some "owner") "member"
  ⟨hbad, by decide, by decide, rfl, (h.1 hbad).1, h.2.2.2.2.2 (by decide) rfl⟩

/-- C12: `addMembersToProject` applied a second time with the same email,
project and role leaves the store that the first application left, for every
input. When the email of the body resolves to the user u (the first user whose
stored email is the email of the body, trimmed and lower-cased) and the
project id is p, the membership records of every other (user, project) pair
are the ones the store had, in the same order; when it resolves to no user the
store is unchanged. -/
theorem addMembersToProject_idempotent (lib : StringLib) (s : Store) (id1 id2 : ObjectId)
    (email : String) (role : Role) (projectId : RawId) (p : ObjectId) :
    (addMembersToProject lib (addMembersToProject lib s id1 email role projectId).store
      id2 email role projectId).store =
      (addMembersToProject lib s id1 email role projectId).store ∧
    (∀ u, findOne (fun x => x.email == lowercaseTrim lib email) s.users = some u →
      (addMembersToProject lib s id1 email role (.hex p)).store.members.filter
        (fun m => !(m.user == u._id && m.project == p)) =
        s.members.filter (fun m => !(m.user == u._id && m.project == p)) ∧
      (∀ m : ProjectMember, ¬ (m.user = u._id ∧ m.project = p) →
        (m ∈ (addMembersToProject lib s id1 email role (.hex p)).store.members ↔
          m ∈ s.members))) ∧
    (findOne (fun x => x.email == lowercaseTrim lib email) s.users = none →
      (addMembersToProject lib s id1 email role projectId).store = s) := by
  refine ⟨?_, ?_, ?_⟩
  · cases hu : findOne (fun x => x.email == lowercaseTrim lib email) s.users with
    | none => simp [addMembersToProject, hu, throwApi]
    | some u =>
      cases projectId with
      | malformed => simp [addMembersToProject, hu, throwCast]
      | hex q =>
        have h2 := fun ms =>
          addMembersToProject_resolved lib { s with members := ms } id2 email role q u hu
        rw [addMembersToProject_resolved lib s id1 email role q u hu]
        simp only [respond, h2]
        rw [findOneAndUpsert_idem _ _ _ _ _ (by simp) (by intro d; rfl) (by simp) rfl]
  · intro u hu
    have hframe : (addMembersToProject lib s id1 email role (.hex p)).store.members.filter
        (fun m => !(m.user == u._id && m.project == p)) =
        s.members.filter (fun m => !(m.user == u._id && m.project == p)) := by
      rw [addMembersToProject_resolved lib s id1 email role p u hu]
      simp only [respond]
      exact filter_not_findOneAndUpsert
        (fun m : ProjectMember => m.user == u._id && m.project == p) _ _ _ (by simp) (by simp)
    refine ⟨hframe, ?_⟩
    intro m hm
    have hout : (!(m.user == u._id && m.project == p)) = true := by
      by_cases h1 : m.user = u._id
      · have h2 : m.project ≠ p := fun h2 => hm ⟨h1, h2⟩
        simp [h2]
      · simp [h1]
    constructor
    · intro h
      have hin : m ∈ (addMembersToProject lib s id1 email role (.hex p)).store.members.filter
          (fun m => !(m.user == u._id && m.project == p)) := List.mem_filter.mpr ⟨h, hout⟩
      rw [hframe] at hin
      exact (List.mem_filter.mp hin).1
    · intro h
      have hin : m ∈ s.members.filter
          (fun m => !(m.user == u._id && m.project == p)) := List.mem_filter.mpr ⟨h, hout⟩
      rw [← hframe] at hin
      exact (List.mem_filter.mp hin).1
  · intro hu
    simp [addMembersToProject, hu, throwApi]

/-- C12 at the sample store: eve is added to project 10 twice as a member,
under an email written in capitals, and the memberships of ann and bob stay;
an email of no user changes nothing. -/
theorem addMembersToProject_idempotent_witness :
    findOne (fun x => x.email == lowercaseTrim sampleStrings "EVE@camp.io") sampleStore.users
      = some { _id := 3, email := "eve@camp.io" } ∧
    (addMembersToProject sampleStrings sampleStore 60 "EVE@camp.io" "member"
      (.hex 10)).status = some 201 ∧
    (addMembersToProject sampleStrings
      (addMembersToProject sampleStrings sampleStore 60 "EVE@camp.io" "member" (.hex 10)).store
      61 "EVE@camp.io" "member" (.hex 10)).store
      = (addMembersToProject sampleStrings sampleStore 60 "EVE@camp.io" "member"
          (.hex 10)).store ∧
    (addMembersToProject sampleStrings sampleStore 60 "EVE@camp.io" "member"
      (.hex 10)).store.members.filter (fun m => !(m.user == 3 && m.project == 10)) =
      sampleStore.members.filter (fun m => !(m.user == 3 && m.project == 10)) ∧
    (addMembersToProject sampleStrings sampleStore 60 "zed@camp.io" "member"
      (.hex 10)).store = sampleStore :=
  have h := addMembersToProject_idempotent sampleStrings sampleStore 60 61 "EVE@camp.io"
    "member" (.hex 10) 10
  have hz := addMembersToProject_idempotent sampleStrings sampleStore 60 61 "zed@camp.io"
    "member" (.hex 10) 10
  ⟨by decide, rfl, h.1, (h.2.1 { _id := 3, email := "eve@camp.io" } (by decide)).1,
    hz.2.2 (by decide)⟩

/-- C13: at the sample store no task has id 21 and user 3 has no membership of
project 10; `deleteTask` on task 21, and `updateMemberRole` and `deleteMember`
on (project 10, user 3), each fail with status 400, not 404, and change
nothing. -/
theorem missing_record_fails_with_400 :
    (∀ t ∈ sampleStore.tasks, t._id ≠ 21) ∧
    (∀ m ∈ sampleStore.members, ¬ (m.project = 10 ∧ m.user = 3)) ∧
    (deleteTask sampleStore (.hex 21)).result
      = .error (.api { statusCode := 400, message := "Task is not found via taskId" }) ∧
    (updateMemberRole sampleStore (.hex 10) (.hex 3) (some "member")).result
      = .error (.api { statusCode := 400, message := "Project member not found" }) ∧
    (deleteMember sampleStore (.hex 10) (.hex 3)).result
      = .error (.api { statusCode := 400, message := "Project member not found" }) ∧
    (deleteTask sampleStore (.hex 21)).status = some 400 ∧
    (updateMemberRole sampleStore (.hex 10) (.hex 3) (some "member")).status = some 400 ∧
    (deleteMember sampleStore (.hex 10) (.hex 3)).status = some 400 ∧
    (deleteTask sampleStore (.hex 21)).store = sampleStore ∧
    (updateMemberRole sampleStore (.hex 10) (.hex 3) (some "member")).store = sampleStore ∧
    (deleteMember sampleStore (.hex 10) (.hex 3)).store = sampleStore := by
  refine ⟨by decide, by decide, ?_, ?_, ?_, ?_, ?_, ?_, ?_, ?_, ?_⟩ <;> rfl

/-- C15, as stated, fails: the only user of the sample store has the username
"ann" and the email "ann@camp.io"; a registration with the username
"Newcomer" and the email "ANN@camp.io" fails with status 409 although no
stored username equals the requested username and no stored email equals the
requested email: the query compares with the requested values trimmed and
lower-cased. -/
theorem registerUser_conflict_without_equal_text :
    authStore.users = [sampleAnn] ∧
    sampleAnn.username = "ann" ∧ sampleAnn.email = "ann@camp.io" ∧
    (∀ u ∈ authStore.users, ¬ (u.username = "Newcomer" ∨ u.email = "ANN@camp.io")) ∧
    lowercaseTrim samplePrimitives.toStringLib "ANN@camp.io" = "ann@camp.io" ∧
    (registerUser samplePrimitives authStore 2 sampleBytes 1000 "https" "camp.io"
      "ANN@camp.io" "Newcomer" "secret" none).status = some 409 := by
  refine ⟨rfl, rfl, rfl, by decide, by decide, ?_⟩
  rfl

/-- C15, amended: `registerUser` fails with status 409 if and only if some user
of the store has, as username, the requested username trimmed and lower-cased
or, as email, the requested email trimmed and lower-cased; when it does, the
store is unchanged (no user is created or modified, no token is stored) and no
mail is sent. -/
theorem registerUser_conflict_iff (prim : Primitives) (s : Store) (newId : ObjectId)
    (random : Bytes20) (now : Nat) (protocol host email username password : String)
    (fullName : Option String) :
    ((registerUser prim s newId random now protocol host email username password
        fullName).status = some 409 ↔
      ∃ u ∈ s.users, u.username = lowercaseTrim prim.toStringLib username ∨
        u.email = lowercaseTrim prim.toStringLib email) ∧
    ((registerUser prim s newId random now protocol host email username password
        fullName).status = some 409 →
      (registerUser prim s newId random now protocol host email username password
        fullName).store = s ∧
      (registerUser prim s newId random now protocol host email username password
        fullName).mails = []) := by
  cases hf : findOne (fun u => u.username == lowercaseTrim prim.toStringLib username ||
      u.email == lowercaseTrim prim.toStringLib email) s.users with
  | some d =>
    have hd := findOne_some_mem hf
    have hex : ∃ u ∈ s.users, u.username = lowercaseTrim prim.toStringLib username ∨
        u.email = lowercaseTrim prim.toStringLib email :=
      ⟨d, hd.1, by simpa using hd.2⟩
    have hst : (registerUser prim s newId random now protocol host email username password
        fullName).status = some 409 := by
      simp [registerUser, hf, AuthOutcome.status, Failure.status]
    refine ⟨⟨fun _ => hex, fun _ => hst⟩, fun _ => ?_⟩
    simp [registerUser, hf]
  | none =>
    have hno : ¬ ∃ u ∈ s.users, u.username = lowercaseTrim prim.toStringLib username ∨
        u.email = lowercaseTrim prim.toStringLib email := by
      rintro ⟨u, hu, hmatch⟩
      have := List.find?_eq_none.mp hf u hu
      simp at this
      rcases hmatch with h | h
      · exact this.1 h
      · exact this.2 h
    have hst : (registerUser prim s newId random now protocol host email username password
        fullName).status ≠ some 409 := by
      simp only [registerUser, hf]
      split <;> simp [AuthOutcome.status, Failure.status]
    exact ⟨⟨fun h => absurd h hst, fun h => absurd h hno⟩, fun h => absurd h hst⟩

/-- C15, amended, at the sample store: the username " Ann" is taken once it is
trimmed and lower-cased, and nothing is stored or mailed. -/
theorem registerUser_conflict_iff_witness :
    lowercaseTrim samplePrimitives.toStringLib " Ann" = "ann" ∧
    (registerUser samplePrimitives authStore 2 sampleBytes 1000 "https" "camp.io"
      "new@camp.io" " Ann" "secret" none).status = some 409 ∧
    (registerUser samplePrimitives authStore 2 sampleBytes 1000 "https" "camp.io"
      "new@camp.io" " Ann" "secret" none).store = authStore ∧
    (registerUser samplePrimitives authStore 2 sampleBytes 1000 "https" "camp.io"
      "new@camp.io" " Ann" "secret" none).mails = [] :=
  have h := registerUser_conflict_iff samplePrimitives authStore 2 sampleBytes 1000 "https"
    "camp.io" "new@camp.io" " Ann" "secret" none
  have hst := h.1.mpr ⟨sampleAnn, by decide, Or.inl (by decide)⟩
  ⟨by decide, hst, (h.2 hst).1, (h.2 hst).2⟩

/-- C16: `validate` calls `next()` if and only if the validation result is
empty; otherwise it throws an `ApiError` with status 422, a 400-class status,
`success` false, and an errors list with exactly one `{ path: msg }` entry for
each validation error, in the order of the validation result. -/
theorem validate_surfaces_every_error (errors : List ValidationError) :
    (validate errors = .ok () ↔ errors = []) ∧
    (errors ≠ [] →
      ∃ e, validate errors = .error e ∧ e.statusCode = 422 ∧
        400 ≤ e.statusCode ∧ e.statusCode < 500 ∧ e.success = false ∧
        e.errors = .entries (errors.map (fun err => (err.path, err.msg))) ∧
        (errors.map (fun err => (err.path, err.msg))).length = errors.length ∧
        ∀ i (h : i < errors.length),
          (errors.map (fun err => (err.path, err.msg)))[i]? =
            some ((errors.get ⟨i, h⟩).path, (errors.get ⟨i, h⟩).msg)) := by
  cases errors with
  | nil => exact ⟨⟨fun _ => rfl, fun _ => rfl⟩, fun h => absurd rfl h⟩
  | cons x xs =>
    refine ⟨⟨fun h => ?_, fun h => ?_⟩, fun _ => ?_⟩
    · simp [validate] at h
    · simp at h
    · refine ⟨_, rfl, rfl, by show 400 ≤ 422; decide, by show 422 < 500; decide, rfl, rfl,
        by simp, ?_⟩
      intro i h
      simp only [List.getElem?_map]
      rw [List.getElem?_eq_getElem h]
      rfl

/-- C16 at a validation result with two errors. -/
theorem validate_surfaces_every_error_witness :
    ([{ path := "email", msg := "Email is invalid" },
      { path := "role", msg := "Role is invalid" }] : List ValidationError) ≠ [] ∧
    ∃ e, validate [{ path := "email", msg := "Email is invalid" },
                   { path := "role", msg := "Role is invalid" }] = .error e ∧
      e.statusCode = 422 ∧
      e.errors = .entries [("email", "Email is invalid"), ("role", "Role is invalid")] :=
  have hne : ([{ path := "email", msg := "Email is invalid" },
      { path := "role", msg := "Role is invalid" }] : List ValidationError) ≠ [] := by decide
  have h := (validate_surfaces_every_error
    [{ path := "email", msg := "Email is invalid" },
     { path := "role", msg := "Role is invalid" }]).2 hne
  ⟨hne, h.elim (fun e he => ⟨e, he.1, he.2.1, he.2.2.2.2.2.1⟩)⟩

/-- C19: a body with a valid title, description and status and no
`assignedTo` does not pass the validators of the POST task route: the
`assignedTo` chain of `createTheTasks` records an error and `validate` throws
422, so `createTask` is not reached. `createTask` itself, called with no
`assignedTo`, answers 201 and stores the task with no assignee. -/
theorem createTheTasks_rejects_missing_assignee :
    createTheTasks (some "Plan") (some "First plan") none (some "todo") =
      [{ path := "assignedTo", msg := "AssignedTo must be a valid user ID" }] ∧
    validate (createTheTasks (some "Plan") (some "First plan") none (some "todo")) =
      .error { statusCode := 422, message := "Recieved data is not valid",
               errors := .entries [("assignedTo", "AssignedTo must be a valid user ID")] } ∧
    (createTask { SERVER_URL := "http://camp.io", IMAGES_PATH := "images" } sampleStore 60
      sampleAdmin (.hex 10) (some "Plan") (some "First plan") none (some "todo") []).status
      = some 201 ∧
    (createTask { SERVER_URL := "http://camp.io", IMAGES_PATH := "images" } sampleStore 60
      sampleAdmin (.hex 10) (some "Plan") (some "First plan") none (some "todo") []).store.tasks
      = sampleStore.tasks ++
        [{ _id := 60, title := some "Plan", description := some "First plan", project := 10,
           assignedTo := none, status := some "todo", assignedBy := 1, attachments := [] }] := by
  refine ⟨by decide, ?_, rfl, rfl⟩
  have h : createTheTasks (some "Plan") (some "First plan") none (some "todo") =
      [{ path := "assignedTo", msg := "AssignedTo must be a valid user ID" }] := by decide
  rw [h]
  rfl

/-- C20: for every project `P` of the store, `deleteProject` on the id of `P`
answers 200 and the calls it has issued are exactly these, in this order:
delete the project record; delete the memberships of `P`; fetch the tasks of
`P`; delete the subtasks whose task is among the ids of the fetched tasks;
delete the tasks whose id is among these ids; delete the notes of `P`. The
fetched tasks are the tasks of `P` in the store before the call. With an id
that is not valid no call is issued, and with a valid id of no project the
only call is the deletion of the project record. On every input the calls
issued, applied in order to the store, give the store that is left. -/
theorem deleteProject_operation_order (s : Store) (P : Project) (projectId : RawId)
    (pid : ObjectId) (hP : P ∈ s.projects) :
    (deleteProject s (.hex P._id)).status = some 200 ∧
    (deleteProject s (.hex P._id)).ops =
      [.projectFindByIdAndDelete P._id,
       .projectMemberDeleteMany P._id,
       .taskFind P._id,
       .subtaskDeleteMany ((find (fun t => t.project == P._id) s.tasks).map (fun t => t._id)),
       .taskDeleteMany ((find (fun t => t.project == P._id) s.tasks).map (fun t => t._id)),
       .projectNoteDeleteMany P._id] ∧
    (deleteProject s .malformed).ops = [] ∧
    ((∀ p ∈ s.projects, p._id ≠ pid) →
      (deleteProject s (.hex pid)).ops = [.projectFindByIdAndDelete pid]) ∧
    (deleteProject s projectId).ops.foldl (fun st op => op.apply st) s =
      (deleteProject s projectId).store := by
  obtain ⟨d, hd⟩ := findOne_isSome_of_mem (fun p => p._id == P._id) s.projects P hP (by simp)
  refine ⟨?_, ?_, rfl, ?_, ?_⟩
  · simp [deleteProject_outcome, isValidObjectId, findOneAndDelete, hd, respond, Outcome.status]
  · simp [deleteProject, isValidObjectId, Db.projectFindByIdAndDelete, Db.issue, Db.respond,
      Db.projectMemberDeleteMany, Db.taskFind, Db.subtaskDeleteMany, Db.taskDeleteMany,
      Db.projectNoteDeleteMany, StoreOp.apply, findOneAndDelete, hd]
  · intro hno
    have hf : findOne (fun p => p._id == pid) s.projects = none :=
      findOne_eq_none_of_forall _ _ (fun p hp => by simpa using hno p hp)
    simp [deleteProject, isValidObjectId, Db.projectFindByIdAndDelete, Db.issue, Db.throwApi,
      findOneAndDelete, hf]
  · cases projectId with
    | malformed => rfl
    | hex q =>
      cases hf : findOne (fun p => p._id == q) s.projects with
      | none =>
        simp [deleteProject, isValidObjectId, Db.projectFindByIdAndDelete, Db.issue,
          Db.throwApi, StoreOp.apply, findOneAndDelete, hf, throwApi]
      | some e =>
        simp [deleteProject, isValidObjectId, Db.projectFindByIdAndDelete, Db.issue,
          Db.respond, Db.projectMemberDeleteMany, Db.taskFind, Db.subtaskDeleteMany,
          Db.taskDeleteMany, Db.projectNoteDeleteMany, StoreOp.apply, findOneAndDelete, hf,
          respond]

/-- C20 at the sample store: the six calls of deleting project 10, whose only
task is task 20, and the single call of deleting the missing project 12. -/
theorem deleteProject_operation_order_witness :
    sampleProject ∈ sampleStore.projects ∧
    (deleteProject sampleStore (.hex sampleProject._id)).ops =
      [.projectFindByIdAndDelete 10, .projectMemberDeleteMany 10, .taskFind 10,
       .subtaskDeleteMany [20], .taskDeleteMany [20], .projectNoteDeleteMany 10] ∧
    (deleteProject sampleStore (.hex 12)).ops = [.projectFindByIdAndDelete 12] :=
  have h := deleteProject_operation_order sampleStore sampleProject (.hex 10) 12 (by decide)
  ⟨by decide, by rw [h.2.1]; rfl, h.2.2.2.1 (by decide)⟩

/-- C17: `refreshAccessToken` answers only when the presented token verifies,
decodes to a user of the store, and equals the refresh token stored for that
user, and in that case it does answer; `login` answers when the email of the
body, trimmed and lower-cased, is the stored email of a user and the password
matches; after either of them answers, the refresh token stored for the user
is the one returned in the response; after `logoutUser` the stored refresh
token of the user is the empty text, and every refresh token that decodes to
that user is then rejected with status 401. -/
theorem single_active_refresh_token (prim : Primitives) (s : Store) (now later : Nat)
    (email password cookieToken bodyToken : Option String) (userId : ObjectId) :
    (∀ r, (refreshAccessToken prim s now cookieToken bodyToken).result = .ok r →
      ∃ id user,
        prim.verifyRefreshToken
          ((if truthy cookieToken then cookieToken else bodyToken).getD "") now
          = some (some (.hex id)) ∧
        findOne (fun u => u._id == id) s.users = some user ∧
        user.refreshToken = (if truthy cookieToken then cookieToken else bodyToken) ∧
        ∃ stored, findOne (fun u => u._id == id)
            (refreshAccessToken prim s now cookieToken bodyToken).store.users = some stored ∧
          stored.refreshToken = some r.body.data.refreshToken) ∧
    (∀ id user, truthy (if truthy cookieToken then cookieToken else bodyToken) = true →
      prim.verifyRefreshToken
          ((if truthy cookieToken then cookieToken else bodyToken).getD "") now
          = some (some (.hex id)) →
      findOne (fun u => u._id == id) s.users = some user →
      user.refreshToken = (if truthy cookieToken then cookieToken else bodyToken) →
      ∃ r, (refreshAccessToken prim s now cookieToken bodyToken).result = .ok r ∧
        r.status = 200 ∧
        r.body.data.refreshToken = generateRefreshToken prim user now) ∧
    (∀ r, (login prim s now email password).result = .ok r →
      ∃ user, findOne (fun u => u.email == lowercaseTrim prim.toStringLib (email.getD ""))
          s.users = some user ∧
        ∃ stored, findOne (fun u => u._id == user._id)
            (login prim s now email password).store.users = some stored ∧
          stored.refreshToken = some r.body.data.refreshToken) ∧
    (∀ user, truthy email = true → truthy password = true →
      findOne (fun u => u.email == lowercaseTrim prim.toStringLib (email.getD ""))
        s.users = some user →
      isPasswordCorrect prim user (password.getD "") = true →
      ∃ r, (login prim s now email password).result = .ok r ∧ r.status = 200) ∧
    (∀ user, findOne (fun u => u._id == userId) s.users = some user →
      findOne (fun u => u._id == userId) (logoutUser s userId).store.users
        = some { user with refreshToken := some "" }) ∧
    (prim.verifyRefreshToken
        ((if truthy cookieToken then cookieToken else bodyToken).getD "") later
        = some (some (.hex userId)) →
      (refreshAccessToken prim (logoutUser s userId).store later cookieToken
        bodyToken).status = some 401) := by
  refine ⟨?_, ?_, ?_, ?_, ?_, ?_⟩
  · intro r hr
    simp only [refreshAccessToken] at hr ⊢
    generalize (if truthy cookieToken = true then cookieToken else bodyToken) = incoming
      at hr ⊢
    by_cases ht : truthy incoming = true
    · cases hv : prim.verifyRefreshToken (incoming.getD "") now with
      | none => simp [ht, hv] at hr
      | some payload =>
        cases payload with
        | none => simp [ht, hv] at hr
        | some raw =>
          cases raw with
          | malformed => simp [ht, hv] at hr
          | hex id =>
            cases hf : findOne (fun u => u._id == id) s.users with
            | none => simp [ht, hv, hf] at hr
            | some user =>
              have hid : user._id = id := by simpa using (findOne_some_mem hf).2
              by_cases hne : incoming = user.refreshToken
              · subst hid
                have hg := generateAccessAndRefreshTokens_some prim s user._id now user hf
                subst hne
                simp only [ht, hv, hf, hg, bne_self_eq_false,
                  Bool.not_true, Bool.false_eq_true, ↓reduceIte, Except.ok.injEq] at hr ⊢
                subst hr
                refine ⟨user._id, user, rfl, hf, rfl, ?_⟩
                have h1 := findOne_save prim false
                  { user with refreshToken := some (generateRefreshToken prim user now) } s.users
                have h2 := findOne_save prim false
                  { user with refreshToken := some (generateRefreshToken prim user now) }
                  (save prim false
                    { user with refreshToken := some (generateRefreshToken prim user now) }
                    s.users)
                rw [h1, hf] at h2
                exact ⟨_, h2, rfl⟩
              · simp [ht, hv, hf, hne] at hr
    · simp [ht, authThrow] at hr
  · simp only [refreshAccessToken]
    generalize (if truthy cookieToken = true then cookieToken else bodyToken) = incoming
    intro id user ht hv hf hrt
    have hid : user._id = id := by simpa using (findOne_some_mem hf).2
    subst hid
    have hg := generateAccessAndRefreshTokens_some prim s user._id now user hf
    subst hrt
    simp only [ht, hv, hf, hg, bne_self_eq_false, Bool.not_true, Bool.false_eq_true,
      ↓reduceIte]
    exact ⟨_, rfl, rfl, rfl⟩
  · intro r hr
    by_cases ht : (!truthy email || !truthy password) = true
    · simp [login, ht, authThrow] at hr
    · cases hf : findOne (fun u => u.email == lowercaseTrim prim.toStringLib (email.getD ""))
          s.users with
      | none => simp [login, ht, hf, authThrow] at hr
      | some user =>
        by_cases hp : isPasswordCorrect prim user (password.getD "") = true
        · cases hg : findOne (fun u => u._id == user._id) s.users with
          | none =>
            simp [login, ht, hf, hp, generateAccessAndRefreshTokens_none prim s user._id now hg]
              at hr
          | some user0 =>
            have hid : user0._id = user._id := by simpa using (findOne_some_mem hg).2
            have hgen := generateAccessAndRefreshTokens_some prim s user._id now user0 hg
            simp only [login, ht, hf, hp, hgen, Bool.not_true, Bool.false_eq_true, ↓reduceIte,
              Except.ok.injEq] at hr ⊢
            subst hr
            refine ⟨user, rfl, ?_⟩
            have h1 := findOne_save prim false
              { user0 with refreshToken := some (generateRefreshToken prim user0 now) } s.users
            rw [← hid] at hg ⊢
            rw [hg] at h1
            exact ⟨_, h1, rfl⟩
        · simp [login, ht, hf, hp, authThrow] at hr
  · intro user hte htp hf hp
    obtain ⟨user0, hg⟩ := findOne_isSome_of_mem (fun u => u._id == user._id) s.users user
      (findOne_some_mem hf).1 (by simp)
    have hgen := generateAccessAndRefreshTokens_some prim s user._id now user0 hg
    simp only [login, hte, htp, hf, hp, hgen, Bool.not_true, Bool.false_eq_true, Bool.or_self,
      ↓reduceIte]
    exact ⟨_, rfl, rfl⟩
  · intro user hu
    simp only [logoutUser, findOneAndUpdate, hu]
    rw [findOne_updateFirst _ _ _ (fun d hd => by simpa using hd), hu]
    rfl
  · intro hv
    simp only [refreshAccessToken]
    generalize (if truthy cookieToken = true then cookieToken else bodyToken) = incoming
      at hv ⊢
    by_cases ht : truthy incoming = true
    · cases hf : findOne (fun u => u._id == userId) (logoutUser s userId).store.users with
      | none =>
        simp [ht, hv, hf, invalidRefreshToken, AuthOutcome.status, Failure.status]
      | some user =>
        have hempty : user.refreshToken = some "" := by
          cases hu : findOne (fun u => u._id == userId) s.users with
          | none =>
            simp only [logoutUser, findOneAndUpdate, hu] at hf
            cases hf
          | some old =>
            simp only [logoutUser, findOneAndUpdate, hu] at hf
            rw [findOne_updateFirst _ _ _ (fun d hd => by simpa using hd), hu] at hf
            cases hf
            rfl
        obtain ⟨v, hv1, hv2⟩ := truthy_eq_true ht
        have hne : incoming ≠ user.refreshToken := by
          rw [hv1, hempty]
          intro h
          exact hv2 (Option.some.inj h)
        simp [ht, hv, hf, hne, invalidRefreshToken, AuthOutcome.status, Failure.status]
    · simp [ht, authThrow, AuthOutcome.status, Failure.status]

/-- C18: the pre-save hook replaces the password by its hash when the password
was modified and leaves the document as it is otherwise. In a store with
unique user ids: `registerUser` with a new id and without a conflict answers
201 and stores the hash of the requested password, hashed once, although it
saves twice; `changeCurrentPassword` for a stored user with the matching old
password answers 200 and stores the hash of the new password for that user,
and with a wrong old password it changes nothing; `resetForgotPassword` with
a token that a user holds unexpired answers 200 and stores the hash of the new
password for that user, and otherwise it changes nothing; `verifyEmail`, the
token rotation of `login` and `refreshAccessToken`, `logoutUser`, and the
issue of a temporary token by `resendEmailVerification` and
`forgotPasswordRequest` leave every stored password unchanged. -/
theorem stored_password_is_hash_of_last_set (prim : Primitives) (s : Store)
    (newId userId : ObjectId) (random : Bytes20) (now : Nat)
    (protocol host redirectUrl email username password : String) (fullName : Option String)
    (oldPassword newPassword resetToken verificationToken forgotEmail : String)
    (loginEmail loginPassword cookieToken bodyToken : Option String) (doc : User)
    (hs : s.uniqueUserIds) :
    (preSave prim true doc = { doc with password := prim.bcryptHash doc.password } ∧
      preSave prim false doc = doc) ∧
    ((∀ u ∈ s.users, u._id ≠ newId) →
      (∀ u ∈ s.users, ¬ (u.username = lowercaseTrim prim.toStringLib username ∨
        u.email = lowercaseTrim prim.toStringLib email)) →
      (registerUser prim s newId random now protocol host email username password
        fullName).status = some 201 ∧
      (registerUser prim s newId random now protocol host email username password
        fullName).store.users = s.users ++
          [{ _id := newId, email := lowercaseTrim prim.toStringLib email,
             username := lowercaseTrim prim.toStringLib username,
             fullName := fullName.map (trimSetter prim.toStringLib),
             password := prim.bcryptHash password, isEmailVerified := false,
             emailVerificationToken := some (generateTemporaryToken prim random now).hashedToken,
             emailVerificationExpiry :=
               some (generateTemporaryToken prim random now).tokenExpiry }]) ∧
    (∀ user, findOne (fun u => u._id == userId) s.users = some user →
      (isPasswordCorrect prim user oldPassword = true →
        (changeCurrentPassword prim s userId oldPassword newPassword).status = some 200 ∧
        findOne (fun u => u._id == userId)
          (changeCurrentPassword prim s userId oldPassword newPassword).store.users
          = some { user with password := prim.bcryptHash newPassword }) ∧
      (isPasswordCorrect prim user oldPassword = false →
        (changeCurrentPassword prim s userId oldPassword newPassword).status = some 400 ∧
        (changeCurrentPassword prim s userId oldPassword newPassword).store = s)) ∧
    ((∀ user,
      findOne (fun u => u.forgotPasswordToken == some (prim.sha256Hex resetToken) &&
        laterThan u.forgotPasswordExpiry now) s.users = some user →
      (resetForgotPassword prim s now resetToken newPassword).status = some 200 ∧
      findOne (fun u => u._id == user._id)
        (resetForgotPassword prim s now resetToken newPassword).store.users
        = some { user with forgotPasswordExpiry := none, forgotPasswordToken := none,
                           password := prim.bcryptHash newPassword }) ∧
      (findOne (fun u => u.forgotPasswordToken == some (prim.sha256Hex resetToken) &&
        laterThan u.forgotPasswordExpiry now) s.users = none →
      (resetForgotPassword prim s now resetToken newPassword).store = s)) ∧
    (verifyEmail prim s now verificationToken).store.passwords = s.passwords ∧
    (login prim s now loginEmail loginPassword).store.passwords = s.passwords ∧
    (refreshAccessToken prim s now cookieToken bodyToken).store.passwords = s.passwords ∧
    (logoutUser s userId).store.passwords = s.passwords ∧
    (resendEmailVerification prim s random now protocol host userId).store.passwords
      = s.passwords ∧
    (forgotPasswordRequest prim s random now redirectUrl forgotEmail).store.passwords
      = s.passwords := by
  unfold Store.uniqueUserIds at hs
  refine ⟨⟨rfl, rfl⟩, ?_, ?_, ⟨?_, ?_⟩, ?_, ?_, ?_, ?_, ?_, ?_⟩
  · intro hfresh hno
    have h := registerUser_of_fresh prim s newId random now protocol host email username
      password fullName hfresh hno
    refine ⟨h.2.2, ?_⟩
    rw [h.1]
  · intro user hf
    have hid : user._id = userId := by simpa using (findOne_some_mem hf).2
    subst hid
    constructor
    · intro hp
      simp only [changeCurrentPassword, hf, hp, Bool.not_true, Bool.false_eq_true,
        ↓reduceIte]
      have h1 := findOne_save prim true { user with password := newPassword } s.users
      rw [hf] at h1
      exact ⟨rfl, h1⟩
    · intro hp
      simp [changeCurrentPassword, hf, hp, authThrow, AuthOutcome.status, Failure.status]
  · intro user hf
    have hfind := findOne_id_of_mem s.users hs user (findOne_some_mem hf).1
    simp only [resetForgotPassword, hf]
    have h1 := findOne_save prim true
      { user with forgotPasswordExpiry := none, forgotPasswordToken := none,
                  password := newPassword } s.users
    rw [hfind] at h1
    exact ⟨rfl, h1⟩
  · intro hf
    simp [resetForgotPassword, hf, authThrow]
  · unfold Store.passwords
    by_cases ht : verificationToken = ""
    · simp [verifyEmail, ht, authThrow]
    · cases hf : findOne (fun u =>
          u.emailVerificationToken == some (prim.sha256Hex verificationToken) &&
          laterThan u.emailVerificationExpiry now) s.users with
      | none => simp [verifyEmail, ht, hf, authThrow]
      | some user =>
        have hfind := findOne_id_of_mem s.users hs user (findOne_some_mem hf).1
        simp only [verifyEmail, ht, hf, beq_iff_eq, ↓reduceIte]
        exact passwords_save prim s.users user _ hfind rfl rfl
  · by_cases ht : (!truthy loginEmail || !truthy loginPassword) = true
    · simp [login, ht, authThrow]
    · cases hf : findOne (fun u => u.email ==
          lowercaseTrim prim.toStringLib (loginEmail.getD "")) s.users with
      | none => simp [login, ht, hf, authThrow]
      | some user =>
        by_cases hp : isPasswordCorrect prim user (loginPassword.getD "") = true
        · have hgen := passwords_generateAccessAndRefreshTokens prim s user._id now
          simp only [login, ht, hf, hp, Bool.not_true, Bool.false_eq_true, ↓reduceIte]
          split
          · rename_i s1 f heq
            rw [heq] at hgen
            exact hgen
          · rename_i s1 tokens heq
            rw [heq] at hgen
            exact hgen
        · simp [login, ht, hf, hp, authThrow]
  · simp only [refreshAccessToken]
    generalize (if truthy cookieToken = true then cookieToken else bodyToken) = incoming
    by_cases ht : truthy incoming = true
    · cases hv : prim.verifyRefreshToken (incoming.getD "") now with
      | none => simp [ht, hv]
      | some payload =>
        cases payload with
        | none => simp [ht, hv]
        | some raw =>
          cases raw with
          | malformed => simp [ht, hv]
          | hex id =>
            cases hf : findOne (fun u => u._id == id) s.users with
            | none => simp [ht, hv, hf]
            | some user =>
              have hid : user._id = id := by simpa using (findOne_some_mem hf).2
              subst hid
              by_cases hne : incoming = user.refreshToken
              · have hg := generateAccessAndRefreshTokens_some prim s user._id now user hf
                subst hne
                simp only [ht, hv, hf, hg, bne_self_eq_false, Bool.not_true,
                  Bool.false_eq_true, ↓reduceIte]
                unfold Store.passwords
                have h1 := findOne_save prim false
                  { user with refreshToken := some (generateRefreshToken prim user now) } s.users
                rw [hf] at h1
                have h2 := passwords_save prim
                  (save prim false
                    { user with refreshToken := some (generateRefreshToken prim user now) }
                    s.users)
                  { user with refreshToken := some (generateRefreshToken prim user now) }
                  { user with refreshToken := some (generateRefreshToken prim user now) }
                  h1 rfl rfl
                have h3 := passwords_save prim s.users user
                  { user with refreshToken := some (generateRefreshToken prim user now) }
                  hf rfl rfl
                exact h2.trans h3
              · simp [ht, hv, hf, hne]
    · simp [ht, authThrow]
  · unfold Store.passwords
    cases hf : findOne (fun u => u._id == userId) s.users with
    | none => simp [logoutUser, findOneAndUpdate, hf]
    | some user =>
      simp only [logoutUser, findOneAndUpdate, hf]
      exact map_updateFirst_of_findOne _ _ _ s.users user hf (by
        have hid : user._id = userId := by simpa using (findOne_some_mem hf).2
        simp)
  · unfold Store.passwords
    cases hf : findOne (fun u => u._id == userId) s.users with
    | none => simp [resendEmailVerification, hf, authThrow]
    | some user =>
      have hid : user._id = userId := by simpa using (findOne_some_mem hf).2
      subst hid
      by_cases hver : user.isEmailVerified = true
      · simp [resendEmailVerification, hf, hver, authThrow]
      · simp only [resendEmailVerification, hf, hver, Bool.false_eq_true, ↓reduceIte]
        exact passwords_save prim s.users user _ hf rfl rfl
  · unfold Store.passwords
    cases hf : findOne (fun u => u.email == lowercaseTrim prim.toStringLib forgotEmail)
        s.users with
    | none => simp [forgotPasswordRequest, hf]
    | some user =>
      have hfind := findOne_id_of_mem s.users hs user (findOne_some_mem hf).1
      simp only [forgotPasswordRequest, hf]
      exact passwords_save prim s.users user _ hfind rfl rfl

/-- C17 at the store where ann holds no refresh token: she logs in under her
email written with capitals, the refresh token of the response is stored for
her, and this token is accepted; after her logout the same token is rejected
with 401. -/
theorem single_active_refresh_token_witness :
    findOne (fun u => u._id == 1) signedOutStore.users
      = some { sampleAnn with refreshToken := none } ∧
    (∃ r, (login samplePrimitives signedOutStore 1000 (some "Ann@Camp.io")
        (some "secret")).result = .ok r ∧ r.status = 200) ∧
    (∃ stored, findOne (fun u => u._id == 1)
        (login samplePrimitives signedOutStore 1000 (some "Ann@Camp.io")
          (some "secret")).store.users = some stored ∧
      stored.refreshToken = some "refresh-token") ∧
    (∃ r, (refreshAccessToken samplePrimitives
        (login samplePrimitives signedOutStore 1000 (some "Ann@Camp.io")
          (some "secret")).store 1500 (some "refresh-token") none).result = .ok r ∧
      r.status = 200 ∧
      r.body.data.refreshToken = generateRefreshToken samplePrimitives sampleAnn 1500) ∧
    samplePrimitives.verifyRefreshToken "refresh-token" 2000 = some (some (.hex 1)) ∧
    (refreshAccessToken samplePrimitives (logoutUser authStore 1).store 2000
      (some "refresh-token") none).status = some 401 :=
  have h := single_active_refresh_token samplePrimitives signedOutStore 1000 2000
    (some "Ann@Camp.io") (some "secret") (some "refresh-token") none 1
  have h1 := single_active_refresh_token samplePrimitives
    (login samplePrimitives signedOutStore 1000 (some "Ann@Camp.io") (some "secret")).store
    1500 2000 none none (some "refresh-token") none 1
  have h2 := single_active_refresh_token samplePrimitives authStore 1000 2000
    none none (some "refresh-token") none 1
  ⟨rfl, h.2.2.2.1 { sampleAnn with refreshToken := none } rfl rfl (by decide) rfl,
    ⟨_, rfl, rfl⟩,
    h1.2.1 1 sampleAnn rfl rfl rfl rfl, rfl, h2.2.2.2.2.2 rfl⟩

/-- C18 at the sample store: bob registers with the password "hunter2"; ann
changes her password from "secret" to "changed", and resets it to "fresh" with
her reset token; her password is untouched by a verification of her email. -/
theorem stored_password_is_hash_of_last_set_witness :
    authStore.uniqueUserIds ∧ (∀ u ∈ authStore.users, u._id ≠ 2) ∧
    (∀ u ∈ authStore.users, ¬ (u.username = lowercaseTrim samplePrimitives.toStringLib "bob" ∨
      u.email = lowercaseTrim samplePrimitives.toStringLib "bob@camp.io")) ∧
    (registerUser samplePrimitives authStore 2 sampleBytes 1000 "https" "camp.io"
      "bob@camp.io" "bob" "hunter2" none).status = some 201 ∧
    (registerUser samplePrimitives authStore 2 sampleBytes 1000 "https" "camp.io"
      "bob@camp.io" "bob" "hunter2" none).store.passwords
      = [(1, "bcrypt:secret"), (2, "bcrypt:hunter2")] ∧
    isPasswordCorrect samplePrimitives sampleAnn "secret" = true ∧
    (changeCurrentPassword samplePrimitives authStore 1 "secret" "changed").status
      = some 200 ∧
    findOne (fun u => u._id == 1)
      (changeCurrentPassword samplePrimitives authStore 1 "secret" "changed").store.users
      = some { sampleAnn with password := "bcrypt:changed" } ∧
    (resetForgotPassword samplePrimitives authStore 1000 "reset" "fresh").status
      = some 200 ∧
    findOne (fun u => u._id == 1)
      (resetForgotPassword samplePrimitives authStore 1000 "reset" "fresh").store.users
      = some { sampleAnn with forgotPasswordExpiry := none, forgotPasswordToken := none,
                              password := "bcrypt:fresh" } ∧
    (verifyEmail samplePrimitives authStore 1000 "verify").store.passwords
      = authStore.passwords :=
  have h := stored_password_is_hash_of_last_set samplePrimitives authStore 2 1 sampleBytes 1000
    "https" "camp.io" "https://camp.io/reset" "bob@camp.io" "bob" "hunter2" none
    "secret" "changed" "reset" "verify" "ann@camp.io"
    (some "ann@camp.io") (some "secret") (some "refresh-token") none sampleAnn
    (by decide)
  have hr := stored_password_is_hash_of_last_set samplePrimitives authStore 2 1 sampleBytes 1000
    "https" "camp.io" "https://camp.io/reset" "bob@camp.io" "bob" "hunter2" none
    "secret" "fresh" "reset" "verify" "ann@camp.io"
    (some "ann@camp.io") (some "secret") (some "refresh-token") none sampleAnn
    (by decide)
  have hreg := h.2.1 (by decide) (by decide)
  have hchange := (h.2.2.1 sampleAnn rfl).1 rfl
  have hreset := hr.2.2.2.1.1 sampleAnn rfl
  ⟨by decide, by decide, by decide, hreg.1, by rw [Store.passwords, hreg.2]; rfl, rfl,
    hchange.1, hchange.2, hreset.1, hreset.2, h.2.2.2.2.1⟩

/-- C14, as stated, fails: at the sample store, `login` with an unknown email
and `login` with a wrong password fail with status 400, `verifyEmail` with an
unknown token and with an expired token fails with status 400, and
`resetForgotPassword` with an unknown token fails with status 489. -/
theorem credential_failures_not_always_401 :
    (∀ u ∈ authStore.users, u.email ≠ "zed@camp.io") ∧
    (login samplePrimitives authStore 1000 (some "zed@camp.io") (some "secret")).status
      = some 400 ∧
    isPasswordCorrect samplePrimitives sampleAnn "wrong" = false ∧
    (login samplePrimitives authStore 1000 (some "ann@camp.io") (some "wrong")).status
      = some 400 ∧
    (verifyEmail samplePrimitives authStore 1000 "unknown").status = some 400 ∧
    (verifyEmail samplePrimitives authStore 1000 "verify").status = some 200 ∧
    (verifyEmail samplePrimitives authStore 5000 "verify").status = some 400 ∧
    (resetForgotPassword samplePrimitives authStore 1000 "unknown" "changed").status
      = some 489 := by
  refine ⟨by decide, ?_, ?_, ?_, ?_, ?_, ?_, ?_⟩ <;> rfl

/-- C14, amended: `refreshAccessToken` with no token, with a token that does not
verify, with a token of an unknown user, or with a token that differs from the
stored one fails with status 401, and every outcome of it is 401 or 200;
`login` with an email that, trimmed and lower-cased, is the stored email of no
user, or with a wrong password, fails with status 400;
`verifyEmail` with a token that no user holds unexpired fails with status 400;
`resetForgotPassword` with a token that no user holds unexpired fails and
leaves the store unchanged. -/
theorem credential_failure_statuses (prim : Primitives) (s : Store) (now : Nat)
    (email password cookieToken bodyToken : Option String)
    (verificationToken resetToken newPassword : String) :
    (truthy cookieToken = false → truthy bodyToken = false →
      (refreshAccessToken prim s now cookieToken bodyToken).status = some 401) ∧
    (prim.verifyRefreshToken
        ((if truthy cookieToken then cookieToken else bodyToken).getD "") now = none →
      (refreshAccessToken prim s now cookieToken bodyToken).status = some 401) ∧
    (∀ id, prim.verifyRefreshToken
        ((if truthy cookieToken then cookieToken else bodyToken).getD "") now
        = some (some (.hex id)) →
      findOne (fun u => u._id == id) s.users = none →
      (refreshAccessToken prim s now cookieToken bodyToken).status = some 401) ∧
    (∀ id user, prim.verifyRefreshToken
        ((if truthy cookieToken then cookieToken else bodyToken).getD "") now
        = some (some (.hex id)) →
      findOne (fun u => u._id == id) s.users = some user →
      (if truthy cookieToken then cookieToken else bodyToken) ≠ user.refreshToken →
      (refreshAccessToken prim s now cookieToken bodyToken).status = some 401) ∧
    ((refreshAccessToken prim s now cookieToken bodyToken).status = some 401 ∨
      (refreshAccessToken prim s now cookieToken bodyToken).status = some 200) ∧
    (findOne (fun u => u.email == lowercaseTrim prim.toStringLib (email.getD ""))
        s.users = none →
      (login prim s now email password).status = some 400) ∧
    (∀ user, findOne (fun u => u.email == lowercaseTrim prim.toStringLib (email.getD ""))
        s.users = some user →
      isPasswordCorrect prim user (password.getD "") = false →
      (login prim s now email password).status = some 400) ∧
    (findOne (fun u => u.emailVerificationToken == some (prim.sha256Hex verificationToken) &&
        laterThan u.emailVerificationExpiry now) s.users = none →
      (verifyEmail prim s now verificationToken).status = some 400) ∧
    (findOne (fun u => u.forgotPasswordToken == some (prim.sha256Hex resetToken) &&
        laterThan u.forgotPasswordExpiry now) s.users = none →
      (∃ f, (resetForgotPassword prim s now resetToken newPassword).result = .error f) ∧
      (resetForgotPassword prim s now resetToken newPassword).store = s) := by
  have hstatus : ∀ st : Store, ({ store := st, result := .error invalidRefreshToken } :
      AuthOutcome TokenPair).status = some 401 := fun _ => rfl
  refine ⟨?_, ?_, ?_, ?_, ?_, ?_, ?_, ?_, ?_⟩
  · intro hc hb
    simp [refreshAccessToken, hc, hb, authThrow, AuthOutcome.status, Failure.status]
  · simp only [refreshAccessToken]
    generalize (if truthy cookieToken = true then cookieToken else bodyToken) = incoming
    intro hv
    by_cases ht : truthy incoming = true
    · simp [ht, hv, hstatus]
    · simp [ht, authThrow, AuthOutcome.status, Failure.status]
  · simp only [refreshAccessToken]
    generalize (if truthy cookieToken = true then cookieToken else bodyToken) = incoming
    intro id hv hf
    by_cases ht : truthy incoming = true
    · simp [ht, hv, hf, hstatus]
    · simp [ht, authThrow, AuthOutcome.status, Failure.status]
  · simp only [refreshAccessToken]
    generalize (if truthy cookieToken = true then cookieToken else bodyToken) = incoming
    intro id user hv hf hne
    by_cases ht : truthy incoming = true
    · simp [ht, hv, hf, hne, hstatus]
    · simp [ht, authThrow, AuthOutcome.status, Failure.status]
  · simp only [refreshAccessToken]
    generalize (if truthy cookieToken = true then cookieToken else bodyToken) = incoming
    by_cases ht : truthy incoming = true
    · cases hv : prim.verifyRefreshToken (incoming.getD "") now with
      | none => simp [ht, hv, hstatus]
      | some payload =>
        cases payload with
        | none => simp [ht, hv, hstatus]
        | some raw =>
          cases raw with
          | malformed => simp [ht, hv, hstatus]
          | hex id =>
            cases hf : findOne (fun u => u._id == id) s.users with
            | none => simp [ht, hv, hf, hstatus]
            | some user =>
              by_cases hne : incoming = user.refreshToken
              · subst hne
                cases hg : findOne (fun u => u._id == user._id) s.users with
                | none =>
                  simp [ht, hv, hf, hstatus,
                    generateAccessAndRefreshTokens_none prim s user._id now hg]
                | some user0 =>
                  right
                  simp [ht, hv, hf, AuthOutcome.status,
                    generateAccessAndRefreshTokens_some prim s user._id now user0 hg]
              · simp [ht, hv, hf, hne, hstatus]
    · simp [ht, authThrow, AuthOutcome.status, Failure.status]
  · intro hf
    by_cases ht : (!truthy email || !truthy password) = true
    · simp [login, ht, authThrow, AuthOutcome.status, Failure.status]
    · simp [login, ht, hf, authThrow, AuthOutcome.status, Failure.status]
  · intro user hf hp
    by_cases ht : (!truthy email || !truthy password) = true
    · simp [login, ht, authThrow, AuthOutcome.status, Failure.status]
    · simp [login, ht, hf, hp, authThrow, AuthOutcome.status, Failure.status]
  · intro hf
    by_cases ht : verificationToken = ""
    · simp [verifyEmail, ht, authThrow, AuthOutcome.status, Failure.status]
    · simp [verifyEmail, ht, hf, authThrow, AuthOutcome.status, Failure.status]
  · intro hf
    simp [resetForgotPassword, hf, authThrow]

/-- C14, amended, at the sample store: a refresh token that is not the stored
one, a wrong password and an expired verification token. -/
theorem credential_failure_statuses_witness :
    samplePrimitives.verifyRefreshToken "forged" 1000 = none ∧
    (refreshAccessToken samplePrimitives authStore 1000 (some "forged") none).status
      = some 401 ∧
    isPasswordCorrect samplePrimitives sampleAnn "wrong" = false ∧
    (login samplePrimitives authStore 1000 (some "ann@camp.io") (some "wrong")).status
      = some 400 ∧
    (verifyEmail samplePrimitives authStore 5000 "verify").status = some 400 :=
  have h := credential_failure_statuses samplePrimitives authStore 5000
    (some "ann@camp.io") (some "wrong") (some "forged") none "verify" "unknown" "changed"
  have h1 := credential_failure_statuses samplePrimitives authStore 1000
    (some "ann@camp.io") (some "wrong") (some "forged") none "verify" "unknown" "changed"
  ⟨rfl, h1.2.1 rfl, rfl, h1.2.2.2.2.2.2.1 sampleAnn rfl rfl, h.2.2.2.2.2.2.2.1 rfl⟩

/-- C21: `deleteProject` on the project id `pid` changes nothing outside the
dependency set of that project, whether it succeeds or fails: the users are
unchanged; the projects of another id, the memberships and the notes of
another project, and the subtasks whose task is not a task of the project are
the ones the store had, in the same order; and, task ids being unique, so are
the tasks of another project. -/
theorem deleteProject_changes_only_dependents (s : Store) (pid : ObjectId) :
    (deleteProject s (.hex pid)).store.users = s.users ∧
    (deleteProject s (.hex pid)).store.projects.filter (fun p => !(p._id == pid)) =
      s.projects.filter (fun p => !(p._id == pid)) ∧
    (deleteProject s (.hex pid)).store.members.filter (fun m => !(m.project == pid)) =
      s.members.filter (fun m => !(m.project == pid)) ∧
    (deleteProject s (.hex pid)).store.notes.filter (fun n => !(n.project == pid)) =
      s.notes.filter (fun n => !(n.project == pid)) ∧
    (deleteProject s (.hex pid)).store.subtasks.filter
        (fun st => !(((find (fun t => t.project == pid) s.tasks).map
          (fun t => t._id)).contains st.task)) =
      s.subtasks.filter
        (fun st => !(((find (fun t => t.project == pid) s.tasks).map
          (fun t => t._id)).contains st.task)) ∧
    (s.uniqueTaskIds →
      (deleteProject s (.hex pid)).store.tasks.filter (fun t => !(t.project == pid)) =
        s.tasks.filter (fun t => !(t.project == pid))) := by
  cases hf : findOne (fun p => p._id == pid) s.projects with
  | none =>
    have hstore : (deleteProject s (.hex pid)).store = s := by
      simp [deleteProject_outcome, isValidObjectId, findOneAndDelete, hf, throwApi]
    rw [hstore]
    exact ⟨rfl, rfl, rfl, rfl, rfl, fun _ => rfl⟩
  | some d =>
    simp only [deleteProject_outcome, isValidObjectId, findOneAndDelete, hf, respond, Bool.not_true,
      Bool.false_eq_true, ↓reduceIte]
    refine ⟨trivial, ?_, ?_, ?_, ?_, ?_⟩
    · exact filter_not_deleteFirst (fun p => p._id == pid) s.projects
    · exact filter_not_deleteMany (fun m => m.project == pid) s.members
    · exact filter_not_deleteMany (fun n => n.project == pid) s.notes
    · exact filter_not_deleteMany _ s.subtasks
    · intro hu
      unfold Store.uniqueTaskIds at hu
      simp only [deleteMany, List.filter_filter]
      apply List.filter_congr
      intro t ht
      by_cases hproj : t.project = pid
      · simp [hproj]
      · have hnot : t._id ∉ (find (fun t => t.project == pid) s.tasks).map (fun t => t._id) := by
          intro hmem
          obtain ⟨t1, ht1, hid⟩ := List.mem_map.mp hmem
          have ht1mem := (List.mem_filter.mp ht1)
          have : t1 = t := List.inj_on_of_nodup_map hu ht1mem.1 ht hid
          rw [this] at ht1mem
          exact hproj (by simpa using ht1mem.2)
        simp [hproj, hnot]

/-- C21 at the store with two projects: deleting project 10 keeps the project,
the membership, the task, the subtask and the note of project 11. -/
theorem deleteProject_changes_only_dependents_witness :
    twoProjectStore.uniqueTaskIds ∧
    (deleteProject twoProjectStore (.hex 10)).store.tasks.filter
        (fun t => !(t.project == 10)) =
      twoProjectStore.tasks.filter (fun t => !(t.project == 10)) ∧
    (deleteProject twoProjectStore (.hex 10)).store.notes.filter
        (fun n => !(n.project == 10)) =
      twoProjectStore.notes.filter (fun n => !(n.project == 10)) :=
  have h := deleteProject_changes_only_dependents twoProjectStore 10
  ⟨by decide, h.2.2.2.2.2 (by decide), h.2.2.2.1⟩

/-- C22: `deleteProject` with a project id that is not a valid object id fails
with status 400, and with a valid id that matches no project it fails with
status 404; in both cases the store is unchanged, so no membership, task,
subtask or note is deleted, whatever id it refers to. -/
theorem deleteProject_early_failure_changes_nothing (s : Store) (pid : ObjectId)
    (hno : ∀ p ∈ s.projects, p._id ≠ pid) :
    isValidObjectId .malformed = false ∧
    (deleteProject s .malformed).status = some 400 ∧
    (deleteProject s .malformed).store = s ∧
    (deleteProject s (.hex pid)).status = some 404 ∧
    (deleteProject s (.hex pid)).store = s := by
  have hf : findOne (fun p => p._id == pid) s.projects = none :=
    findOne_eq_none_of_forall _ _ (fun p hp => by simpa using hno p hp)
  refine ⟨rfl, rfl, rfl, ?_, ?_⟩
  · simp [deleteProject_outcome, isValidObjectId, findOneAndDelete, hf, throwApi, Outcome.status,
      Failure.status]
  · simp [deleteProject_outcome, isValidObjectId, findOneAndDelete, hf, throwApi]

/-- C22 at the sample store: project 12 does not exist, and the membership,
the task and the note of project 10 stay. -/
theorem deleteProject_early_failure_changes_nothing_witness :
    (∀ p ∈ sampleStore.projects, p._id ≠ 12) ∧
    (deleteProject sampleStore (.hex 12)).status = some 404 ∧
    (deleteProject sampleStore (.hex 12)).store = sampleStore :=
  have h := deleteProject_early_failure_changes_nothing sampleStore 12 (by decide)
  ⟨by decide, h.2.2.2.1, h.2.2.2.2⟩

/-- C23, as stated, fails: in the store with two projects ann is admin of
project 10 only, and note 51, task 21 and subtask 41 belong to project 11. A
request of ann routed with project id 10 passes the permission check of each
route, and the controller then acts on the record of project 11 that the other
id names: note 51 is deleted, or rewritten; task 21 is deleted with its
subtask, or renamed; subtask 41 is renamed, or deleted. -/
theorem record_operations_reach_other_projects :
    (∀ m ∈ twoProjectStore.members, m.user = 1 → m.project = 10) ∧
    (routed [UserRolesEnum.ADMIN] twoProjectStore annRequest (.hex 10)
      (fun st u => deleteProjetNote st u (.hex 51))).status = some 200 ∧
    (routed [UserRolesEnum.ADMIN] twoProjectStore annRequest (.hex 10)
      (fun st u => deleteProjetNote st u (.hex 51))).store.notes =
      [{ _id := 50, project := 10, createdBy := 1, content := some "alpha note" }] ∧
    (routed [UserRolesEnum.ADMIN] twoProjectStore annRequest (.hex 10)
      (fun st u => updateProjectNote st u (.hex 51) (some "rewritten"))).store.notes =
      [{ _id := 50, project := 10, createdBy := 1, content := some "alpha note" },
       { _id := 51, project := 11, createdBy := 2, content := some "rewritten" }] ∧
    ((routed [UserRolesEnum.ADMIN, UserRolesEnum.PROJECT_ADMIN] twoProjectStore annRequest
      (.hex 10) (fun st _ => deleteTask st (.hex 21))).store.tasks.map (fun t => t._id)
      = [20]) ∧
    ((routed [UserRolesEnum.ADMIN, UserRolesEnum.PROJECT_ADMIN] twoProjectStore annRequest
      (.hex 10) (fun st _ => deleteTask st (.hex 21))).store.subtasks.map (fun st => st._id)
      = [40]) ∧
    ((routed [UserRolesEnum.ADMIN, UserRolesEnum.PROJECT_ADMIN] twoProjectStore annRequest
      (.hex 10) (fun st _ => updateTask sampleEnv st (.hex 21) (some "Taken") none none none
        [])).store.tasks.map (fun t => (t._id, t.project, t.title))
      = [(20, 10, some "Plan"), (21, 11, some "Taken")]) ∧
    ((routed AvailableUserRole twoProjectStore annRequest (.hex 10)
      (fun st _ => updateSubTask st (.hex 41) (some "Taken") none none)).store.subtasks.map
        (fun st => (st._id, st.task, st.title))
      = [(40, 20, some "Draft"), (41, 21, some "Taken")]) ∧
    ((routed [UserRolesEnum.ADMIN, UserRolesEnum.PROJECT_ADMIN] twoProjectStore annRequest
      (.hex 10) (fun st _ => deleteSubTask st (.hex 41))).store.subtasks.map
        (fun st => st._id)
      = [40]) := by
  refine ⟨by decide, ?_, ?_, ?_, ?_, ?_, ?_, ?_, ?_⟩ <;> rfl

/-- C23, amended: each record-level operation acts on the record whose id the
request names, whatever project that record belongs to, and on nothing else.
`updateProjectNote` and `deleteProjetNote` leave the notes of every other id,
and every other collection, as they were; so do `updateTask` for the tasks and
`updateSubTask` and `deleteSubTask` for the subtasks; `deleteTask` leaves the
tasks of every other id and the subtasks of every other task as they were. -/
theorem record_operations_touch_only_named_record (env : Env) (s : Store) (user : ReqUser)
    (nid tid sid : ObjectId) (content title description status : Option String)
    (assignedTo : Option RawId) (files : List UploadedFile) (isCompleted : Option Bool) :
    ((updateProjectNote s user (.hex nid) content).store =
        { s with notes := (updateProjectNote s user (.hex nid) content).store.notes } ∧
      (updateProjectNote s user (.hex nid) content).store.notes.filter
          (fun n => !(n._id == nid)) = s.notes.filter (fun n => !(n._id == nid))) ∧
    ((deleteProjetNote s user (.hex nid)).store =
        { s with notes := (deleteProjetNote s user (.hex nid)).store.notes } ∧
      (deleteProjetNote s user (.hex nid)).store.notes.filter
          (fun n => !(n._id == nid)) = s.notes.filter (fun n => !(n._id == nid))) ∧
    ((updateTask env s (.hex tid) title description assignedTo status files).store =
        { s with tasks :=
            (updateTask env s (.hex tid) title description assignedTo status files).store.tasks } ∧
      (updateTask env s (.hex tid) title description assignedTo status files).store.tasks.filter
          (fun t => !(t._id == tid)) = s.tasks.filter (fun t => !(t._id == tid))) ∧
    ((deleteTask s (.hex tid)).store =
        { s with tasks := (deleteTask s (.hex tid)).store.tasks,
                 subtasks := (deleteTask s (.hex tid)).store.subtasks } ∧
      (deleteTask s (.hex tid)).store.tasks.filter (fun t => !(t._id == tid)) =
        s.tasks.filter (fun t => !(t._id == tid)) ∧
      (deleteTask s (.hex tid)).store.subtasks.filter (fun st => !(st.task == tid)) =
        s.subtasks.filter (fun st => !(st.task == tid))) ∧
    ((updateSubTask s (.hex sid) title description isCompleted).store =
        { s with subtasks :=
            (updateSubTask s (.hex sid) title description isCompleted).store.subtasks } ∧
      (updateSubTask s (.hex sid) title description isCompleted).store.subtasks.filter
          (fun st => !(st._id == sid)) = s.subtasks.filter (fun st => !(st._id == sid))) ∧
    ((deleteSubTask s (.hex sid)).store =
        { s with subtasks := (deleteSubTask s (.hex sid)).store.subtasks } ∧
      (deleteSubTask s (.hex sid)).store.subtasks.filter (fun st => !(st._id == sid)) =
        s.subtasks.filter (fun st => !(st._id == sid))) := by
  refine ⟨?_, ?_, ?_, ?_, ?_, ?_⟩
  · by_cases hr : user.role = some "admin"
    · cases hf : findOne (fun n => n._id == nid) s.notes with
      | none => simp [updateProjectNote, hr, hf, throwApi]
      | some note =>
        have hid : note._id = nid := by simpa using (findOne_some_mem hf).2
        subst hid
        simp only [updateProjectNote, hr, hf, respond, bne_self_eq_false, Bool.false_eq_true,
          ↓reduceIte, true_and]
        refine filter_not_updateFirst (fun n => n._id == note._id) _ s.notes ?_
        intro d _
        simp
    · simp [updateProjectNote, hr, throwApi]
  · by_cases hr : user.role = some "admin"
    · cases hf : findOne (fun n => n._id == nid) s.notes with
      | none => simp [deleteProjetNote, isValidObjectId, hr, hf, findOneAndDelete, throwApi]
      | some note =>
        simp only [deleteProjetNote, isValidObjectId, hr, hf, findOneAndDelete, respond,
          bne_self_eq_false, Bool.not_true, Bool.false_eq_true, ↓reduceIte, true_and]
        exact filter_not_deleteFirst (fun n => n._id == nid) s.notes
    · simp [deleteProjetNote, isValidObjectId, hr, throwApi]
  · cases hf : findOne (fun t => t._id == tid) s.tasks with
    | none => simp [updateTask, isValidObjectId, hf, throwApi]
    | some task =>
      have hid : task._id = tid := by simpa using (findOne_some_mem hf).2
      subst hid
      have hkeep : ∀ v : Task, v._id = task._id →
          (updateFirst (fun t => t._id == task._id) (fun _ => v) s.tasks).filter
            (fun t => !(t._id == task._id)) = s.tasks.filter (fun t => !(t._id == task._id)) := by
        intro v hv
        refine filter_not_updateFirst (fun t => t._id == task._id) _ s.tasks ?_
        intro d _
        simp [hv]
      cases assignedTo with
      | none =>
        by_cases h1 : truthy title = true <;> by_cases h2 : truthy description = true <;>
          by_cases h3 : truthy status = true <;>
          simp only [updateTask, isValidObjectId, hf, respond, h1, h2, h3, Bool.not_true,
            Bool.false_eq_true, ↓reduceIte, true_and] <;>
          exact hkeep _ rfl
      | some a =>
        cases a with
        | malformed => simp [updateTask, isValidObjectId, hf, throwCast]
        | hex a =>
          by_cases h1 : truthy title = true <;> by_cases h2 : truthy description = true <;>
            by_cases h3 : truthy status = true <;>
            simp only [updateTask, isValidObjectId, hf, respond, h1, h2, h3, Bool.not_true,
              Bool.false_eq_true, ↓reduceIte, true_and] <;>
            exact hkeep _ rfl
  · cases hf : findOne (fun t => t._id == tid) s.tasks with
    | none => simp [deleteTask, isValidObjectId, hf, throwApi]
    | some task =>
      have hid : task._id = tid := by simpa using (findOne_some_mem hf).2
      subst hid
      simp only [deleteTask, isValidObjectId, hf, respond, Bool.not_true, Bool.false_eq_true,
        ↓reduceIte, true_and]
      exact ⟨filter_not_deleteFirst (fun t => t._id == task._id) s.tasks,
        filter_not_deleteMany (fun st => st.task == task._id) s.subtasks⟩
  · cases hf : findOne (fun st => st._id == sid) s.subtasks with
    | none => simp [updateSubTask, hf, throwApi]
    | some st0 =>
      simp only [updateSubTask, hf, findOneAndUpdate, respond, true_and]
      refine filter_not_updateFirst (fun st => st._id == sid) _ s.subtasks ?_
      intro d hd
      have hd1 : d._id = sid := by simpa using hd
      split <;> split <;> split <;> simp [hd1]
  · cases hf : findOne (fun st => st._id == sid) s.subtasks with
    | none => simp [deleteSubTask, isValidObjectId, hf, throwApi]
    | some st0 =>
      have hid : st0._id = sid := by simpa using (findOne_some_mem hf).2
      subst hid
      simp only [deleteSubTask, isValidObjectId, hf, respond, Bool.not_true,
        Bool.false_eq_true, ↓reduceIte, true_and]
      exact filter_not_deleteFirst (fun st => st._id == st0._id) s.subtasks

/-- C24: in the store with two projects task 21 has one attachment; `updateTask`
on task 21 with an empty body and no uploaded file answers 200 and keeps the
title, description, status and assignee, but stores the empty list as the
attachments of the task. -/
theorem updateTask_without_files_clears_attachments :
    findOne (fun t => t._id == 21) twoProjectStore.tasks =
      some { _id := 21, title := some "Budget", description := some "Beta budget",
             project := 11, assignedTo := some 2, status := some "todo", assignedBy := 2,
             attachments := [{ url := "http://camp.io/images/budget.pdf",
                               mimetype := "application/pdf", size := 1024 }] } ∧
    (updateTask sampleEnv twoProjectStore (.hex 21) none none none none []).status
      = some 200 ∧
    findOne (fun t => t._id == 21)
        (updateTask sampleEnv twoProjectStore (.hex 21) none none none none []).store.tasks =
      some { _id := 21, title := some "Budget", description := some "Beta budget",
             project := 11, assignedTo := some 2, status := some "todo", assignedBy := 2,
             attachments := [] } := by
  refine ⟨?_, ?_, ?_⟩ <;> rfl

/-- C25: in the store with two projects subtask 41 is completed; `updateSubTask`
on subtask 41 with the title "Totals" and `isCompleted` false answers 200 and
stores the title, but the subtask stays completed. -/
theorem updateSubTask_drops_isCompleted_false :
    findOne (fun st => st._id == 41) twoProjectStore.subtasks =
      some { _id := 41, title := some "Figures", description := none, task := 21,
             isCompleted := some true, createdBy := 2 } ∧
    (updateSubTask twoProjectStore (.hex 41) (some "Totals") none (some false)).status
      = some 200 ∧
    findOne (fun st => st._id == 41)
        (updateSubTask twoProjectStore (.hex 41) (some "Totals") none
          (some false)).store.subtasks =
      some { _id := 41, title := some "Totals", description := none, task := 21,
             isCompleted := some true, createdBy := 2 } := by
  refine ⟨?_, ?_, ?_⟩ <;> rfl

/-- C26: `generateTemporaryToken`, evaluated at time `now` on 20 random bytes,
returns a hashed token that is the SHA-256 hex digest of the unhashed token, an
unhashed token that is the hexadecimal text of the 20 bytes (40 characters, all
of them lower-case hexadecimal digits, reading back to the same bytes), and an
expiry of `now` plus 1,200,000 milliseconds, which is 20 minutes. -/
theorem generateTemporaryToken_shape (prim : Primitives) (random : Bytes20) (now : Nat) :
    (generateTemporaryToken prim random now).hashedToken =
      prim.sha256Hex (generateTemporaryToken prim random now).unHashedToken ∧
    (generateTemporaryToken prim random now).unHashedToken = toHex random.bytes ∧
    (generateTemporaryToken prim random now).unHashedToken.length = 40 ∧
    (∀ c ∈ (generateTemporaryToken prim random now).unHashedToken.toList,
      c ∈ "0123456789abcdef".toList) ∧
    fromHex (generateTemporaryToken prim random now).unHashedToken.toList =
      random.bytes.map (fun b => b.val) ∧
    (random.bytes.map (fun b => b.val)).length = 20 ∧
    (generateTemporaryToken prim random now).tokenExpiry = now + 1200000 ∧
    1200000 = 20 * 60 * 1000 := by
  refine ⟨rfl, rfl, ?_, ?_, ?_, ?_, rfl, rfl⟩
  · show (toHex random.bytes).length = 40
    rw [length_toHex, random.size]
  · show ∀ c ∈ (toHex random.bytes).toList, c ∈ "0123456789abcdef".toList
    intro c hc
    rw [toHex_toList] at hc
    obtain ⟨b, _, hcb⟩ := List.mem_flatMap.mp hc
    have hhi : b.val / 16 < 16 := by
      have := b.isLt
      omega
    have hlo : b.val % 16 < 16 := Nat.mod_lt _ (by decide)
    simp only [List.mem_cons, List.mem_singleton, List.not_mem_nil, or_false] at hcb
    rcases hcb with h | h
    · rw [h]; exact hexDigit_mem _ hhi
    · rw [h]; exact hexDigit_mem _ hlo
  · exact fromHex_toHex random.bytes
  · rw [List.length_map, random.size]

/-- C29: at the sample store a refresh token that does not verify, and after
ann's logout the token that verifies but is no longer the stored one, make
`refreshAccessToken` throw the `ApiError` built by
`new ApiError(401, {}, "Invalid refresh token")`: the status is 401, the message
is the empty object and not the text, and the errors field is the text
"Invalid refresh token" and not a list. -/
theorem refreshAccessToken_failure_message_is_object :
    samplePrimitives.verifyRefreshToken "forged" 1000 = none ∧
    (refreshAccessToken samplePrimitives authStore 1000 (some "forged") none).result =
      .error (.api { statusCode := 401, message := .emptyObject,
                     errors := .text "Invalid refresh token" }) ∧
    samplePrimitives.verifyRefreshToken "refresh-token" 2000 = some (some (.hex 1)) ∧
    (refreshAccessToken samplePrimitives (logoutUser authStore 1).store 2000
      (some "refresh-token") none).result =
      .error (.api { statusCode := 401, message := .emptyObject,
                     errors := .text "Invalid refresh token" }) ∧
    ErrorMessage.emptyObject ≠ ErrorMessage.text "Invalid refresh token" ∧
    (∀ es, ErrorList.text "Invalid refresh token" ≠ ErrorList.entries es) := by
  refine ⟨rfl, rfl, rfl, rfl, by decide, ?_⟩
  intro es h
  cases h

/-- C27: in a store with unique user ids, let `registerUser` (with a new id and
no conflict: no stored user has the username or the email of the body, trimmed
and lower-cased) or `resendEmailVerification` (for an existing, unverified
user) issue at time `t0` a token whose hash no user holds yet. Then `verifyEmail`
with the unhashed token at a time `t` before `t0` plus 20 minutes answers 200
and stores the user verified, with the verification token and its expiry
cleared; at a time `t` from `t0` plus 20 minutes on it throws 400 'Token is
invalid or expired' and leaves the store as it is. -/
theorem email_verification_round_trip (prim : Primitives) (s : Store)
    (newId userId : ObjectId) (random : Bytes20) (t0 t : Nat)
    (protocol host email username password : String) (fullName : Option String)
    (hs : s.uniqueUserIds)
    (hnew : ∀ v ∈ s.users,
      v.emailVerificationToken ≠ some (generateTemporaryToken prim random t0).hashedToken) :
    ((∀ u ∈ s.users, u._id ≠ newId) →
      (∀ u ∈ s.users, ¬ (u.username = lowercaseTrim prim.toStringLib username ∨
        u.email = lowercaseTrim prim.toStringLib email)) →
      (t < t0 + 20 * 60 * 1000 →
        (verifyEmail prim
          (registerUser prim s newId random t0 protocol host email username password
            fullName).store t (generateTemporaryToken prim random t0).unHashedToken).status
          = some 200 ∧
        ∃ stored, findOne (fun u => u._id == newId)
            (verifyEmail prim
              (registerUser prim s newId random t0 protocol host email username password
                fullName).store t
              (generateTemporaryToken prim random t0).unHashedToken).store.users
            = some stored ∧
          stored.isEmailVerified = true ∧ stored.emailVerificationToken = none ∧
          stored.emailVerificationExpiry = none) ∧
      (t0 + 20 * 60 * 1000 ≤ t →
        (verifyEmail prim
          (registerUser prim s newId random t0 protocol host email username password
            fullName).store t (generateTemporaryToken prim random t0).unHashedToken).result
          = .error (.api { statusCode := 400, message := "Token is invalid or expired" }) ∧
        (verifyEmail prim
          (registerUser prim s newId random t0 protocol host email username password
            fullName).store t (generateTemporaryToken prim random t0).unHashedToken).store
          = (registerUser prim s newId random t0 protocol host email username password
              fullName).store)) ∧
    (∀ u, findOne (fun x => x._id == userId) s.users = some u → u.isEmailVerified = false →
      (t < t0 + 20 * 60 * 1000 →
        (verifyEmail prim
          (resendEmailVerification prim s random t0 protocol host userId).store t
          (generateTemporaryToken prim random t0).unHashedToken).status = some 200 ∧
        ∃ stored, findOne (fun x => x._id == userId)
            (verifyEmail prim
              (resendEmailVerification prim s random t0 protocol host userId).store t
              (generateTemporaryToken prim random t0).unHashedToken).store.users
            = some stored ∧
          stored.isEmailVerified = true ∧ stored.emailVerificationToken = none ∧
          stored.emailVerificationExpiry = none) ∧
      (t0 + 20 * 60 * 1000 ≤ t →
        (verifyEmail prim
          (resendEmailVerification prim s random t0 protocol host userId).store t
          (generateTemporaryToken prim random t0).unHashedToken).result
          = .error (.api { statusCode := 400, message := "Token is invalid or expired" }) ∧
        (verifyEmail prim
          (resendEmailVerification prim s random t0 protocol host userId).store t
          (generateTemporaryToken prim random t0).unHashedToken).store
          = (resendEmailVerification prim s random t0 protocol host userId).store)) := by
  have hnd := hs
  unfold Store.uniqueUserIds at hnd
  have htok : (generateTemporaryToken prim random t0).unHashedToken ≠ "" :=
    toHex_ne_empty random
  constructor
  · intro hfresh hno
    have hreg := (registerUser_of_fresh prim s newId random t0 protocol host email username
      password fullName hfresh hno).1
    rw [hreg]
    have hnd1 : (({ s with users := s.users ++
        [{ _id := newId, email := lowercaseTrim prim.toStringLib email,
           username := lowercaseTrim prim.toStringLib username,
           fullName := fullName.map (trimSetter prim.toStringLib),
           password := prim.bcryptHash password, isEmailVerified := false,
           emailVerificationToken := some (generateTemporaryToken prim random t0).hashedToken,
           emailVerificationExpiry :=
             some (generateTemporaryToken prim random t0).tokenExpiry }] } : Store)).uniqueUserIds := by
      unfold Store.uniqueUserIds
      simp only [List.map_append, List.map_cons, List.map_nil]
      refine List.Nodup.append hnd (List.nodup_singleton _) ?_
      rw [List.disjoint_singleton]
      intro hmem
      obtain ⟨v, hv, hvid⟩ := List.mem_map.mp hmem
      exact hfresh v hv hvid
    have key := verifyEmail_of_sole_holder prim _
      { _id := newId, email := lowercaseTrim prim.toStringLib email,
        username := lowercaseTrim prim.toStringLib username,
        fullName := fullName.map (trimSetter prim.toStringLib),
        password := prim.bcryptHash password, isEmailVerified := false,
        emailVerificationToken := some (generateTemporaryToken prim random t0).hashedToken,
        emailVerificationExpiry := some (generateTemporaryToken prim random t0).tokenExpiry }
      (generateTemporaryToken prim random t0).unHashedToken (t0 + 20 * 60 * 1000) t hnd1
      (by simp) htok rfl rfl
      (by
        intro v hv hvh
        simp only [List.mem_append, List.mem_singleton] at hv
        rcases hv with hv | hv
        · exact absurd hvh (hnew v hv)
        · exact hv)
    refine ⟨fun ht => ?_, fun ht => key.2 ht⟩
    obtain ⟨h1, h2⟩ := key.1 ht
    exact ⟨h1, _, h2, rfl, rfl, rfl⟩
  · intro u hf hver
    have hid : u._id = userId := by simpa using (findOne_some_mem hf).2
    subst hid
    have hu : u ∈ s.users := (findOne_some_mem hf).1
    have hstore : (resendEmailVerification prim s random t0 protocol host u._id).store =
        { s with users := (save prim false
            ({ u with emailVerificationToken :=
                        some (generateTemporaryToken prim random t0).hashedToken,
                      emailVerificationExpiry :=
                        some (generateTemporaryToken prim random t0).tokenExpiry })
            s.users) } := by
      simp [resendEmailVerification, hf, hver]
    rw [hstore]
    have hnd1 : (({ s with users := (save prim false
            ({ u with emailVerificationToken :=
                        some (generateTemporaryToken prim random t0).hashedToken,
                      emailVerificationExpiry :=
                        some (generateTemporaryToken prim random t0).tokenExpiry })
            s.users) } : Store)).uniqueUserIds := by
      unfold Store.uniqueUserIds
      have hmap := map_id_save prim false s.users u
        ({ u with emailVerificationToken :=
                    some (generateTemporaryToken prim random t0).hashedToken,
                  emailVerificationExpiry :=
                    some (generateTemporaryToken prim random t0).tokenExpiry })
        hnd hu rfl
      simp only []
      rw [hmap]
      exact hnd
    have hfound := findOne_save_of_mem prim false s.users u
      ({ u with emailVerificationToken :=
                  some (generateTemporaryToken prim random t0).hashedToken,
                emailVerificationExpiry :=
                  some (generateTemporaryToken prim random t0).tokenExpiry })
      hnd hu rfl
    have key := verifyEmail_of_sole_holder prim _
      ({ u with emailVerificationToken :=
                  some (generateTemporaryToken prim random t0).hashedToken,
                emailVerificationExpiry :=
                  some (generateTemporaryToken prim random t0).tokenExpiry })
      (generateTemporaryToken prim random t0).unHashedToken (t0 + 20 * 60 * 1000) t hnd1
      (findOne_some_mem hfound).1 htok rfl rfl
      (by
        intro v hv hvh
        have hv' : v ∈ updateFirst (fun x => x._id == u._id) (fun _ => preSave prim false
            ({ u with emailVerificationToken :=
                        some (generateTemporaryToken prim random t0).hashedToken,
                      emailVerificationExpiry :=
                        some (generateTemporaryToken prim random t0).tokenExpiry }))
            s.users := hv
        rcases mem_updateFirst _ _ _ _ hv' with h | ⟨e, _, _, hve⟩
        · exact absurd hvh (hnew v h)
        · exact hve)
    refine ⟨fun ht => ?_, fun ht => key.2 ht⟩
    obtain ⟨h1, h2⟩ := key.1 ht
    exact ⟨h1, _, h2, rfl, rfl, rfl⟩

/-- C27 at the sample store: bob registers at time 1000; his token verifies at
time 2000 and is refused at time 1201000. -/
theorem email_verification_round_trip_witness :
    authStore.uniqueUserIds ∧
    (∀ v ∈ authStore.users, v.emailVerificationToken ≠
      some (generateTemporaryToken samplePrimitives sampleBytes 1000).hashedToken) ∧
    (verifyEmail samplePrimitives
      (registerUser samplePrimitives authStore 2 sampleBytes 1000 "https" "camp.io"
        "bob@camp.io" "bob" "hunter2" none).store 2000
      (generateTemporaryToken samplePrimitives sampleBytes 1000).unHashedToken).status
      = some 200 ∧
    (verifyEmail samplePrimitives
      (registerUser samplePrimitives authStore 2 sampleBytes 1000 "https" "camp.io"
        "bob@camp.io" "bob" "hunter2" none).store 1201000
      (generateTemporaryToken samplePrimitives sampleBytes 1000).unHashedToken).result
      = .error (.api { statusCode := 400, message := "Token is invalid or expired" }) :=
  have hnew : ∀ v ∈ authStore.users, v.emailVerificationToken ≠
      some (generateTemporaryToken samplePrimitives sampleBytes 1000).hashedToken := by decide
  have h := fun t => (email_verification_round_trip samplePrimitives authStore 2 1 sampleBytes
    1000 t "https" "camp.io" "bob@camp.io" "bob" "hunter2" none (by decide) hnew).1
    (by decide) (by decide)
  ⟨by decide, hnew, ((h 2000).1 (by decide)).1, ((h 1201000).2 (by decide)).1⟩

/-- C28: in a store with unique user ids where at most one user holds the hash
of the token, after a `verifyEmail` with the token that answered 200 a second
`verifyEmail` with the same token, at any time, throws 400 'Token is invalid or
expired'; and after a `resetForgotPassword` with the token and the password
`pw1` that answered 200, a second `resetForgotPassword` with the same token and
a password `pw2`, at any time, fails and changes nothing, so the stored
password of the user is still the hash of `pw1`. -/
theorem temporary_tokens_are_single_use (prim : Primitives) (s : Store) (t1 t2 : Nat)
    (tok resetTok pw1 pw2 : String) (hs : s.uniqueUserIds) :
    ((∀ u ∈ s.users, ∀ v ∈ s.users,
        u.emailVerificationToken = some (prim.sha256Hex tok) →
        v.emailVerificationToken = some (prim.sha256Hex tok) → u = v) →
      (verifyEmail prim s t1 tok).status = some 200 →
      (verifyEmail prim (verifyEmail prim s t1 tok).store t2 tok).result =
        .error (.api { statusCode := 400, message := "Token is invalid or expired" })) ∧
    ((∀ u ∈ s.users, ∀ v ∈ s.users,
        u.forgotPasswordToken = some (prim.sha256Hex resetTok) →
        v.forgotPasswordToken = some (prim.sha256Hex resetTok) → u = v) →
      (resetForgotPassword prim s t1 resetTok pw1).status = some 200 →
      (∃ f, (resetForgotPassword prim (resetForgotPassword prim s t1 resetTok pw1).store t2
          resetTok pw2).result = .error f) ∧
      (resetForgotPassword prim (resetForgotPassword prim s t1 resetTok pw1).store t2
          resetTok pw2).store = (resetForgotPassword prim s t1 resetTok pw1).store ∧
      ∃ user stored,
        findOne (fun u => u.forgotPasswordToken == some (prim.sha256Hex resetTok) &&
          laterThan u.forgotPasswordExpiry t1) s.users = some user ∧
        findOne (fun u => u._id == user._id)
          (resetForgotPassword prim (resetForgotPassword prim s t1 resetTok pw1).store t2
            resetTok pw2).store.users = some stored ∧
        stored.password = prim.bcryptHash pw1) := by
  have hnd := hs
  unfold Store.uniqueUserIds at hnd
  constructor
  · intro hsole h200
    by_cases htok : tok = ""
    · simp [verifyEmail, htok, authThrow, AuthOutcome.status, Failure.status] at h200
    · cases hf : findOne (fun u => u.emailVerificationToken == some (prim.sha256Hex tok) &&
          laterThan u.emailVerificationExpiry t1) s.users with
      | none =>
        simp [verifyEmail, htok, hf, authThrow, AuthOutcome.status, Failure.status] at h200
      | some U =>
        have hUm := findOne_some_mem hf
        have hUh : U.emailVerificationToken = some (prim.sha256Hex tok) := by
          have := hUm.2
          simp only [Bool.and_eq_true, beq_iff_eq] at this
          exact this.1
        have hstore : (verifyEmail prim s t1 tok).store =
            { s with users := (save prim false
                ({ U with emailVerificationToken := none, emailVerificationExpiry := none,
                          isEmailVerified := true }) s.users) } := by
          simp [verifyEmail, htok, hf]
        rw [hstore]
        have hnone := no_holder_after_save prim false s.users U
          ({ U with emailVerificationToken := none, emailVerificationExpiry := none,
                    isEmailVerified := true })
          (fun u => u.emailVerificationToken == some (prim.sha256Hex tok) &&
            laterThan u.emailVerificationExpiry t2)
          hnd hUm.1 rfl (by simp [preSave_false])
          (by
            intro v hv hP
            simp only [Bool.and_eq_true, beq_iff_eq] at hP
            exact hsole v hv U hUm.1 hP.1 hUh)
        have hnone2 := findOne_eq_none_of_forall _ _ hnone
        simp [verifyEmail, htok, hnone2, authThrow]
  · intro hsole h200
    cases hf : findOne (fun u => u.forgotPasswordToken == some (prim.sha256Hex resetTok) &&
        laterThan u.forgotPasswordExpiry t1) s.users with
    | none =>
      simp [resetForgotPassword, hf, authThrow, AuthOutcome.status, Failure.status] at h200
    | some U =>
      have hUm := findOne_some_mem hf
      have hUh : U.forgotPasswordToken = some (prim.sha256Hex resetTok) := by
        have := hUm.2
        simp only [Bool.and_eq_true, beq_iff_eq] at this
        exact this.1
      have hstore : (resetForgotPassword prim s t1 resetTok pw1).store =
          { s with users := (save prim true
              ({ U with forgotPasswordExpiry := none, forgotPasswordToken := none,
                        password := pw1 }) s.users) } := by
        simp [resetForgotPassword, hf]
      rw [hstore]
      have hnone := no_holder_after_save prim true s.users U
        ({ U with forgotPasswordExpiry := none, forgotPasswordToken := none,
                  password := pw1 })
        (fun u => u.forgotPasswordToken == some (prim.sha256Hex resetTok) &&
          laterThan u.forgotPasswordExpiry t2)
        hnd hUm.1 rfl (by simp [preSave_true])
        (by
          intro v hv hP
          simp only [Bool.and_eq_true, beq_iff_eq] at hP
          exact hsole v hv U hUm.1 hP.1 hUh)
      have hnone2 := findOne_eq_none_of_forall _ _ hnone
      have hfound := findOne_save_of_mem prim true s.users U
        ({ U with forgotPasswordExpiry := none, forgotPasswordToken := none,
                  password := pw1 }) hnd hUm.1 rfl
      refine ⟨?_, ?_, U, preSave prim true
        ({ U with forgotPasswordExpiry := none, forgotPasswordToken := none,
                  password := pw1 }), rfl, ?_, rfl⟩
      · simp [resetForgotPassword, hnone2, authThrow]
      · simp [resetForgotPassword, hnone2, authThrow]
      · simp only [resetForgotPassword, hnone2, authThrow]
        exact hfound

/-- C28 at the sample store: ann's verification token and her reset token work
once. -/
theorem temporary_tokens_are_single_use_witness :
    authStore.uniqueUserIds ∧
    (verifyEmail samplePrimitives authStore 1000 "verify").status = some 200 ∧
    (verifyEmail samplePrimitives (verifyEmail samplePrimitives authStore 1000 "verify").store
      1001 "verify").result =
      .error (.api { statusCode := 400, message := "Token is invalid or expired" }) ∧
    (resetForgotPassword samplePrimitives authStore 1000 "reset" "first").status = some 200 ∧
    (resetForgotPassword samplePrimitives
      (resetForgotPassword samplePrimitives authStore 1000 "reset" "first").store 1001
      "reset" "second").store
      = (resetForgotPassword samplePrimitives authStore 1000 "reset" "first").store :=
  have h := temporary_tokens_are_single_use samplePrimitives authStore 1000 1001 "verify"
    "reset" "first" "second" (by decide)
  ⟨by decide, rfl, h.1 (by decide) rfl, rfl, (h.2 (by decide) rfl).2.1⟩

end ProjectCamp
